import Mathlib

/-!
# FlashGraph: vertex compute tasks and the computation I/O scheduler

A shallow embedding of `flash-graph/vertex_compute.cpp` and
`include/comp_io_scheduler.h`.

* C++ objects become records, member functions become functions that take
  the object and return the updated object.
* Calls that leave the task (to the issuing worker thread, the index
  reader, the vertex program, the buffer and task allocators) are
  recorded, in call order, in a trace of events.
* `assert` is modelled as a failure result; `size_t` counters are natural
  numbers (they only ever grow by one or by the length of an id array).
-/

namespace FlashGraph

/-! ## Values -/

abbrev vertex_id_t := Nat

abbrev vsize_t := Nat

/-- Location and size of one vertex on storage (`ext_mem_vertex_info`). -/
structure ext_mem_vertex_info where
  id : vertex_id_t
  off : Nat
  size : Nat
deriving DecidableEq, Repr

/-- Fetched bytes together with the offset they were read from.
`vertex_id` is what `page_directed_vertex::get_id(array)` decodes from the
bytes. -/
structure page_byte_array where
  offset : Nat
  vertex_id : vertex_id_t
  data : List Nat
deriving DecidableEq, Repr

/-- Copy `array.clone()`: an owned copy with the same bytes and offset. -/
def page_byte_array.clone (array : page_byte_array) : page_byte_array :=
  { offset := array.offset, vertex_id := array.vertex_id, data := array.data }

def page_byte_array.get_offset (array : page_byte_array) : Nat := array.offset

inductive access_method where
  | READ
  | WRITE
deriving DecidableEq, Repr

structure data_loc_t where
  file_id : Nat
  off : Nat
deriving DecidableEq, Repr

/-- Pointer to the vertex a compute task works for (`compute_vertex_pointer`). -/
structure compute_vertex_pointer where
  id : vertex_id_t
  is_part : Bool
deriving DecidableEq, Repr

/-- Request `io_request(this, loc, size, READ)`; `compute` identifies `this`. -/
structure io_request where
  compute : compute_vertex_pointer
  loc : data_loc_t
  size : Nat
  access : access_method
deriving DecidableEq, Repr

/-- Request `request_range(loc, size, READ, this)`. -/
structure request_range where
  loc : data_loc_t
  size : Nat
  access : access_method
  compute : compute_vertex_pointer
deriving DecidableEq, Repr

inductive edge_type where
  | IN_EDGE
  | OUT_EDGE
  | BOTH_EDGES
deriving DecidableEq, Repr

structure directed_vertex_request where
  id : vertex_id_t
  type : edge_type
deriving DecidableEq, Repr

/-- The views handed to the vertex program: `page_undirected_vertex(array)`,
`page_directed_vertex(array, in_part)` and `page_directed_vertex(in, out)`. -/
inductive page_vertex where
  | undirected (array : page_byte_array)
  | directed_part (array : page_byte_array) (in_part : Bool)
  | directed (in_arr out_arr : page_byte_array)
deriving DecidableEq, Repr

/-- The header-only views `vertex_header(id, num_edges)` and
`directed_vertex_header(id, num_in_edges, num_out_edges)`. -/
inductive vertex_header where
  | undirected (id : vertex_id_t) (num_edges : vsize_t)
  | directed (id : vertex_id_t) (num_in_edges num_out_edges : vsize_t)
deriving DecidableEq, Repr

/-- A call leaving the task, in the order the code makes it. -/
inductive event where
  | start_run_vertex (v : compute_vertex_pointer)
  | vprog_run (v : compute_vertex_pointer) (pg_v : page_vertex)
  | vprog_run_on_num_edges (v : compute_vertex_pointer) (header : vertex_header)
  | finish_run_vertex (v : compute_vertex_pointer)
  | complete_vertex (v : compute_vertex_pointer)
  | issue_io_request (req : io_request)
  | index_request_vertices (ids : List vertex_id_t)
  | index_request_directed_vertices (reqs : List directed_vertex_request)
  | index_request_num_edges (ids : List vertex_id_t)
  | index_request_num_directed_edges (ids : List vertex_id_t)
  | destroy (array : page_byte_array)
deriving DecidableEq, Repr

/-- What a vertex program may ask of its compute task while it runs: the two
virtual request methods of `vertex_compute`. -/
inductive vertex_request where
  | vertices (ids : List vertex_id_t)
  | num_edges (ids : List vertex_id_t)
deriving DecidableEq, Repr

/-- The user-supplied vertex program: its two entry points, each returning
the requests it makes on the running task. -/
structure vertex_program where
  run : compute_vertex_pointer → page_vertex → List vertex_request
  run_on_num_edges : compute_vertex_pointer → vertex_header → List vertex_request

/-- The part of `worker_thread` the task reads: the program for whole
vertices and the one for vertex parts. -/
structure worker_thread where
  get_vertex_program : Bool → vertex_program

/-- The part of `graph_engine` the task reads. -/
structure graph_engine where
  file_id : Nat
  in_part_size : Nat
  cal_num_edges : Nat → vsize_t
  has_edge_data : Bool

inductive failure where
  | EmptyQueue
  | NotMember
  | InvariantViolation
deriving DecidableEq, Repr

/-! ## The compute task -/

/-- The type `combine_map_t`: a map from vertex id to a buffer pointer, `none`
for `NULL`; kept as a list of entries in insertion order. -/
abbrev combine_map_t := List (vertex_id_t × Option page_byte_array)

/-- State of a `vertex_compute`: the counters and the local queue of the
class, the member `combine_map` added by `directed_vertex_compute`, and
`trace`, the calls made so far. `issued_to_io` is what the predicate
`issued_to_io()` (declared in a header that is not among the sources)
answers: whether the task is in flight with the I/O layer. -/
structure vertex_compute where
  v : compute_vertex_pointer
  requested_vertices : List ext_mem_vertex_info
  num_requested : Nat
  num_issued : Nat
  num_complete_fetched : Nat
  num_edge_requests : Nat
  num_edge_completed : Nat
  issued_to_io : Bool
  combine_map : combine_map_t
  trace : List event
deriving DecidableEq, Repr

/-- Modelled from the spec: the constructor is in vertex_compute.h, which is
not among the sources. A freshly created task for vertex `v` has requested,
issued and completed nothing, has an empty local queue and an empty combine
map, and is not in flight with the I/O layer. -/
def vertex_compute.create (v : compute_vertex_pointer) : vertex_compute :=
  { v := v, requested_vertices := [], num_requested := 0, num_issued := 0,
    num_complete_fetched := 0, num_edge_requests := 0, num_edge_completed := 0,
    issued_to_io := false, combine_map := [], trace := [] }

def vertex_compute.emit (c : vertex_compute) (e : event) : vertex_compute :=
  { c with trace := c.trace ++ [e] }

/-- Modelled from the spec: the comparator of the pending-request queue is
declared in vertex_compute.h, which is not among the sources; the spec asks
for an ordering that favours I/O locality and names ascending storage
offset. `vertex_info_comp a b` says that `a` comes after `b`. -/
def vertex_info_comp (info1 info2 : ext_mem_vertex_info) : Bool :=
  decide (info2.off < info1.off)

/-- Operation `requested_vertices.push(info)` of the priority queue, kept as a
list whose head is `top()`. Entries the comparator ranks alike are kept in
arrival order here; the heap of the C++ container hands such entries out in
an order of its own, so between entries at one offset the list says which
entries are queued, not which of them is handed out first. -/
def pq_push (info : ext_mem_vertex_info) :
    List ext_mem_vertex_info → List ext_mem_vertex_info
  | [] => [info]
  | x :: xs => if vertex_info_comp x info then info :: x :: xs else x :: pq_push info xs

/-- Unsigned difference of two counters that are meant to satisfy
`done ≤ asked`: zero exactly when they are equal. -/
def outstanding (asked done : Nat) : Nat :=
  if done ≤ asked then asked - done else done - asked

/-- Modelled from the spec: `get_num_pending` is declared in
vertex_compute.h, which is not among the sources. The spec calls a task
finished "exactly when every issued request (vertex-data and
edge-metadata) has completed and the local queue is empty"; the count is
zero in exactly that case. The sources only ever compare it with zero, and
`run_on_vertex_size` advances `num_edge_completed` right before the
comparison. -/
def vertex_compute.get_num_pending (c : vertex_compute) : Nat :=
  outstanding c.num_issued c.num_complete_fetched
    + outstanding c.num_edge_requests c.num_edge_completed
    + c.requested_vertices.length

/-- Method `vertex_compute::get_next_request`; `none` when the queue is empty
(the code reads `top()` without a check). -/
def vertex_compute.get_next_request (g : graph_engine) (c : vertex_compute) :
    Option (request_range × vertex_compute) :=
  match c.requested_vertices with
  | [] => none
  | info :: rest =>
    let loc : data_loc_t := { file_id := g.file_id, off := info.off }
    some ({ loc := loc, size := info.size, access := access_method.READ, compute := c.v },
          { c with requested_vertices := rest, num_issued := c.num_issued + 1 })

/-- Method `vertex_compute::request_vertices`. -/
def vertex_compute.request_vertices (c : vertex_compute) (ids : List vertex_id_t) :
    vertex_compute :=
  { c with num_requested := c.num_requested + ids.length,
           trace := c.trace ++ [event.index_request_vertices ids] }

/-- Method `vertex_compute::request_num_edges`. -/
def vertex_compute.request_num_edges (c : vertex_compute) (ids : List vertex_id_t) :
    vertex_compute :=
  { c with num_edge_requests := c.num_edge_requests + ids.length,
           trace := c.trace ++ [event.index_request_num_edges ids] }

/-- The requests a vertex program makes while it runs on an undirected task. -/
def vertex_compute.serve (c : vertex_compute) : List vertex_request → vertex_compute
  | [] => c
  | vertex_request.vertices ids :: rs => (c.request_vertices ids).serve rs
  | vertex_request.num_edges ids :: rs => (c.request_num_edges ids).serve rs

/-- Method `vertex_compute::complete_request`. -/
def vertex_compute.complete_request (c : vertex_compute) : vertex_compute :=
  let c1 := { c with num_complete_fetched := c.num_complete_fetched + 1 }
  if c1.get_num_pending = 0 then c1.emit (event.complete_vertex c1.v) else c1

/-- Method `vertex_compute::complete_request` with the count it tests,
`get_num_pending()`, as the parameter `pending`: the counter is raised, and
the owner is told when `pending` is zero. -/
def vertex_compute.complete_request_with (pending : vertex_compute → Nat)
    (c : vertex_compute) : vertex_compute :=
  let c1 := { c with num_complete_fetched := c.num_complete_fetched + 1 }
  if pending c1 = 0 then c1.emit (event.complete_vertex c1.v) else c1

/-- Modelled from the spec: `get_num_pending`, declared in vertex_compute.h,
which is not among the sources, as the contract of `completeOneRequest()`
words the test: it signals "if `completed == issued` and the local queue is
empty". The count is zero in exactly that case. `get_num_pending` above
follows the wording of the data model, which counts the edge-metadata
requests too; the two agree on every task whose requested edge counts have
all arrived. -/
def vertex_compute.get_num_pending_fetches (c : vertex_compute) : Nat :=
  outstanding c.num_issued c.num_complete_fetched + c.requested_vertices.length

/-- Method `vertex_compute::run_on_vertex_size`. -/
def vertex_compute.run_on_vertex_size (g : graph_engine) (t : worker_thread)
    (c : vertex_compute) (id : vertex_id_t) (size : vsize_t) :
    Except failure vertex_compute :=
  let num_edges := g.cal_num_edges size
  if g.has_edge_data then Except.error failure.InvariantViolation
  else
    let header := vertex_header.undirected id num_edges
    let c1 := c.emit (event.start_run_vertex c.v)
    let c2 := (c1.emit (event.vprog_run_on_num_edges c1.v header)).serve
      ((t.get_vertex_program c1.v.is_part).run_on_num_edges c1.v header)
    let c3 := c2.emit (event.finish_run_vertex c2.v)
    let c4 := { c3 with num_edge_completed := c3.num_edge_completed + 1 }
    Except.ok (if c4.get_num_pending = 0 then c4.emit (event.complete_vertex c4.v) else c4)

/-- Method `vertex_compute::get_id`. -/
def vertex_compute.get_id (c : vertex_compute) : vertex_id_t := c.v.id

/-- Method `vertex_compute::issue_io_request`. -/
def vertex_compute.issue_io_request (g : graph_engine) (c : vertex_compute)
    (info : ext_mem_vertex_info) : vertex_compute :=
  if c.issued_to_io then
    { c with requested_vertices := pq_push info c.requested_vertices }
  else
    let loc : data_loc_t := { file_id := g.file_id, off := info.off }
    let req : io_request :=
      { compute := c.v, loc := loc, size := info.size, access := access_method.READ }
    let c1 := { c with num_issued := c.num_issued + 1 }
    c1.emit (event.issue_io_request req)

/-- Method `vertex_compute::run`. -/
def vertex_compute.run (t : worker_thread) (c : vertex_compute) (array : page_byte_array) :
    vertex_compute :=
  let pg_v := page_vertex.undirected array
  let curr_vprog := t.get_vertex_program c.v.is_part
  let c1 := c.emit (event.start_run_vertex c.v)
  let c2 := (c1.emit (event.vprog_run c1.v pg_v)).serve (curr_vprog.run c1.v pg_v)
  let c3 := c2.emit (event.finish_run_vertex c2.v)
  c3.complete_request

/-! ## The directed compute task -/

/-- Lookup `combine_map.find(id)`: `none` for `end()`, `some none` for an entry
holding `NULL`, `some (some a)` for an entry holding a stored buffer. -/
def combine_map_find (m : combine_map_t) (id : vertex_id_t) :
    Option (Option page_byte_array) :=
  match m with
  | [] => none
  | (k, val) :: rest => if k = id then some val else combine_map_find rest id

/-- Insertion `combine_map.insert(value_type(id, NULL))`: a key that is
already present keeps its entry. -/
def combine_map_insert (m : combine_map_t) (id : vertex_id_t) : combine_map_t :=
  match combine_map_find m id with
  | some _ => m
  | none => m ++ [(id, none)]

/-- Assignment `it->second = arr` through the iterator found for `id`. -/
def combine_map_assign (m : combine_map_t) (id : vertex_id_t) (arr : page_byte_array) :
    combine_map_t :=
  match m with
  | [] => []
  | (k, val) :: rest =>
    if k = id then (k, some arr) :: rest else (k, val) :: combine_map_assign rest id arr

/-- Removal `combine_map.erase(it)` through the iterator found for `id`. -/
def combine_map_erase (m : combine_map_t) (id : vertex_id_t) : combine_map_t :=
  match m with
  | [] => []
  | (k, val) :: rest =>
    if k = id then rest else (k, val) :: combine_map_erase rest id

/-- Static function `page_directed_vertex::get_id(array)`. -/
def page_directed_vertex.get_id (array : page_byte_array) : vertex_id_t := array.vertex_id

namespace directed_vertex_compute

/-- Method `directed_vertex_compute::request_partial_vertices`. -/
def request_partial_vertices (c : vertex_compute) (reqs : List directed_vertex_request) :
    vertex_compute :=
  { c with num_requested := c.num_requested + reqs.length,
           trace := c.trace ++ [event.index_request_directed_vertices reqs] }

/-- Method `directed_vertex_compute::request_vertices`. -/
def request_vertices (c : vertex_compute) (ids : List vertex_id_t) : vertex_compute :=
  let reqs := ids.map (fun id => ({ id := id, type := edge_type.BOTH_EDGES } : directed_vertex_request))
  request_partial_vertices c reqs

/-- Method `directed_vertex_compute::request_num_edges`. -/
def request_num_edges (c : vertex_compute) (ids : List vertex_id_t) : vertex_compute :=
  { c with num_edge_requests := c.num_edge_requests + ids.length,
           trace := c.trace ++ [event.index_request_num_directed_edges ids] }

/-- The requests a vertex program makes while it runs on a directed task. -/
def serve (c : vertex_compute) : List vertex_request → vertex_compute
  | [] => c
  | vertex_request.vertices ids :: rs => serve (request_vertices c ids) rs
  | vertex_request.num_edges ids :: rs => serve (request_num_edges c ids) rs

/-- Method `directed_vertex_compute::run_on_page_vertex`. -/
def run_on_page_vertex (t : worker_thread) (c : vertex_compute) (pg_v : page_vertex) :
    vertex_compute :=
  let curr_vprog := t.get_vertex_program c.v.is_part
  let c1 := c.emit (event.start_run_vertex c.v)
  let c2 := serve (c1.emit (event.vprog_run c1.v pg_v)) (curr_vprog.run c1.v pg_v)
  let c3 := c2.emit (event.finish_run_vertex c2.v)
  c3.complete_request

/-- Method `directed_vertex_compute::run`. -/
def run (g : graph_engine) (t : worker_thread) (c : vertex_compute)
    (array : page_byte_array) : Except failure vertex_compute :=
  if c.combine_map.isEmpty then
    Except.ok (run_on_page_vertex t c
      (page_vertex.directed_part array (decide (array.get_offset < g.in_part_size))))
  else
    let id := page_directed_vertex.get_id array
    match combine_map_find c.combine_map id with
    | none =>
      Except.ok (run_on_page_vertex t c
        (page_vertex.directed_part array (decide (array.get_offset < g.in_part_size))))
    | some none =>
      let arr_copy := array.clone
      Except.ok { c with combine_map := combine_map_assign c.combine_map id arr_copy }
    | some (some stored) =>
      if stored.get_offset < g.in_part_size then
        if array.get_offset ≥ g.in_part_size then
          let c1 := run_on_page_vertex t c (page_vertex.directed stored array)
          let c2 := c1.emit (event.destroy stored)
          Except.ok { c2 with combine_map := combine_map_erase c2.combine_map id }
        else Except.error failure.InvariantViolation
      else
        if array.get_offset < g.in_part_size then
          let c1 := run_on_page_vertex t c (page_vertex.directed array stored)
          let c2 := c1.emit (event.destroy stored)
          Except.ok { c2 with combine_map := combine_map_erase c2.combine_map id }
        else Except.error failure.InvariantViolation

/-- Method `directed_vertex_compute::run_on_vertex_size`. -/
def run_on_vertex_size (g : graph_engine) (t : worker_thread) (c : vertex_compute)
    (id : vertex_id_t) (in_size out_size : Nat) : Except failure vertex_compute :=
  let num_in_edges := g.cal_num_edges in_size
  let num_out_edges := g.cal_num_edges out_size
  if g.has_edge_data then Except.error failure.InvariantViolation
  else
    let header := vertex_header.directed id num_in_edges num_out_edges
    let c1 := c.emit (event.start_run_vertex c.v)
    let c2 := serve (c1.emit (event.vprog_run_on_num_edges c1.v header))
      ((t.get_vertex_program c1.v.is_part).run_on_num_edges c1.v header)
    let c3 := c2.emit (event.finish_run_vertex c2.v)
    let c4 := { c3 with num_edge_completed := c3.num_edge_completed + 1 }
    Except.ok (if c4.get_num_pending = 0 then c4.emit (event.complete_vertex c4.v) else c4)

/-- Method `directed_vertex_compute::issue_io_request(in_info, out_info)`. -/
def issue_io_request (g : graph_engine) (c : vertex_compute)
    (in_info out_info : ext_mem_vertex_info) : Except failure vertex_compute :=
  if in_info.id = out_info.id then
    let loc1 : data_loc_t := { file_id := g.file_id, off := in_info.off }
    let req1 : io_request :=
      { compute := c.v, loc := loc1, size := in_info.size, access := access_method.READ }
    let c1 := c.emit (event.issue_io_request req1)
    let loc2 : data_loc_t := { file_id := g.file_id, off := out_info.off }
    let req2 : io_request :=
      { compute := c1.v, loc := loc2, size := out_info.size, access := access_method.READ }
    let c2 := c1.emit (event.issue_io_request req2)
    Except.ok { c2 with combine_map := combine_map_insert c2.combine_map in_info.id,
                        num_issued := c2.num_issued + 1 }
  else Except.error failure.InvariantViolation

end directed_vertex_compute

/-! ## The computation I/O scheduler -/

/-- Address of a `user_compute` object. -/
abbrev compute_ptr := Nat

/-- The part of `user_compute` the scheduler touches: the `IN_QUEUE` flag
(`test_flag`, `set_flag`) and the reference count (`inc_ref`, `dec_ref`,
`get_ref`). The class is declared in a header that is not among the
sources; its accessors below do what their names and the spec's membership
flag and reference count say. -/
structure user_compute where
  IN_QUEUE : Bool
  num_refs : Int
deriving DecidableEq, Repr

def user_compute.test_flag (c : user_compute) : Bool := c.IN_QUEUE

def user_compute.set_flag (c : user_compute) (value : Bool) : user_compute :=
  { c with IN_QUEUE := value }

def user_compute.inc_ref (c : user_compute) : user_compute :=
  { c with num_refs := c.num_refs + 1 }

def user_compute.dec_ref (c : user_compute) : user_compute :=
  { c with num_refs := c.num_refs - 1 }

def user_compute.get_ref (c : user_compute) : Int := c.num_refs

/-- A `comp_io_scheduler` together with the task objects its queue points to:
`incomplete_computes` is the queue (a `fifo_queue`, kept as a list whose
last element is the back), `mem` the objects by address, `freed` the
addresses handed back to their allocator, oldest first. -/
structure comp_io_scheduler where
  incomplete_computes : List compute_ptr
  mem : compute_ptr → user_compute
  freed : List compute_ptr

/-- Write object `c` at address `p`. -/
def comp_io_scheduler.store (s : comp_io_scheduler) (p : compute_ptr) (c : user_compute) :
    comp_io_scheduler :=
  { s with mem := fun q => if q = p then c else s.mem q }

/-- Method `comp_io_scheduler::add_compute`. -/
def comp_io_scheduler.add_compute (s : comp_io_scheduler) (compute : compute_ptr) :
    comp_io_scheduler :=
  if ¬ (s.mem compute).test_flag then
    let s1 := s.store compute (s.mem compute).inc_ref
    let s2 := { s1 with incomplete_computes := s1.incomplete_computes ++ [compute] }
    s2.store compute ((s2.mem compute).set_flag true)
  else s

/-- Method `comp_io_scheduler::delete_compute`; the first `assert` fails as
`NotMember`, the second as `InvariantViolation`. -/
def comp_io_scheduler.delete_compute (s : comp_io_scheduler) (compute : compute_ptr) :
    Except failure comp_io_scheduler :=
  if (s.mem compute).test_flag then
    let s1 := s.store compute ((s.mem compute).set_flag false)
    let s2 := s1.store compute (s1.mem compute).dec_ref
    if (s2.mem compute).get_ref = 0 then
      Except.ok { s2 with freed := s2.freed ++ [compute] }
    else Except.error failure.InvariantViolation
  else Except.error failure.NotMember

/-- Method `comp_io_scheduler::get_num_incomplete_computes`. -/
def comp_io_scheduler.get_num_incomplete_computes (s : comp_io_scheduler) : Nat :=
  s.incomplete_computes.length

/-- Method `comp_io_scheduler::is_empty`. -/
def comp_io_scheduler.is_empty (s : comp_io_scheduler) : Bool :=
  s.incomplete_computes.isEmpty

/-- The destructor `~comp_io_scheduler`: its `assert` on the queue. -/
def comp_io_scheduler.destroy (s : comp_io_scheduler) : Except failure Unit :=
  if s.is_empty then Except.ok () else Except.error failure.InvariantViolation

/-- One call on the scheduler, as a caller can make it. -/
inductive sched_op where
  | add_compute (compute : compute_ptr)
  | delete_compute (compute : compute_ptr)
deriving DecidableEq, Repr

/-- A new scheduler: an empty queue, over task objects whose `IN_QUEUE` flag is
clear and whose reference counts are `refs`; nothing freed yet. -/
def comp_io_scheduler.create (refs : compute_ptr → Int) : comp_io_scheduler :=
  { incomplete_computes := [],
    mem := fun p => { IN_QUEUE := false, num_refs := refs p },
    freed := [] }

/-- Run one call; `none` when an `assert` of the call fails. -/
def comp_io_scheduler.step (s : comp_io_scheduler) : sched_op → Option comp_io_scheduler
  | sched_op.add_compute p => some (s.add_compute p)
  | sched_op.delete_compute p =>
    match s.delete_compute p with
    | Except.ok s1 => some s1
    | Except.error _ => none

/-- Run a sequence of calls, first to last. -/
def comp_io_scheduler.steps (s : comp_io_scheduler) : List sched_op → Option comp_io_scheduler
  | [] => some s
  | op :: ops =>
    match s.step op with
    | some s1 => s1.steps ops
    | none => none

/-- A call that does not touch freed memory: `add_compute` is not given an
address that was handed back to its allocator. -/
def comp_io_scheduler.step_live (s : comp_io_scheduler) : sched_op → Option comp_io_scheduler
  | sched_op.add_compute p => if p ∈ s.freed then none else s.step (sched_op.add_compute p)
  | sched_op.delete_compute p => s.step (sched_op.delete_compute p)

/-- Run a sequence of calls none of which touches freed memory. -/
def comp_io_scheduler.steps_live (s : comp_io_scheduler) :
    List sched_op → Option comp_io_scheduler
  | [] => some s
  | op :: ops =>
    match s.step_live op with
    | some s1 => s1.steps_live ops
    | none => none

/-- A scheduler holding tasks 1 and 2, task 2 registered with one reference. -/
def sched_sample : comp_io_scheduler :=
  { incomplete_computes := [2],
    mem := fun p => if p = 2 then { IN_QUEUE := true, num_refs := 1 }
                    else { IN_QUEUE := false, num_refs := 0 },
    freed := [] }

/-- The scheduler after task 7 and task 8 were added and task 7 was deleted
again, starting from an empty scheduler over unreferenced tasks. -/
def sched_after_delete : comp_io_scheduler :=
  (((comp_io_scheduler.create (fun _ => 0)).steps_live
    [sched_op.add_compute 7, sched_op.add_compute 8, sched_op.delete_compute 7]).getD
    (comp_io_scheduler.create (fun _ => 0)))

/-- The queue invariant kept by calls that do not touch freed memory. -/
def queue_inv (s : comp_io_scheduler) : Prop :=
  s.incomplete_computes.Nodup
  ∧ ∀ p, p ∈ s.incomplete_computes ↔ ((s.mem p).test_flag = true ∨ p ∈ s.freed)

/-! ## Reading a trace -/

/-- The views the vertex program was run on, in call order. -/
def program_views : List event → List page_vertex
  | [] => []
  | event.vprog_run _ pg_v :: es => pg_v :: program_views es
  | _ :: es => program_views es

/-- Number of vertex-complete signals (`complete_vertex`) in a trace. -/
def completions : List event → Nat
  | [] => 0
  | event.complete_vertex _ :: es => completions es + 1
  | _ :: es => completions es

/-- Number of start and finish notifications in a trace. -/
def notifications : List event → Nat
  | [] => 0
  | event.start_run_vertex _ :: es => notifications es + 1
  | event.finish_run_vertex _ :: es => notifications es + 1
  | _ :: es => notifications es

/-- The index-reader call a request of the vertex program makes on an
undirected task. -/
def vertex_request.call : vertex_request → event
  | vertex_request.vertices ids => event.index_request_vertices ids
  | vertex_request.num_edges ids => event.index_request_num_edges ids

/-- The index-reader call a request of the vertex program makes on a directed
task. -/
def vertex_request.directed_call : vertex_request → event
  | vertex_request.vertices ids =>
    event.index_request_directed_vertices
      (ids.map (fun id => ({ id := id, type := edge_type.BOTH_EDGES } : directed_vertex_request)))
  | vertex_request.num_edges ids => event.index_request_num_directed_edges ids

/-- Number of vertices asked for by a list of program requests. -/
def asked_vertices : List vertex_request → Nat
  | [] => 0
  | vertex_request.vertices ids :: rs => ids.length + asked_vertices rs
  | vertex_request.num_edges _ :: rs => asked_vertices rs

/-- Number of edge counts asked for by a list of program requests. -/
def asked_num_edges : List vertex_request → Nat
  | [] => 0
  | vertex_request.vertices _ :: rs => asked_num_edges rs
  | vertex_request.num_edges ids :: rs => ids.length + asked_num_edges rs

/-- The completion test of `complete_request` and `run_on_vertex_size`, spelled
out on the counters. -/
def vertex_compute.all_done (c : vertex_compute) : Prop :=
  c.num_complete_fetched = c.num_issued
  ∧ c.num_edge_completed = c.num_edge_requests
  ∧ c.requested_vertices = []

/-! ## Sample inputs -/

/-- A graph whose in-edge part is the first 100 bytes of file 0. -/
def graph_sample : graph_engine :=
  { file_id := 0, in_part_size := 100, cal_num_edges := fun size => size / 4,
    has_edge_data := false }

/-- A worker thread whose vertex programs request nothing. -/
def thread_quiet : worker_thread :=
  { get_vertex_program := fun _ =>
      { run := fun _ _ => [], run_on_num_edges := fun _ _ => [] } }

/-- A worker thread whose vertex program asks for the edge count of vertex 9
whenever it is run on a vertex. -/
def thread_asking : worker_thread :=
  { get_vertex_program := fun _ =>
      { run := fun _ _ => [vertex_request.num_edges [9]],
        run_on_num_edges := fun _ _ => [] } }

/-- The vertex the sample tasks work for. -/
def vertex_sample : compute_vertex_pointer := { id := 5, is_part := false }

/-- The in-edge half of vertex 42, read at offset 10. -/
def in_half_42 : page_byte_array := { offset := 10, vertex_id := 42, data := [1, 2] }

/-- The out-edge half of vertex 42, read at offset 150. -/
def out_half_42 : page_byte_array := { offset := 150, vertex_id := 42, data := [3] }

/-- A task that asked for the edge count of vertex 9 and then issued one
vertex fetch: one buffer and one edge count are still to arrive. -/
def task_edge_outstanding : vertex_compute :=
  ((vertex_compute.create vertex_sample).request_num_edges [9]).issue_io_request graph_sample
    { id := 7, off := 40, size := 8 }

/-- A directed task that has paired the two fetches of vertex 42 (one issued
request), no half received yet. -/
def task_paired_42 : vertex_compute :=
  { vertex_compute.create vertex_sample with
    num_requested := 1, num_issued := 1, combine_map := [(42, none)] }

/-- A directed task holding the out-edge half of vertex 42, the in-edge half
still to come; vertex 43 is paired as well. -/
def task_half_42 : vertex_compute :=
  { vertex_compute.create vertex_sample with
    num_requested := 2, num_issued := 2,
    combine_map := [(43, none), (42, some out_half_42)] }

/-- The state in which the merge branch of `directed_vertex_compute::run`
leaves task `c`: the program was run on the view built from `in_arr` and
`out_arr`, the buffer `stored` was destroyed and the map entry of `id`
erased. -/
def directed_vertex_compute.joined (t : worker_thread) (c : vertex_compute)
    (in_arr out_arr stored : page_byte_array) (id : vertex_id_t) : vertex_compute :=
  let c1 := directed_vertex_compute.run_on_page_vertex t c
    (page_vertex.directed in_arr out_arr)
  let c2 := c1.emit (event.destroy stored)
  { c2 with combine_map := combine_map_erase c.combine_map id }

/-! ## Sequences of calls on a task -/

/-- Something arriving at an undirected task: a fetched buffer (for `run`) or
the size of a vertex (for `run_on_vertex_size`). -/
inductive arrival where
  | buffer (array : page_byte_array)
  | vertex_size (id : vertex_id_t) (size : vsize_t)
deriving DecidableEq, Repr

/-- Hand one arrival to the task. -/
def vertex_compute.deliver (g : graph_engine) (t : worker_thread) (c : vertex_compute) :
    arrival → Except failure vertex_compute
  | arrival.buffer array => Except.ok (c.run t array)
  | arrival.vertex_size id size => c.run_on_vertex_size g t id size

/-- Hand a sequence of arrivals to the task, first to last. -/
def vertex_compute.deliver_all (g : graph_engine) (t : worker_thread) (c : vertex_compute) :
    List arrival → Except failure vertex_compute
  | [] => Except.ok c
  | x :: xs =>
    match c.deliver g t x with
    | Except.ok c1 => c1.deliver_all g t xs
    | Except.error e => Except.error e

/-- Number of buffers among the arrivals. -/
def num_buffers : List arrival → Nat
  | [] => 0
  | arrival.buffer _ :: xs => num_buffers xs + 1
  | arrival.vertex_size _ _ :: xs => num_buffers xs

/-- Number of vertex sizes among the arrivals. -/
def num_sizes : List arrival → Nat
  | [] => 0
  | arrival.buffer _ :: xs => num_sizes xs
  | arrival.vertex_size _ _ :: xs => num_sizes xs + 1

/-- The views `run` builds for the buffers among the arrivals. -/
def arrival_views : List arrival → List page_vertex
  | [] => []
  | arrival.buffer array :: xs => page_vertex.undirected array :: arrival_views xs
  | arrival.vertex_size _ _ :: xs => arrival_views xs

/-- A call on a task, undirected or directed; `set_issued_to_io` is the I/O
layer taking the task in flight or handing it back. -/
inductive task_op where
  | request_vertices (ids : List vertex_id_t)
  | request_num_edges (ids : List vertex_id_t)
  | issue_io_request (info : ext_mem_vertex_info)
  | get_next_request
  | run (array : page_byte_array)
  | run_on_vertex_size (id : vertex_id_t) (size : vsize_t)
  | complete_request
  | directed_request_vertices (ids : List vertex_id_t)
  | directed_request_partial_vertices (reqs : List directed_vertex_request)
  | directed_request_num_edges (ids : List vertex_id_t)
  | directed_issue_io_request (in_info out_info : ext_mem_vertex_info)
  | directed_run (array : page_byte_array)
  | directed_run_on_vertex_size (id : vertex_id_t) (in_size out_size : Nat)
  | set_issued_to_io (value : Bool)
deriving DecidableEq, Repr

/-- Run one call on a task; `none` when the call fails. -/
def vertex_compute.step (g : graph_engine) (t : worker_thread) (c : vertex_compute) :
    task_op → Option vertex_compute
  | task_op.request_vertices ids => some (c.request_vertices ids)
  | task_op.request_num_edges ids => some (c.request_num_edges ids)
  | task_op.issue_io_request info => some (c.issue_io_request g info)
  | task_op.get_next_request => (c.get_next_request g).map Prod.snd
  | task_op.run array => some (c.run t array)
  | task_op.run_on_vertex_size id size => (c.run_on_vertex_size g t id size).toOption
  | task_op.complete_request => some c.complete_request
  | task_op.directed_request_vertices ids =>
    some (directed_vertex_compute.request_vertices c ids)
  | task_op.directed_request_partial_vertices reqs =>
    some (directed_vertex_compute.request_partial_vertices c reqs)
  | task_op.directed_request_num_edges ids =>
    some (directed_vertex_compute.request_num_edges c ids)
  | task_op.directed_issue_io_request in_info out_info =>
    (directed_vertex_compute.issue_io_request g c in_info out_info).toOption
  | task_op.directed_run array => (directed_vertex_compute.run g t c array).toOption
  | task_op.directed_run_on_vertex_size id in_size out_size =>
    (directed_vertex_compute.run_on_vertex_size g t c id in_size out_size).toOption
  | task_op.set_issued_to_io value => some { c with issued_to_io := value }

/-- Run a sequence of calls on a task, first to last. -/
def vertex_compute.steps (g : graph_engine) (t : worker_thread) (c : vertex_compute) :
    List task_op → Option vertex_compute
  | [] => some c
  | op :: ops =>
    match c.step g t op with
    | some c1 => c1.steps g t ops
    | none => none

/-- A buffer read at offset 40. -/
def buffer_sample : page_byte_array := { offset := 40, vertex_id := 7, data := [4] }

/-- The vertex ids of the buffers a combine map is still waiting for: two for
an entry holding `NULL`, one for an entry holding a stored half. -/
def awaited : combine_map_t → List vertex_id_t
  | [] => []
  | (k, none) :: rest => k :: k :: awaited rest
  | (k, some _) :: rest => k :: awaited rest

/-- Number of entries of a combine map that hold `NULL`. -/
def num_absent : combine_map_t → Nat
  | [] => 0
  | (_, none) :: rest => num_absent rest + 1
  | (_, some _) :: rest => num_absent rest

/-- A task and the vertex ids of the fetches it has submitted whose buffers
have not been delivered yet. -/
structure io_task where
  compute : vertex_compute
  in_flight : List vertex_id_t
deriving DecidableEq, Repr

/-- A fresh task with nothing in flight. -/
def io_task.create (v : compute_vertex_pointer) : io_task :=
  { compute := vertex_compute.create v, in_flight := [] }

/-- What happens between a task and the I/O layer. -/
inductive io_op where
  | issue (info : ext_mem_vertex_info)
  | next
  | issue_pair (in_info out_info : ext_mem_vertex_info)
  | arrive (array : page_byte_array)
  | set_issued_to_io (value : Bool)
deriving DecidableEq, Repr

/-- One step of a task under the I/O layer's discipline: a buffer arrives only
for a vertex with a fetch in flight and takes that fetch out of flight; the
pair of fetches of a directed vertex is issued only while its id is not in
the combine map, and only on a directed task; `none` when the step is not
allowed or the call fails. -/
def io_task.step (g : graph_engine) (t : worker_thread) (directed : Bool) (s : io_task) :
    io_op → Option io_task
  | io_op.issue info =>
    some { compute := s.compute.issue_io_request g info,
           in_flight := if s.compute.issued_to_io then s.in_flight
                        else info.id :: s.in_flight }
  | io_op.next =>
    match s.compute.requested_vertices with
    | [] => none
    | info :: _ =>
      (s.compute.get_next_request g).map
        (fun r => { compute := r.2, in_flight := info.id :: s.in_flight })
  | io_op.issue_pair in_info out_info =>
    if directed = true ∧ combine_map_find s.compute.combine_map in_info.id = none then
      (directed_vertex_compute.issue_io_request g s.compute in_info out_info).toOption.map
        (fun c => { compute := c, in_flight := in_info.id :: out_info.id :: s.in_flight })
    else none
  | io_op.arrive array =>
    if page_directed_vertex.get_id array ∈ s.in_flight then
      (if directed then (directed_vertex_compute.run g t s.compute array).toOption
       else some (s.compute.run t array)).map
        (fun c => { compute := c,
                    in_flight := s.in_flight.erase (page_directed_vertex.get_id array) })
    else none
  | io_op.set_issued_to_io value =>
    some { s with compute := { s.compute with issued_to_io := value } }

/-- Run a sequence of steps, first to last. -/
def io_task.steps (g : graph_engine) (t : worker_thread) (directed : Bool) (s : io_task) :
    List io_op → Option io_task
  | [] => some s
  | op :: ops =>
    match s.step g t directed op with
    | some s1 => s1.steps g t directed ops
    | none => none

/-- What the steps keep true: the counters balance against the fetches in
flight, every buffer the combine map waits for is in flight, and an
undirected task has an empty combine map. -/
def io_task.balanced (directed : Bool) (s : io_task) : Prop :=
  s.compute.num_issued + num_absent s.compute.combine_map
      = s.compute.num_complete_fetched + s.in_flight.length
  ∧ (awaited s.compute.combine_map).Subperm s.in_flight
  ∧ (directed = false → s.compute.combine_map = [])

/-- The location of the in-edge half of vertex 42. -/
def in_info_42 : ext_mem_vertex_info := { id := 42, off := 10, size := 16 }

/-- The location of the out-edge half of vertex 42. -/
def out_info_42 : ext_mem_vertex_info := { id := 42, off := 150, size := 8 }

/-- The state of a directed task after the steps `ops`, from a fresh task. -/
def io_task.after (ops : List io_op) : io_task :=
  ((io_task.create vertex_sample).steps graph_sample thread_quiet true ops).getD
    (io_task.create vertex_sample)

/-- A directed run under the I/O layer's discipline: the pair of vertex 42 is
issued, its out-edge half arrives, a single fetch of vertex 7 is issued, the
in-edge half of 42 arrives, and last the buffer of vertex 7. -/
def ops_sample : List io_op :=
  [io_op.issue_pair in_info_42 out_info_42, io_op.arrive out_half_42,
   io_op.issue { id := 7, off := 40, size := 8 }, io_op.arrive in_half_42,
   io_op.arrive buffer_sample]

/-- A directed task that asked for vertex 42, issued the pair of fetches and
received the out-edge half: the in-edge half is all that is outstanding. -/
def task_last_half_42 : vertex_compute :=
  ((vertex_compute.create vertex_sample).steps graph_sample thread_quiet
    [task_op.directed_request_vertices [42],
     task_op.directed_issue_io_request in_info_42 out_info_42,
     task_op.directed_run out_half_42]).getD (vertex_compute.create vertex_sample)

/-! ## Where `delete_compute` stops -/

/-- The state in which `comp_io_scheduler::delete_compute` stops: at its
return, or at the `assert` that fails. Nothing is written before the first
`assert`; the flag is cleared and the count dropped before the second. -/
def comp_io_scheduler.delete_compute_stop (s : comp_io_scheduler) (compute : compute_ptr) :
    comp_io_scheduler :=
  if (s.mem compute).test_flag then
    let s1 := s.store compute ((s.mem compute).set_flag false)
    let s2 := s1.store compute (s1.mem compute).dec_ref
    if (s2.mem compute).get_ref = 0 then
      { s2 with freed := s2.freed ++ [compute] }
    else s2
  else s

/-- A scheduler whose queue holds the one registered task 7, referenced once. -/
def sched_one : comp_io_scheduler :=
  (comp_io_scheduler.create (fun _ => 0)).add_compute 7

/-- The scheduler `sched_one` after `delete_compute 7`. -/
def sched_one_deleted : comp_io_scheduler :=
  sched_one.delete_compute_stop 7

/-- A scheduler whose queue holds task 3, registered and referenced twice. -/
def sched_shared : comp_io_scheduler :=
  { incomplete_computes := [3],
    mem := fun p => if p = 3 then { IN_QUEUE := true, num_refs := 2 }
                    else { IN_QUEUE := false, num_refs := 0 },
    freed := [] }

/-! ## `get_next_request` and the empty queue -/

/-- How a call ends: it returns a value, it stops at a failure that the code
raises itself, or it reaches a point where C++ leaves its behaviour
undefined. -/
inductive call_result (α : Type) where
  | returned (a : α)
  | raised (e : failure)
  | undefined

/-- Member `top()` of the priority queue: defined on a non-empty queue only. -/
def pq_top : List ext_mem_vertex_info → Option ext_mem_vertex_info
  | [] => none
  | x :: _ => some x

/-- Member `pop()` of the priority queue: defined on a non-empty queue only. -/
def pq_pop : List ext_mem_vertex_info → Option (List ext_mem_vertex_info)
  | [] => none
  | _ :: xs => some xs

/-- Method `vertex_compute::get_next_request` as a call, statement by
statement: `top()`, `pop()`, the location, `num_issued++` and the `return`.
The body tests nothing, asserts nothing and throws nothing, so it raises no
failure of its own; where `top()` or `pop()` is undefined, so is the call. -/
def vertex_compute.get_next_request_call (g : graph_engine) (c : vertex_compute) :
    call_result (request_range × vertex_compute) :=
  match pq_top c.requested_vertices with
  | none => call_result.undefined
  | some info =>
    match pq_pop c.requested_vertices with
    | none => call_result.undefined
    | some rest =>
      let loc : data_loc_t := { file_id := g.file_id, off := info.off }
      call_result.returned
        ({ loc := loc, size := info.size, access := access_method.READ, compute := c.v },
         { c with requested_vertices := rest, num_issued := c.num_issued + 1 })

/-- A task in flight with the I/O layer, nothing queued, nothing issued. -/
def task_in_flight : vertex_compute :=
  { vertex_compute.create vertex_sample with issued_to_io := true }

/-- A task in flight with two fetches queued, at offsets 8 and 40. -/
def task_two_queued : vertex_compute :=
  (task_in_flight.issue_io_request graph_sample { id := 7, off := 40, size := 8 }).issue_io_request
    graph_sample { id := 2, off := 8, size := 16 }

/-- A directed task that holds the in-edge half of vertex 42 and has vertex 43
paired with nothing received. -/
def task_stored_42 : vertex_compute :=
  { vertex_compute.create vertex_sample with
    num_requested := 2, num_issued := 2,
    combine_map := [(42, some in_half_42), (43, none)] }

/-- The two fetches `directed_vertex_compute::issue_io_request` submits for
`in_info` and `out_info`, in call order. -/
def directed_vertex_compute.pair_requests (g : graph_engine) (c : vertex_compute)
    (in_info out_info : ext_mem_vertex_info) : List event :=
  [event.issue_io_request
     { compute := c.v, loc := { file_id := g.file_id, off := in_info.off },
       size := in_info.size, access := access_method.READ },
   event.issue_io_request
     { compute := c.v, loc := { file_id := g.file_id, off := out_info.off },
       size := out_info.size, access := access_method.READ }]

/-! ## Edge-count arrivals -/

/-- The first part of `vertex_compute::run_on_vertex_size`, up to and
including `finish_run_vertex`: the header is built from the id and the edge
count computed from the size, and the program's header-only entry point is
run on it between the start and the finish call. -/
def vertex_compute.run_on_header (g : graph_engine) (t : worker_thread)
    (c : vertex_compute) (id : vertex_id_t) (size : vsize_t) : vertex_compute :=
  let num_edges := g.cal_num_edges size
  let header := vertex_header.undirected id num_edges
  let c1 := c.emit (event.start_run_vertex c.v)
  let c2 := (c1.emit (event.vprog_run_on_num_edges c1.v header)).serve
    ((t.get_vertex_program c1.v.is_part).run_on_num_edges c1.v header)
  c2.emit (event.finish_run_vertex c2.v)

/-- The first part of `directed_vertex_compute::run_on_vertex_size`, up to and
including `finish_run_vertex`. -/
def directed_vertex_compute.run_on_header (g : graph_engine) (t : worker_thread)
    (c : vertex_compute) (id : vertex_id_t) (in_size out_size : Nat) : vertex_compute :=
  let num_in_edges := g.cal_num_edges in_size
  let num_out_edges := g.cal_num_edges out_size
  let header := vertex_header.directed id num_in_edges num_out_edges
  let c1 := c.emit (event.start_run_vertex c.v)
  let c2 := directed_vertex_compute.serve (c1.emit (event.vprog_run_on_num_edges c1.v header))
    ((t.get_vertex_program c1.v.is_part).run_on_num_edges c1.v header)
  c2.emit (event.finish_run_vertex c2.v)

/-- The last part of both `run_on_vertex_size` methods: `num_edge_completed++`
and the completion test. -/
def vertex_compute.complete_edge_request (c : vertex_compute) : vertex_compute :=
  let c1 := { c with num_edge_completed := c.num_edge_completed + 1 }
  if c1.get_num_pending = 0 then c1.emit (event.complete_vertex c1.v) else c1

/-- The header-only views the vertex program was run on, in call order. -/
def header_views : List event → List vertex_header
  | [] => []
  | event.vprog_run_on_num_edges _ header :: es => header :: header_views es
  | _ :: es => header_views es

/-- A fresh task that asked for the edge count of vertex 9. -/
def task_one_edge_count : vertex_compute :=
  (vertex_compute.create vertex_sample).request_num_edges [9]

/-! ## `eq_all` of sem_kmeans_util.h -/

/-- Library function `std::equal(first1, last1, first2)` on arrays given by
their elements: it compares the `last1 - first1` elements from index
`first1` of `v1` with the elements from index `first2` of `v2`. -/
def std_equal {α : Type} [DecidableEq α] (v1 : Nat → α) (first1 last1 : Nat)
    (v2 : Nat → α) (first2 : Nat) : Bool :=
  (List.range (last1 - first1)).all (fun i => decide (v1 (first1 + i) = v2 (first2 + i)))

/-- Function `eq_all(v1, v2, len)`: `std::equal(&v1[0], &(v1[len-1]), &v2[0])`,
with `len - 1` computed on `unsigned`. -/
def eq_all {α : Type} [DecidableEq α] (v1 v2 : Nat → α) (len : Nat) : Bool :=
  std_equal v1 0 ((len + 4294967295) % 4294967296) v2 0

/-- The array holding the elements of `xs` (and 0 beyond them). -/
def array_of (xs : List Int) : Nat → Int :=
  fun i => xs.getD i 0

/-! ## `matrix_config` of matrix_config.h -/

/-- The exception `fg::conf_exception` with its message. -/
structure conf_exception where
  msg : String
deriving DecidableEq, Repr

/-- The part of `config_map` that `matrix_config::init` uses: its three
readers. Each takes the name of an option and the current value of the
variable it is asked to fill, and gives the value the variable holds after
the call. The class is declared in config_map.h, which is not among the
sources. -/
structure config_map where
  read_option_int : String → Int → Int
  read_option_bool : String → Bool → Bool
  read_option : String → String → String

/-- The configuration `matrix_config`. -/
structure matrix_config where
  num_threads : Int
  prof_file : String
  _in_mem_matrix : Bool
  row_block_size : Int
  rb_io_size : Int
  rb_steal_io_size : Int
  cpu_cache_size : Int
  hilbert_order : Bool
  num_nodes : Int
deriving DecidableEq, Repr

/-- The default constructor `matrix_config::matrix_config`. -/
def matrix_config.default : matrix_config :=
  { num_threads := 4, prof_file := "", _in_mem_matrix := false, row_block_size := 1024,
    rb_io_size := 1024, rb_steal_io_size := 1, cpu_cache_size := 1024 * 1024,
    hilbert_order := true, num_nodes := 1 }

/-- Method `matrix_config::init`; `power2` is the test of common.h, which is
not among the sources. -/
def matrix_config.init (power2 : Int → Bool) (map : config_map) (c : matrix_config) :
    Except conf_exception matrix_config :=
  let c1 := { c with num_threads := map.read_option_int "threads" c.num_threads }
  if ¬ power2 c1.num_threads then
    Except.error { msg := "The number of worker threads has to be 2^n" }
  else
    let c2 := { c1 with prof_file := map.read_option "prof_file" c1.prof_file }
    let c3 := { c2 with
                _in_mem_matrix := map.read_option_bool "in_mem_matrix" c2._in_mem_matrix }
    let c4 := { c3 with
                row_block_size := map.read_option_int "row_block_size" c3.row_block_size }
    let c5 := { c4 with rb_io_size := map.read_option_int "rb_io_size" c4.rb_io_size }
    let c6 := { c5 with
                rb_steal_io_size :=
                  map.read_option_int "rb_steal_io_size" c5.rb_steal_io_size }
    let c7 := { c6 with
                cpu_cache_size := map.read_option_int "cpu_cache_size" c6.cpu_cache_size }
    let c8 := { c7 with
                hilbert_order := map.read_option_bool "hilbert_order" c7.hilbert_order }
    Except.ok { c8 with num_nodes := map.read_option_int "num_nodes" c8.num_nodes }

/-! ## Counting issued fetches -/

/-- Number of vertex infos handed to the undirected `issue_io_request` in a
sequence of calls. -/
def num_issue_calls : List task_op → Nat
  | [] => 0
  | task_op.issue_io_request _ :: ops => num_issue_calls ops + 1
  | _ :: ops => num_issue_calls ops

/-- Number of calls of the directed paired `issue_io_request` in a sequence of
calls. -/
def num_pair_calls : List task_op → Nat
  | [] => 0
  | task_op.directed_issue_io_request _ _ :: ops => num_pair_calls ops + 1
  | _ :: ops => num_pair_calls ops

/-- A run on an undirected task: two fetches are issued directly, the I/O
layer takes the task, two more are queued and one of them is popped. -/
def ops_issue_sample : List task_op :=
  [task_op.issue_io_request { id := 1, off := 0, size := 8 },
   task_op.issue_io_request { id := 2, off := 8, size := 8 },
   task_op.set_issued_to_io true,
   task_op.issue_io_request { id := 7, off := 40, size := 8 },
   task_op.issue_io_request { id := 3, off := 16, size := 8 },
   task_op.get_next_request]

/-- The task after `ops_issue_sample`, from a fresh task. -/
def task_issue_sample : vertex_compute :=
  ((vertex_compute.create vertex_sample).steps graph_sample thread_quiet ops_issue_sample).getD
    (vertex_compute.create vertex_sample)

/-! ## The start and finish brackets -/

/-- Where a task stands between two of its calls: `outside` any invocation,
`started` (start notified, program not yet called), `running` (program
called, not yet finished) or `finished` (finish notified as the last
call). -/
inductive bracket where
  | outside
  | started
  | running
  | finished
deriving DecidableEq, Repr

/-- A vertex-program invocation: a call of `run` or of `run_on_num_edges`. -/
def event.is_invocation : event → Bool
  | event.vprog_run _ _ => true
  | event.vprog_run_on_num_edges _ _ => true
  | _ => false

/-- A request the running program makes: a call to the index reader. -/
def event.is_program_call : event → Bool
  | event.index_request_vertices _ => true
  | event.index_request_directed_vertices _ => true
  | event.index_request_num_edges _ => true
  | event.index_request_num_directed_edges _ => true
  | _ => false

/-- The bracket discipline of task `v`, one call at a time: a start is made
only outside an invocation or after a finish; the program is called only
right after a start; while it runs only its own requests occur, until the
finish; a vertex-complete signal is raised only right after a finish; a
stored buffer is released only outside an invocation. Every other call is
refused (`none`). -/
def bracket.next (v : compute_vertex_pointer) : bracket → event → Option bracket
  | bracket.outside, event.start_run_vertex w => if w = v then some bracket.started else none
  | bracket.finished, event.start_run_vertex w => if w = v then some bracket.started else none
  | bracket.started, event.vprog_run w _ => if w = v then some bracket.running else none
  | bracket.started, event.vprog_run_on_num_edges w _ =>
    if w = v then some bracket.running else none
  | bracket.running, event.index_request_vertices _ => some bracket.running
  | bracket.running, event.index_request_directed_vertices _ => some bracket.running
  | bracket.running, event.index_request_num_edges _ => some bracket.running
  | bracket.running, event.index_request_num_directed_edges _ => some bracket.running
  | bracket.running, event.finish_run_vertex w => if w = v then some bracket.finished else none
  | bracket.finished, event.complete_vertex w => if w = v then some bracket.outside else none
  | bracket.finished, event.destroy _ => some bracket.outside
  | bracket.outside, event.destroy _ => some bracket.outside
  | _, _ => none

/-- Check a trace against the bracket discipline, first call to last. -/
def bracket.scan (v : compute_vertex_pointer) : bracket → List event → Option bracket
  | st, [] => some st
  | st, e :: es =>
    match bracket.next v st e with
    | some st1 => bracket.scan v st1 es
    | none => none

/-- Something arriving at a task, by the method that receives it. -/
inductive arrival_op where
  | run (array : page_byte_array)
  | run_on_vertex_size (id : vertex_id_t) (size : vsize_t)
  | directed_run (array : page_byte_array)
  | run_on_page_vertex (pg_v : page_vertex)
  | directed_run_on_vertex_size (id : vertex_id_t) (in_size out_size : Nat)
deriving DecidableEq, Repr

/-- Hand one arrival to the task; `none` when the method fails. -/
def vertex_compute.arrive (g : graph_engine) (t : worker_thread) (c : vertex_compute) :
    arrival_op → Option vertex_compute
  | arrival_op.run array => some (c.run t array)
  | arrival_op.run_on_vertex_size id size => (c.run_on_vertex_size g t id size).toOption
  | arrival_op.directed_run array => (directed_vertex_compute.run g t c array).toOption
  | arrival_op.run_on_page_vertex pg_v =>
    some (directed_vertex_compute.run_on_page_vertex t c pg_v)
  | arrival_op.directed_run_on_vertex_size id in_size out_size =>
    (directed_vertex_compute.run_on_vertex_size g t c id in_size out_size).toOption

/-- Hand a sequence of arrivals to the task, first to last. -/
def vertex_compute.arrive_all (g : graph_engine) (t : worker_thread) (c : vertex_compute) :
    List arrival_op → Option vertex_compute
  | [] => some c
  | op :: ops =>
    match c.arrive g t op with
    | some c1 => c1.arrive_all g t ops
    | none => none

/-- Arrivals at a directed task: the two halves of vertex 42, out-edge half
first, then the sizes of vertex 9, then a buffer of vertex 7. -/
def arrivals_sample : List arrival_op :=
  [arrival_op.directed_run out_half_42, arrival_op.directed_run in_half_42,
   arrival_op.directed_run_on_vertex_size 9 16 8, arrival_op.directed_run buffer_sample]

/-- The task `task_paired_42` after `arrivals_sample`, with a program that
asks for an edge count whenever it is run on a vertex. -/
def task_after_arrivals : vertex_compute :=
  (task_paired_42.arrive_all graph_sample thread_asking arrivals_sample).getD task_paired_42

/-- The start and finish notifications of a trace, in order: `true` for a
start, `false` for a finish. -/
def bracket_marks : List event → List Bool
  | [] => []
  | event.start_run_vertex _ :: es => true :: bracket_marks es
  | event.finish_run_vertex _ :: es => false :: bracket_marks es
  | _ :: es => bracket_marks es

/-- Strict alternation of marks, the first one being `b`. -/
def alternates : Bool → List Bool → Bool
  | _, [] => true
  | b, x :: xs => x == b && alternates (!b) xs

/-- Whether the next notification is due to be a start. -/
def bracket.start_due : bracket → Bool
  | bracket.outside => true
  | bracket.finished => true
  | bracket.started => false
  | bracket.running => false

/-! ## `prune_stats` of prune_stats.h -/

/-- One more than the largest `unsigned`: the per-iteration counters and
the two dimensions are 32 bits wide. -/
def UNSIGNED_RANGE : Nat := 4294967296

/-- One more than the largest `unsigned long`: the totals and `iter` are 64
bits wide. -/
def UNSIGNED_LONG_RANGE : Nat := 18446744073709551616

/-- The members of the class `prune_stats`: the five counts of the current
iteration, the five totals, the iteration count and the two dimensions. -/
structure prune_stats where
  lemma1 : Nat
  _3a : Nat
  _3b : Nat
  _3c : Nat
  _4 : Nat
  tot_lemma1 : Nat
  tot_3a : Nat
  tot_3b : Nat
  tot_3c : Nat
  tot_4 : Nat
  iter : Nat
  nrow : Nat
  nclust : Nat
deriving DecidableEq, Repr

/-- The function `prune_stats::create`: every count zero, the dimensions
stored as `unsigned`. -/
def prune_stats.create (nrows nclust : Nat) : prune_stats :=
  { lemma1 := 0, _3a := 0, _3b := 0, _3c := 0, _4 := 0,
    tot_lemma1 := 0, tot_3a := 0, tot_3b := 0, tot_3c := 0, tot_4 := 0, iter := 0,
    nrow := nrows % UNSIGNED_RANGE, nclust := nclust % UNSIGNED_RANGE }

/-- The method `pp_lemma1`: `lemma1 += var` on an `unsigned`. -/
def prune_stats.pp_lemma1 (s : prune_stats) (var : Nat) : prune_stats :=
  { s with
    lemma1 := (s.lemma1 + var) % UNSIGNED_RANGE }

/-- The method `pp_3a`: `_3a++` on an `unsigned`. -/
def prune_stats.pp_3a (s : prune_stats) : prune_stats :=
  { s with
    _3a := (s._3a + 1) % UNSIGNED_RANGE }

/-- The method `pp_3b`: `_3b++` on an `unsigned`. -/
def prune_stats.pp_3b (s : prune_stats) : prune_stats :=
  { s with
    _3b := (s._3b + 1) % UNSIGNED_RANGE }

/-- The method `pp_3c`: `_3c++` on an `unsigned`. -/
def prune_stats.pp_3c (s : prune_stats) : prune_stats :=
  { s with
    _3c := (s._3c + 1) % UNSIGNED_RANGE }

/-- The method `pp_4`: `_4++` on an `unsigned`. -/
def prune_stats.pp_4 (s : prune_stats) : prune_stats :=
  { s with
    _4 := (s._4 + 1) % UNSIGNED_RANGE }

/-- The method `prune_stats::finalize`: `iter++`, then the verified
condition, both sides of it computed in `unsigned`, then the five totals
and the reset. A condition that does not hold is a failure; the two log
lines change no member. -/
def prune_stats.finalize (s : prune_stats) : Except failure prune_stats :=
  let s1 := { s with
    iter := (s.iter + 1) % UNSIGNED_LONG_RANGE }
  if (s1.lemma1 + s1._3a + s1._3b + s1._3c + s1._4) % UNSIGNED_RANGE
      ≤ (s1.nrow * s1.nclust) % UNSIGNED_RANGE then
    Except.ok
      { s1 with
        tot_lemma1 := (s1.tot_lemma1 + s1.lemma1) % UNSIGNED_LONG_RANGE
        tot_3a := (s1.tot_3a + s1._3a) % UNSIGNED_LONG_RANGE
        tot_3b := (s1.tot_3b + s1._3b) % UNSIGNED_LONG_RANGE
        tot_3c := (s1.tot_3c + s1._3c) % UNSIGNED_LONG_RANGE
        tot_4 := (s1.tot_4 + s1._4) % UNSIGNED_LONG_RANGE
        lemma1 := 0
        _3a := 0
        _3b := 0
        _3c := 0
        _4 := 0 }
  else Except.error failure.InvariantViolation

/-- A call on a `prune_stats`. -/
inductive prune_op where
  | pp_lemma1 (var : Nat)
  | pp_3a
  | pp_3b
  | pp_3c
  | pp_4
  | finalize
deriving DecidableEq, Repr

/-- Make one call. -/
def prune_stats.step (s : prune_stats) : prune_op → Except failure prune_stats
  | prune_op.pp_lemma1 var => Except.ok (s.pp_lemma1 var)
  | prune_op.pp_3a => Except.ok s.pp_3a
  | prune_op.pp_3b => Except.ok s.pp_3b
  | prune_op.pp_3c => Except.ok s.pp_3c
  | prune_op.pp_4 => Except.ok s.pp_4
  | prune_op.finalize => s.finalize

/-- Make a sequence of calls, first to last, stopping at a failure. -/
def prune_stats.run (s : prune_stats) : List prune_op → Except failure prune_stats
  | [] => Except.ok s
  | op :: ops =>
    match s.step op with
    | Except.ok s1 => s1.run ops
    | Except.error e => Except.error e

/-- The five pruning rules that are counted. -/
inductive prune_counter where
  | lemma1
  | _3a
  | _3b
  | _3c
  | _4
deriving DecidableEq, Repr

/-- The count of a rule in the current iteration. -/
def prune_stats.count (s : prune_stats) : prune_counter → Nat
  | prune_counter.lemma1 => s.lemma1
  | prune_counter._3a => s._3a
  | prune_counter._3b => s._3b
  | prune_counter._3c => s._3c
  | prune_counter._4 => s._4

/-- The total of a rule. -/
def prune_stats.total (s : prune_stats) : prune_counter → Nat
  | prune_counter.lemma1 => s.tot_lemma1
  | prune_counter._3a => s.tot_3a
  | prune_counter._3b => s.tot_3b
  | prune_counter._3c => s.tot_3c
  | prune_counter._4 => s.tot_4

/-- What a call asks to add to the count of a rule. -/
def prune_op.increment : prune_op → prune_counter → Nat
  | prune_op.pp_lemma1 var, prune_counter.lemma1 => var
  | prune_op.pp_3a, prune_counter._3a => 1
  | prune_op.pp_3b, prune_counter._3b => 1
  | prune_op.pp_3c, prune_counter._3c => 1
  | prune_op.pp_4, prune_counter._4 => 1
  | _, _ => 0

/-- The sum of the increments a sequence of calls asks for, for one rule. -/
def increments (k : prune_counter) : List prune_op → Nat
  | [] => 0
  | op :: ops => op.increment k + increments k ops

/-- The calls of a sequence up to its last `finalize`; none when it has no
`finalize`. -/
def before_last_finalize : List prune_op → List prune_op
  | [] => []
  | op :: ops => if prune_op.finalize ∈ op :: ops then op :: before_last_finalize ops else []

/-- Whether a call leaves every member it adds to within the range of its
type: the count it increments for a `pp_` call, the five totals and `iter`
for `finalize`. -/
def prune_stats.in_range (s : prune_stats) : prune_op → Bool
  | prune_op.pp_lemma1 var => decide (s.lemma1 + var < UNSIGNED_RANGE)
  | prune_op.pp_3a => decide (s._3a + 1 < UNSIGNED_RANGE)
  | prune_op.pp_3b => decide (s._3b + 1 < UNSIGNED_RANGE)
  | prune_op.pp_3c => decide (s._3c + 1 < UNSIGNED_RANGE)
  | prune_op.pp_4 => decide (s._4 + 1 < UNSIGNED_RANGE)
  | prune_op.finalize =>
    decide (s.tot_lemma1 + s.lemma1 < UNSIGNED_LONG_RANGE)
      && decide (s.tot_3a + s._3a < UNSIGNED_LONG_RANGE)
      && decide (s.tot_3b + s._3b < UNSIGNED_LONG_RANGE)
      && decide (s.tot_3c + s._3c < UNSIGNED_LONG_RANGE)
      && decide (s.tot_4 + s._4 < UNSIGNED_LONG_RANGE)
      && decide (s.iter + 1 < UNSIGNED_LONG_RANGE)

/-- Whether every call of a sequence stays in range, along the run. -/
def prune_stats.all_in_range (s : prune_stats) : List prune_op → Bool
  | [] => true
  | op :: ops =>
    s.in_range op &&
      match s.step op with
      | Except.ok s1 => s1.all_in_range ops
      | Except.error _ => true

/-- Two iterations over two rows and three clusters. -/
def prune_ops_sample : List prune_op :=
  [prune_op.pp_lemma1 2, prune_op.pp_3a, prune_op.pp_4, prune_op.finalize,
   prune_op.pp_lemma1 3, prune_op.pp_3b, prune_op.pp_3c, prune_op.finalize,
   prune_op.pp_3a, prune_op.pp_lemma1 1]

/-- The state after `prune_ops_sample`. -/
def prune_stats_sample : prune_stats :=
  { lemma1 := 1, _3a := 1, _3b := 0, _3c := 0, _4 := 0,
    tot_lemma1 := 5, tot_3a := 1, tot_3b := 1, tot_3c := 1, tot_4 := 1, iter := 2,
    nrow := 2, nclust := 3 }

/-- A full count of `lemma1`, one more, and `finalize`. -/
def prune_ops_wrapping : List prune_op :=
  [prune_op.pp_lemma1 4294967295, prune_op.pp_lemma1 1, prune_op.finalize]

/-! # Theorems -/

/-! ## The scheduler -/

theorem store_mem_same (s : comp_io_scheduler) (p : compute_ptr) (c : user_compute) :
    (s.store p c).mem p = c := by
  simp [comp_io_scheduler.store]

theorem store_mem_other (s : comp_io_scheduler) (p q : compute_ptr) (c : user_compute)
    (h : q ≠ p) : (s.store p c).mem q = s.mem q := by
  simp [comp_io_scheduler.store, h]

theorem add_compute_of_flag_set (s : comp_io_scheduler) (p : compute_ptr)
    (h : (s.mem p).test_flag = true) : s.add_compute p = s := by
  simp [comp_io_scheduler.add_compute, h]

theorem add_compute_mem_same (s : comp_io_scheduler) (p : compute_ptr)
    (h : (s.mem p).test_flag = false) :
    (s.add_compute p).mem p = { IN_QUEUE := true, num_refs := (s.mem p).num_refs + 1 } := by
  simp [comp_io_scheduler.add_compute, h, comp_io_scheduler.store, user_compute.set_flag,
    user_compute.inc_ref]

theorem add_compute_mem_other (s : comp_io_scheduler) (p q : compute_ptr) (h : q ≠ p) :
    (s.add_compute p).mem q = s.mem q := by
  unfold comp_io_scheduler.add_compute
  split
  · simp [comp_io_scheduler.store, h]
  · rfl

theorem add_compute_queue (s : comp_io_scheduler) (p : compute_ptr)
    (h : (s.mem p).test_flag = false) :
    (s.add_compute p).incomplete_computes = s.incomplete_computes ++ [p] := by
  simp [comp_io_scheduler.add_compute, h, comp_io_scheduler.store]

theorem add_compute_freed (s : comp_io_scheduler) (p : compute_ptr) :
    (s.add_compute p).freed = s.freed := by
  unfold comp_io_scheduler.add_compute
  split
  · simp [comp_io_scheduler.store]
  · rfl

theorem add_compute_flag_set (s : comp_io_scheduler) (p : compute_ptr) :
    ((s.add_compute p).mem p).test_flag = true := by
  cases h : (s.mem p).test_flag
  · rw [add_compute_mem_same s p h]; rfl
  · rw [add_compute_of_flag_set s p h]; exact h

/-- C8: `add_compute` is idempotent. A second call on the same task right
after the first returns the state the first call produced (queue, every
task object, allocator log), and compared with the state before the two
calls the task's reference count has risen by at most one and the queue
has gained at most one entry. -/
theorem add_compute_idempotent (s : comp_io_scheduler) (p : compute_ptr) :
    (s.add_compute p).add_compute p = s.add_compute p
    ∧ (s.mem p).num_refs ≤ (((s.add_compute p).add_compute p).mem p).num_refs
    ∧ (((s.add_compute p).add_compute p).mem p).num_refs ≤ (s.mem p).num_refs + 1
    ∧ s.incomplete_computes.length
        ≤ ((s.add_compute p).add_compute p).incomplete_computes.length
    ∧ ((s.add_compute p).add_compute p).incomplete_computes.length
        ≤ s.incomplete_computes.length + 1 := by
  have h2 : (s.add_compute p).add_compute p = s.add_compute p :=
    add_compute_of_flag_set _ _ (add_compute_flag_set s p)
  rw [h2]
  refine ⟨rfl, ?_⟩
  cases h : (s.mem p).test_flag
  · rw [add_compute_mem_same s p h, add_compute_queue s p h]
    simp
  · rw [add_compute_of_flag_set s p h]
    simp

/-- C9: on a task whose `IN_QUEUE` flag is clear, `add_compute` raises the
reference count by exactly one, appends the task at the back of
`incomplete_computes` (the earlier entries keep their places), sets the
flag, and leaves every other task and the allocator log alone; on a task
whose flag is set it changes nothing at all. -/
theorem add_compute_effect (s : comp_io_scheduler) (p : compute_ptr) :
    ((s.mem p).test_flag = false →
      ((s.add_compute p).mem p).get_ref = (s.mem p).get_ref + 1
      ∧ (s.add_compute p).incomplete_computes = s.incomplete_computes ++ [p]
      ∧ ((s.add_compute p).mem p).test_flag = true
      ∧ (∀ q, q ≠ p → (s.add_compute p).mem q = s.mem q)
      ∧ (s.add_compute p).freed = s.freed)
    ∧ ((s.mem p).test_flag = true → s.add_compute p = s) := by
  refine ⟨fun h => ⟨?_, add_compute_queue s p h, add_compute_flag_set s p,
    fun q hq => add_compute_mem_other s p q hq, add_compute_freed s p⟩,
    add_compute_of_flag_set s p⟩
  rw [add_compute_mem_same s p h]
  rfl

/-- C9 at a concrete scheduler: task 1 (flag clear) is appended behind task 2
with its count raised from 0 to 1; task 2 (flag set) is left as it is. -/
theorem add_compute_effect_witness :
    (((sched_sample.add_compute 1).mem 1).get_ref = (sched_sample.mem 1).get_ref + 1
      ∧ (sched_sample.add_compute 1).incomplete_computes = [2] ++ [1]
      ∧ ((sched_sample.add_compute 1).mem 1).test_flag = true
      ∧ (∀ q, q ≠ 1 → (sched_sample.add_compute 1).mem q = sched_sample.mem q)
      ∧ (sched_sample.add_compute 1).freed = sched_sample.freed)
    ∧ sched_sample.add_compute 2 = sched_sample :=
  ⟨(add_compute_effect sched_sample 1).1 (by decide),
   (add_compute_effect sched_sample 2).2 (by decide)⟩

theorem delete_compute_ok (s s1 : comp_io_scheduler) (p : compute_ptr)
    (h : s.delete_compute p = Except.ok s1) :
    (s.mem p).test_flag = true
    ∧ s1.incomplete_computes = s.incomplete_computes
    ∧ (s1.mem p).test_flag = false
    ∧ (∀ q, q ≠ p → s1.mem q = s.mem q)
    ∧ s1.freed = s.freed ++ [p] := by
  unfold comp_io_scheduler.delete_compute at h
  split at h
  · rename_i hf
    simp only at h
    split at h
    · injection h with h
      subst h
      refine ⟨hf, rfl, ?_, ?_, rfl⟩
      · simp [comp_io_scheduler.store, user_compute.dec_ref, user_compute.set_flag,
          user_compute.test_flag]
      · intro q hq
        simp [comp_io_scheduler.store, hq]
    · cases h
  · cases h

theorem queue_inv_create (refs : compute_ptr → Int) :
    queue_inv (comp_io_scheduler.create refs) := by
  refine ⟨List.nodup_nil, fun p => ?_⟩
  simp [comp_io_scheduler.create, user_compute.test_flag]

theorem queue_inv_step_live (s s1 : comp_io_scheduler) (op : sched_op)
    (hinv : queue_inv s) (h : s.step_live op = some s1) : queue_inv s1 := by
  obtain ⟨hnd, hmem⟩ := hinv
  cases op with
  | add_compute p =>
    simp only [comp_io_scheduler.step_live, comp_io_scheduler.step] at h
    split at h
    · cases h
    · rename_i hfreed
      injection h with h
      subst h
      cases hf : (s.mem p).test_flag
      · have hp : p ∉ s.incomplete_computes := by
          intro hin
          rcases (hmem p).1 hin with h1 | h1
          · rw [hf] at h1; cases h1
          · exact hfreed h1
        refine ⟨?_, fun q => ?_⟩
        · rw [add_compute_queue s p hf]
          exact List.Nodup.append hnd (List.nodup_singleton p) (by simpa using hp)
        · rw [add_compute_queue s p hf, add_compute_freed]
          by_cases hq : q = p
          · subst hq
            simp [add_compute_flag_set]
          · rw [add_compute_mem_other s p q hq]
            simp [hq, hmem q]
      · rw [add_compute_of_flag_set s p hf]
        exact ⟨hnd, hmem⟩
  | delete_compute p =>
    simp only [comp_io_scheduler.step_live, comp_io_scheduler.step] at h
    split at h
    · rename_i s2 hd
      injection h with h
      subst h
      obtain ⟨hf, hq, hf1, hoth, hfr⟩ := delete_compute_ok s s2 p hd
      refine ⟨by rw [hq]; exact hnd, fun q => ?_⟩
      rw [hq, hfr]
      by_cases hqp : q = p
      · subst hqp
        simp [hf1, (hmem q).2 (Or.inl hf)]
      · rw [hoth q hqp]
        simp [hqp, hmem q]
    · cases h

theorem queue_inv_steps_live (ops : List sched_op) (s s1 : comp_io_scheduler)
    (hinv : queue_inv s) (h : s.steps_live ops = some s1) : queue_inv s1 := by
  induction ops generalizing s with
  | nil =>
    simp only [comp_io_scheduler.steps_live] at h
    injection h with h
    subst h
    exact hinv
  | cons op ops ih =>
    simp only [comp_io_scheduler.steps_live] at h
    split at h
    · rename_i s2 hs
      exact ih s2 (queue_inv_step_live s s2 op hinv hs) h
    · cases h

/-- C10, refuted as stated: from an empty scheduler over unreferenced tasks,
`add_compute 7` followed by `delete_compute 7` leaves task 7 in
`incomplete_computes` with its `IN_QUEUE` flag clear (and handed to its
allocator); a further `add_compute 7` queues the address a second time. -/
theorem queue_membership_counterexample :
    Option.map (fun s => (s.incomplete_computes, (s.mem 7).test_flag, s.freed))
        ((comp_io_scheduler.create (fun _ => 0)).steps
          [sched_op.add_compute 7, sched_op.delete_compute 7])
      = some ([7], false, [7])
    ∧ Option.map (fun s => (s.incomplete_computes, (s.mem 7).test_flag))
        ((comp_io_scheduler.create (fun _ => 0)).steps
          [sched_op.add_compute 7, sched_op.delete_compute 7, sched_op.add_compute 7])
      = some ([7, 7], true) := by
  constructor <;> rfl

/-- C10, amended: in every scheduler state reached from an empty scheduler
(all flags clear) by `add_compute` and `delete_compute` calls that never
hand `add_compute` an address already returned to its allocator, no task
occurs twice in `incomplete_computes`, and a task is in
`incomplete_computes` if and only if its `IN_QUEUE` flag is set or it was
freed by `delete_compute` (which does not dequeue). -/
theorem queue_invariant (refs : compute_ptr → Int) (ops : List sched_op)
    (s : comp_io_scheduler)
    (h : (comp_io_scheduler.create refs).steps_live ops = some s) :
    s.incomplete_computes.Nodup
    ∧ ∀ p, p ∈ s.incomplete_computes ↔ ((s.mem p).test_flag = true ∨ p ∈ s.freed) :=
  queue_inv_steps_live ops _ s (queue_inv_create refs) h

/-- C10 amended, at a concrete run: add 7, add 8, delete 7. -/
theorem queue_invariant_witness :
    (comp_io_scheduler.create (fun _ => 0)).steps_live
        [sched_op.add_compute 7, sched_op.add_compute 8, sched_op.delete_compute 7]
      = some sched_after_delete
    ∧ sched_after_delete.incomplete_computes.Nodup
    ∧ ∀ p, p ∈ sched_after_delete.incomplete_computes
        ↔ ((sched_after_delete.mem p).test_flag = true ∨ p ∈ sched_after_delete.freed) :=
  ⟨rfl, queue_invariant (fun _ => 0)
    [sched_op.add_compute 7, sched_op.add_compute 8, sched_op.delete_compute 7]
    sched_after_delete rfl⟩

/-! ## Reading a trace -/

theorem program_views_append (xs ys : List event) :
    program_views (xs ++ ys) = program_views xs ++ program_views ys := by
  induction xs with
  | nil => rfl
  | cons e es ih => cases e <;> simp [program_views, ih]

theorem completions_append (xs ys : List event) :
    completions (xs ++ ys) = completions xs + completions ys := by
  induction xs with
  | nil => simp [completions]
  | cons e es ih =>
    cases e <;> simp [completions, ih]
    omega

theorem notifications_append (xs ys : List event) :
    notifications (xs ++ ys) = notifications xs + notifications ys := by
  induction xs with
  | nil => simp [notifications]
  | cons e es ih => cases e <;> simp [notifications, ih] <;> omega

theorem program_views_calls (rs : List vertex_request) :
    program_views (rs.map vertex_request.call) = [] := by
  induction rs with
  | nil => rfl
  | cons r rs ih => cases r <;> simpa [program_views, vertex_request.call] using ih

theorem program_views_directed_calls (rs : List vertex_request) :
    program_views (rs.map vertex_request.directed_call) = [] := by
  induction rs with
  | nil => rfl
  | cons r rs ih => cases r <;> simpa [program_views, vertex_request.directed_call] using ih

theorem completions_calls (rs : List vertex_request) :
    completions (rs.map vertex_request.call) = 0 := by
  induction rs with
  | nil => rfl
  | cons r rs ih => cases r <;> simpa [completions, vertex_request.call] using ih

theorem completions_directed_calls (rs : List vertex_request) :
    completions (rs.map vertex_request.directed_call) = 0 := by
  induction rs with
  | nil => rfl
  | cons r rs ih => cases r <;> simpa [completions, vertex_request.directed_call] using ih

theorem notifications_calls (rs : List vertex_request) :
    notifications (rs.map vertex_request.call) = 0 := by
  induction rs with
  | nil => rfl
  | cons r rs ih => cases r <;> simpa [notifications, vertex_request.call] using ih

theorem notifications_directed_calls (rs : List vertex_request) :
    notifications (rs.map vertex_request.directed_call) = 0 := by
  induction rs with
  | nil => rfl
  | cons r rs ih => cases r <;> simpa [notifications, vertex_request.directed_call] using ih

/-! ## The compute task -/

theorem outstanding_eq_zero (asked done : Nat) : outstanding asked done = 0 ↔ done = asked := by
  unfold outstanding
  split <;> omega

theorem get_num_pending_eq_zero (c : vertex_compute) : c.get_num_pending = 0 ↔ c.all_done := by
  unfold vertex_compute.get_num_pending vertex_compute.all_done
  rw [Nat.add_eq_zero_iff, Nat.add_eq_zero_iff, outstanding_eq_zero, outstanding_eq_zero,
    List.length_eq_zero]
  tauto

theorem serve_eq (c : vertex_compute) (rs : List vertex_request) :
    c.serve rs = { c with num_requested := c.num_requested + asked_vertices rs,
                          num_edge_requests := c.num_edge_requests + asked_num_edges rs,
                          trace := c.trace ++ rs.map vertex_request.call } := by
  induction rs generalizing c with
  | nil => simp [vertex_compute.serve, asked_vertices, asked_num_edges]
  | cons r rs ih =>
    cases r with
    | vertices ids =>
      simp [vertex_compute.serve, ih, vertex_compute.request_vertices, asked_vertices,
        asked_num_edges, vertex_request.call, Nat.add_assoc]
    | num_edges ids =>
      simp [vertex_compute.serve, ih, vertex_compute.request_num_edges, asked_vertices,
        asked_num_edges, vertex_request.call, Nat.add_assoc]

theorem directed_serve_eq (c : vertex_compute) (rs : List vertex_request) :
    directed_vertex_compute.serve c rs =
      { c with num_requested := c.num_requested + asked_vertices rs,
               num_edge_requests := c.num_edge_requests + asked_num_edges rs,
               trace := c.trace ++ rs.map vertex_request.directed_call } := by
  induction rs generalizing c with
  | nil => simp [directed_vertex_compute.serve, asked_vertices, asked_num_edges]
  | cons r rs ih =>
    cases r with
    | vertices ids =>
      simp [directed_vertex_compute.serve, ih, directed_vertex_compute.request_vertices,
        directed_vertex_compute.request_partial_vertices, asked_vertices,
        asked_num_edges, vertex_request.directed_call, Nat.add_assoc]
    | num_edges ids =>
      simp [directed_vertex_compute.serve, ih, directed_vertex_compute.request_num_edges,
        asked_vertices, asked_num_edges, vertex_request.directed_call, Nat.add_assoc]

theorem complete_request_eq (c : vertex_compute) :
    c.complete_request =
      { c with num_complete_fetched := c.num_complete_fetched + 1,
               trace := c.trace ++
                 (if c.num_complete_fetched + 1 = c.num_issued
                      ∧ c.num_edge_completed = c.num_edge_requests
                      ∧ c.requested_vertices = []
                  then [event.complete_vertex c.v] else []) } := by
  unfold vertex_compute.complete_request
  simp only [get_num_pending_eq_zero, vertex_compute.all_done, vertex_compute.emit]
  split <;> simp

theorem run_eq (t : worker_thread) (c : vertex_compute) (array : page_byte_array) :
    c.run t array =
      { c with
        num_requested := c.num_requested
          + asked_vertices ((t.get_vertex_program c.v.is_part).run c.v
              (page_vertex.undirected array)),
        num_edge_requests := c.num_edge_requests
          + asked_num_edges ((t.get_vertex_program c.v.is_part).run c.v
              (page_vertex.undirected array)),
        num_complete_fetched := c.num_complete_fetched + 1,
        trace := c.trace
          ++ [event.start_run_vertex c.v, event.vprog_run c.v (page_vertex.undirected array)]
          ++ ((t.get_vertex_program c.v.is_part).run c.v
                (page_vertex.undirected array)).map vertex_request.call
          ++ [event.finish_run_vertex c.v]
          ++ (if c.num_complete_fetched + 1 = c.num_issued
                ∧ c.num_edge_completed = c.num_edge_requests
                  + asked_num_edges ((t.get_vertex_program c.v.is_part).run c.v
                      (page_vertex.undirected array))
                ∧ c.requested_vertices = []
              then [event.complete_vertex c.v] else []) } := by
  simp [vertex_compute.run, serve_eq, complete_request_eq, vertex_compute.emit]

theorem run_on_page_vertex_eq (t : worker_thread) (c : vertex_compute) (pg_v : page_vertex) :
    directed_vertex_compute.run_on_page_vertex t c pg_v =
      { c with
        num_requested := c.num_requested
          + asked_vertices ((t.get_vertex_program c.v.is_part).run c.v pg_v),
        num_edge_requests := c.num_edge_requests
          + asked_num_edges ((t.get_vertex_program c.v.is_part).run c.v pg_v),
        num_complete_fetched := c.num_complete_fetched + 1,
        trace := c.trace
          ++ [event.start_run_vertex c.v, event.vprog_run c.v pg_v]
          ++ ((t.get_vertex_program c.v.is_part).run c.v pg_v).map
                vertex_request.directed_call
          ++ [event.finish_run_vertex c.v]
          ++ (if c.num_complete_fetched + 1 = c.num_issued
                ∧ c.num_edge_completed = c.num_edge_requests
                  + asked_num_edges ((t.get_vertex_program c.v.is_part).run c.v pg_v)
                ∧ c.requested_vertices = []
              then [event.complete_vertex c.v] else []) } := by
  simp [directed_vertex_compute.run_on_page_vertex, directed_serve_eq, complete_request_eq,
    vertex_compute.emit]

/-- With the data model's count, `complete_request` raises the completed
counter by exactly one and touches no other counter, queue or map; it raises
exactly one vertex-complete signal if, after the increment, the completed
counter equals the issued counter, every requested edge count has arrived
and the local queue is empty, and it raises none otherwise. -/
theorem complete_request_all_done (c : vertex_compute) :
    c.complete_request.num_complete_fetched = c.num_complete_fetched + 1
    ∧ c.complete_request.num_issued = c.num_issued
    ∧ c.complete_request.num_requested = c.num_requested
    ∧ c.complete_request.num_edge_requests = c.num_edge_requests
    ∧ c.complete_request.num_edge_completed = c.num_edge_completed
    ∧ c.complete_request.requested_vertices = c.requested_vertices
    ∧ c.complete_request.combine_map = c.combine_map
    ∧ c.complete_request.trace = c.trace ++
        (if c.complete_request.num_complete_fetched = c.complete_request.num_issued
            ∧ c.complete_request.num_edge_completed = c.complete_request.num_edge_requests
            ∧ c.complete_request.requested_vertices = []
         then [event.complete_vertex c.v] else [])
    ∧ (completions c.complete_request.trace = completions c.trace + 1
        ↔ (c.complete_request.num_complete_fetched = c.complete_request.num_issued
            ∧ c.complete_request.num_edge_completed = c.complete_request.num_edge_requests
            ∧ c.complete_request.requested_vertices = []))
    ∧ completions c.complete_request.trace ≤ completions c.trace + 1 := by
  rw [complete_request_eq]
  refine ⟨rfl, rfl, rfl, rfl, rfl, rfl, rfl, rfl, ?_, ?_⟩
  · simp only [completions_append]
    split <;> simp_all [completions]
  · simp only [completions_append]
    split <;> simp [completions]

theorem complete_request_with_get_num_pending (c : vertex_compute) :
    c.complete_request_with vertex_compute.get_num_pending = c.complete_request := rfl

theorem get_num_pending_eq_fetches (c : vertex_compute)
    (h : c.num_edge_completed = c.num_edge_requests) :
    c.get_num_pending = c.get_num_pending_fetches := by
  unfold vertex_compute.get_num_pending vertex_compute.get_num_pending_fetches
  have h0 : outstanding c.num_edge_requests c.num_edge_completed = 0 :=
    (outstanding_eq_zero _ _).2 h
  omega

theorem complete_request_with_fetches_eq (c : vertex_compute)
    (h : c.num_edge_completed = c.num_edge_requests) :
    c.complete_request_with vertex_compute.get_num_pending_fetches = c.complete_request := by
  unfold vertex_compute.complete_request_with vertex_compute.complete_request
  have h1 : ({ c with num_complete_fetched := c.num_complete_fetched + 1 } :
      vertex_compute).get_num_pending
        = ({ c with num_complete_fetched := c.num_complete_fetched + 1 } :
      vertex_compute).get_num_pending_fetches := get_num_pending_eq_fetches _ h
  simp only [h1]

theorem clone_eq (array : page_byte_array) : array.clone = array := rfl

theorem combine_map_not_empty (m : combine_map_t) (id : vertex_id_t)
    (x : Option page_byte_array) (h : combine_map_find m id = some x) :
    m.isEmpty = false := by
  cases m with
  | nil => simp [combine_map_find] at h
  | cons e rest => rfl

theorem find_assign_same (m : combine_map_t) (id : vertex_id_t) (arr : page_byte_array)
    (x : Option page_byte_array) (h : combine_map_find m id = some x) :
    combine_map_find (combine_map_assign m id arr) id = some (some arr) := by
  induction m with
  | nil => simp [combine_map_find] at h
  | cons e rest ih =>
    obtain ⟨k, val⟩ := e
    by_cases hk : k = id
    · simp [combine_map_assign, combine_map_find, hk]
    · simp only [combine_map_find, hk, if_false] at h
      simp [combine_map_assign, combine_map_find, hk, ih h]

theorem find_assign_other (m : combine_map_t) (id k : vertex_id_t) (arr : page_byte_array)
    (h : k ≠ id) :
    combine_map_find (combine_map_assign m id arr) k = combine_map_find m k := by
  induction m with
  | nil => rfl
  | cons e rest ih =>
    obtain ⟨k1, val⟩ := e
    by_cases hk : k1 = id
    · subst hk
      have hk1 : ¬ k1 = k := fun e => h e.symm
      simp [combine_map_assign, combine_map_find, hk1]
    · by_cases hk2 : k1 = k
      · subst hk2
        simp [combine_map_assign, combine_map_find, hk]
      · simp [combine_map_assign, combine_map_find, hk, hk2, ih]

theorem erase_assign (m : combine_map_t) (id : vertex_id_t) (arr : page_byte_array) :
    combine_map_erase (combine_map_assign m id arr) id = combine_map_erase m id := by
  induction m with
  | nil => rfl
  | cons e rest ih =>
    obtain ⟨k, val⟩ := e
    by_cases hk : k = id
    · simp [combine_map_assign, combine_map_erase, hk]
    · simp [combine_map_assign, combine_map_erase, hk, ih]

theorem find_erase_other (m : combine_map_t) (id k : vertex_id_t) (h : k ≠ id) :
    combine_map_find (combine_map_erase m id) k = combine_map_find m k := by
  induction m with
  | nil => rfl
  | cons e rest ih =>
    obtain ⟨k1, val⟩ := e
    by_cases hk : k1 = id
    · subst hk
      have hk1 : ¬ k1 = k := fun e => h e.symm
      simp [combine_map_erase, combine_map_find, hk1]
    · by_cases hk2 : k1 = k
      · subst hk2
        simp [combine_map_erase, combine_map_find, hk]
      · simp [combine_map_erase, combine_map_find, hk, hk2, ih]

theorem find_none_of_not_key (m : combine_map_t) (id : vertex_id_t)
    (h : id ∉ m.map Prod.fst) : combine_map_find m id = none := by
  induction m with
  | nil => rfl
  | cons e rest ih =>
    obtain ⟨k, val⟩ := e
    simp only [List.map_cons, List.mem_cons, not_or] at h
    have hk : k ≠ id := fun h1 => h.1 h1.symm
    simp [combine_map_find, hk, ih h.2]

theorem find_erase_same (m : combine_map_t) (id : vertex_id_t)
    (h : (m.map Prod.fst).Nodup) : combine_map_find (combine_map_erase m id) id = none := by
  induction m with
  | nil => rfl
  | cons e rest ih =>
    obtain ⟨k, val⟩ := e
    simp only [List.map_cons, List.nodup_cons] at h
    by_cases hk : k = id
    · subst hk
      simp only [combine_map_erase, if_true]
      exact find_none_of_not_key rest k h.1
    · simp [combine_map_erase, combine_map_find, hk, ih h.2]

/-! ## The directed join -/

theorem run_on_page_vertex_combine_map (t : worker_thread) (c : vertex_compute)
    (pg_v : page_vertex) (m : combine_map_t) :
    directed_vertex_compute.run_on_page_vertex t { c with combine_map := m } pg_v
      = { directed_vertex_compute.run_on_page_vertex t c pg_v with combine_map := m } := by
  simp [run_on_page_vertex_eq]

theorem run_absent_eq (g : graph_engine) (t : worker_thread) (c : vertex_compute)
    (array : page_byte_array)
    (h : combine_map_find c.combine_map (page_directed_vertex.get_id array) = some none) :
    directed_vertex_compute.run g t c array =
        Except.ok
          { c with
            combine_map :=
              combine_map_assign c.combine_map (page_directed_vertex.get_id array)
                array.clone } := by
  unfold directed_vertex_compute.run
  rw [combine_map_not_empty _ _ _ h]
  simp [h]

theorem run_sibling_eq (g : graph_engine) (t : worker_thread) (c : vertex_compute)
    (in_arr out_arr stored array : page_byte_array)
    (hin : in_arr.get_offset < g.in_part_size) (hout : g.in_part_size ≤ out_arr.get_offset)
    (hcase : (stored = in_arr ∧ array = out_arr) ∨ (stored = out_arr ∧ array = in_arr))
    (hfind : combine_map_find c.combine_map (page_directed_vertex.get_id array)
      = some (some stored)) :
    directed_vertex_compute.run g t c array
      = Except.ok (directed_vertex_compute.joined t c in_arr out_arr stored
          (page_directed_vertex.get_id array)) := by
  unfold directed_vertex_compute.run
  rw [combine_map_not_empty _ _ _ hfind]
  simp only [Bool.false_eq_true, if_false, hfind]
  rcases hcase with ⟨h1, h2⟩ | ⟨h1, h2⟩
  · subst h1 h2
    simp [hin, hout, directed_vertex_compute.joined, run_on_page_vertex_eq,
      vertex_compute.emit]
  · subst h1 h2
    have h3 : ¬ stored.get_offset < g.in_part_size := by omega
    simp [hin, h3, directed_vertex_compute.joined, run_on_page_vertex_eq,
      vertex_compute.emit]

theorem joined_trace (t : worker_thread) (c : vertex_compute)
    (in_arr out_arr stored : page_byte_array) (id : vertex_id_t) :
    (directed_vertex_compute.joined t c in_arr out_arr stored id).trace =
      c.trace
        ++ [event.start_run_vertex c.v,
            event.vprog_run c.v (page_vertex.directed in_arr out_arr)]
        ++ ((t.get_vertex_program c.v.is_part).run c.v
              (page_vertex.directed in_arr out_arr)).map vertex_request.directed_call
        ++ [event.finish_run_vertex c.v]
        ++ (if c.num_complete_fetched + 1 = c.num_issued
              ∧ c.num_edge_completed = c.num_edge_requests
                + asked_num_edges ((t.get_vertex_program c.v.is_part).run c.v
                    (page_vertex.directed in_arr out_arr))
              ∧ c.requested_vertices = []
            then [event.complete_vertex c.v] else [])
        ++ [event.destroy stored] := by
  simp [directed_vertex_compute.joined, run_on_page_vertex_eq, vertex_compute.emit]

theorem joined_program_views (t : worker_thread) (c : vertex_compute)
    (in_arr out_arr stored : page_byte_array) (id : vertex_id_t) :
    program_views (directed_vertex_compute.joined t c in_arr out_arr stored id).trace
      = program_views c.trace ++ [page_vertex.directed in_arr out_arr] := by
  rw [joined_trace]
  simp only [program_views_append, program_views_directed_calls]
  split <;> simp [program_views]

/-- C3: when the combine map holds the arriving buffer's vertex id with a null
value, `directed_vertex_compute::run` succeeds and only stores a clone of
the buffer under that id (the entry becomes half-received, every other
entry keeps its value): the trace is unchanged, so the vertex program is
not run and no start, finish or vertex-complete call is made, and no
counter changes. -/
theorem run_absent_stores_clone (g : graph_engine) (t : worker_thread) (c : vertex_compute)
    (array : page_byte_array)
    (h : combine_map_find c.combine_map (page_directed_vertex.get_id array) = some none) :
    directed_vertex_compute.run g t c array =
        Except.ok
          { c with
            combine_map :=
              combine_map_assign c.combine_map (page_directed_vertex.get_id array)
                array.clone }
    ∧ combine_map_find
        (combine_map_assign c.combine_map (page_directed_vertex.get_id array) array.clone)
        (page_directed_vertex.get_id array) = some (some array.clone)
    ∧ (∀ k, k ≠ page_directed_vertex.get_id array →
        combine_map_find
          (combine_map_assign c.combine_map (page_directed_vertex.get_id array) array.clone) k
        = combine_map_find c.combine_map k)
    ∧ array.clone.offset = array.offset ∧ array.clone.data = array.data
    ∧ array.clone.vertex_id = array.vertex_id := by
  refine ⟨?_, find_assign_same _ _ _ _ h, fun k hk => find_assign_other _ _ _ _ hk,
    rfl, rfl, rfl⟩
  exact run_absent_eq g t c array h

/-- C3 at a concrete task: the out-edge half of vertex 42 arrives first and is
stored; nothing is added to the (empty) trace and the completed counter
stays 0. -/
theorem run_absent_stores_clone_witness :
    directed_vertex_compute.run graph_sample thread_quiet task_paired_42 out_half_42 =
        Except.ok
          { task_paired_42 with
            combine_map :=
              combine_map_assign task_paired_42.combine_map
                (page_directed_vertex.get_id out_half_42) out_half_42.clone }
    ∧ combine_map_find
        (combine_map_assign task_paired_42.combine_map
          (page_directed_vertex.get_id out_half_42) out_half_42.clone)
        (page_directed_vertex.get_id out_half_42) = some (some out_half_42.clone)
    ∧ (∀ k, k ≠ page_directed_vertex.get_id out_half_42 →
        combine_map_find
          (combine_map_assign task_paired_42.combine_map
            (page_directed_vertex.get_id out_half_42) out_half_42.clone) k
        = combine_map_find task_paired_42.combine_map k)
    ∧ out_half_42.clone.offset = out_half_42.offset
    ∧ out_half_42.clone.data = out_half_42.data
    ∧ out_half_42.clone.vertex_id = out_half_42.vertex_id :=
  run_absent_stores_clone graph_sample thread_quiet task_paired_42 out_half_42 (by decide)

theorem joined_after_assign (t : worker_thread) (c : vertex_compute)
    (in_arr out_arr stored arr : page_byte_array) (id : vertex_id_t) :
    directed_vertex_compute.joined t
        { c with combine_map := combine_map_assign c.combine_map id arr }
        in_arr out_arr stored id
      = directed_vertex_compute.joined t c in_arr out_arr stored id := by
  simp [directed_vertex_compute.joined, run_on_page_vertex_eq, vertex_compute.emit,
    erase_assign]

/-- C1: order-independence of the directed join. Let the combine map hold
the vertex id of buffers `a` and `b` with a null value, `a` read below the
in-part boundary and `b` at or above it. Delivering `a` then `b` and
delivering `b` then `a` both succeed, and both run the vertex program
exactly once more, on the view with `a` as in-edge half and `b` as out-edge
half; the two final states differ only in which copy the trace records as
destroyed. -/
theorem directed_join_order_independent (g : graph_engine) (t : worker_thread)
    (c : vertex_compute) (a b : page_byte_array)
    (ha : a.get_offset < g.in_part_size) (hb : g.in_part_size ≤ b.get_offset)
    (hid : page_directed_vertex.get_id b = page_directed_vertex.get_id a)
    (h : combine_map_find c.combine_map (page_directed_vertex.get_id a) = some none) :
    (directed_vertex_compute.run g t c a).bind (fun c1 => directed_vertex_compute.run g t c1 b)
      = Except.ok (directed_vertex_compute.joined t c a b a.clone
          (page_directed_vertex.get_id a))
    ∧ (directed_vertex_compute.run g t c b).bind
        (fun c1 => directed_vertex_compute.run g t c1 a)
      = Except.ok (directed_vertex_compute.joined t c a b b.clone
          (page_directed_vertex.get_id a))
    ∧ program_views (directed_vertex_compute.joined t c a b a.clone
          (page_directed_vertex.get_id a)).trace
      = program_views c.trace ++ [page_vertex.directed a b]
    ∧ program_views (directed_vertex_compute.joined t c a b b.clone
          (page_directed_vertex.get_id a)).trace
      = program_views c.trace ++ [page_vertex.directed a b]
    ∧ { directed_vertex_compute.joined t c a b a.clone
          (page_directed_vertex.get_id a) with trace := [] }
      = { directed_vertex_compute.joined t c a b b.clone
          (page_directed_vertex.get_id a) with trace := [] }
    ∧ (directed_vertex_compute.joined t c a b a.clone
          (page_directed_vertex.get_id a)).trace.dropLast
      = (directed_vertex_compute.joined t c a b b.clone
          (page_directed_vertex.get_id a)).trace.dropLast := by
  refine ⟨?_, ?_, joined_program_views t c a b _ _, joined_program_views t c a b _ _, ?_, ?_⟩
  · rw [run_absent_eq g t c a h]
    simp only [Except.bind]
    have h1 : combine_map_find
        (combine_map_assign c.combine_map (page_directed_vertex.get_id a) a.clone)
        (page_directed_vertex.get_id b) = some (some a.clone) := by
      rw [hid]
      exact find_assign_same _ _ _ _ h
    rw [run_sibling_eq g t _ a b a.clone b ha hb (Or.inl ⟨rfl, rfl⟩) h1, hid]
    exact congrArg Except.ok (joined_after_assign t c a b a.clone a.clone _)
  · rw [← hid] at h
    rw [run_absent_eq g t c b h]
    simp only [Except.bind]
    have h1 : combine_map_find
        (combine_map_assign c.combine_map (page_directed_vertex.get_id b) b.clone)
        (page_directed_vertex.get_id a) = some (some b.clone) := by
      rw [← hid]
      exact find_assign_same _ _ _ _ h
    rw [run_sibling_eq g t _ a b b.clone a ha hb (Or.inr ⟨rfl, rfl⟩) h1]
    rw [hid]
    exact congrArg Except.ok (joined_after_assign t c a b b.clone b.clone _)
  · simp [directed_vertex_compute.joined, run_on_page_vertex_eq, vertex_compute.emit]
  · rw [joined_trace, joined_trace, List.dropLast_concat, List.dropLast_concat]

/-- C1 at a concrete task: the two halves of vertex 42 in both orders. -/
theorem directed_join_order_independent_witness :
    (directed_vertex_compute.run graph_sample thread_asking task_paired_42 in_half_42).bind
        (fun c1 => directed_vertex_compute.run graph_sample thread_asking c1 out_half_42)
      = Except.ok (directed_vertex_compute.joined thread_asking task_paired_42
          in_half_42 out_half_42 in_half_42.clone 42)
    ∧ (directed_vertex_compute.run graph_sample thread_asking task_paired_42 out_half_42).bind
        (fun c1 => directed_vertex_compute.run graph_sample thread_asking c1 in_half_42)
      = Except.ok (directed_vertex_compute.joined thread_asking task_paired_42
          in_half_42 out_half_42 out_half_42.clone 42)
    ∧ program_views (directed_vertex_compute.joined thread_asking task_paired_42
          in_half_42 out_half_42 in_half_42.clone 42).trace
      = program_views task_paired_42.trace ++ [page_vertex.directed in_half_42 out_half_42]
    ∧ program_views (directed_vertex_compute.joined thread_asking task_paired_42
          in_half_42 out_half_42 out_half_42.clone 42).trace
      = program_views task_paired_42.trace ++ [page_vertex.directed in_half_42 out_half_42]
    ∧ { directed_vertex_compute.joined thread_asking task_paired_42
          in_half_42 out_half_42 in_half_42.clone 42 with trace := [] }
      = { directed_vertex_compute.joined thread_asking task_paired_42
          in_half_42 out_half_42 out_half_42.clone 42 with trace := [] }
    ∧ (directed_vertex_compute.joined thread_asking task_paired_42
          in_half_42 out_half_42 in_half_42.clone 42).trace.dropLast
      = (directed_vertex_compute.joined thread_asking task_paired_42
          in_half_42 out_half_42 out_half_42.clone 42).trace.dropLast :=
  directed_join_order_independent graph_sample thread_asking task_paired_42
    in_half_42 out_half_42 (by decide) (by decide) rfl (by decide)

/-- C2, refuted as stated: a directed task asks for vertex 42, issues the
pair of fetches and receives the out-edge half; then the in-edge half
arrives. The trace shows the call order of `run`: the vertex-complete
signal raised by `complete_request` comes before the release of the stored
buffer (and so before the map entry is erased), not after it. -/
theorem run_sibling_order_counterexample :
    task_last_half_42.combine_map = [(42, some out_half_42)]
    ∧ Except.map (fun c => c.trace.drop task_last_half_42.trace.length)
        (directed_vertex_compute.run graph_sample thread_quiet task_last_half_42 in_half_42)
      = Except.ok
          [event.start_run_vertex vertex_sample,
           event.vprog_run vertex_sample (page_vertex.directed in_half_42 out_half_42),
           event.finish_run_vertex vertex_sample,
           event.complete_vertex vertex_sample,
           event.destroy out_half_42]
    ∧ List.indexOf (event.complete_vertex vertex_sample)
          [event.start_run_vertex vertex_sample,
           event.vprog_run vertex_sample (page_vertex.directed in_half_42 out_half_42),
           event.finish_run_vertex vertex_sample,
           event.complete_vertex vertex_sample,
           event.destroy out_half_42]
        < List.indexOf (event.destroy out_half_42)
          [event.start_run_vertex vertex_sample,
           event.vprog_run vertex_sample (page_vertex.directed in_half_42 out_half_42),
           event.finish_run_vertex vertex_sample,
           event.complete_vertex vertex_sample,
           event.destroy out_half_42] := by
  refine ⟨rfl, rfl, ?_⟩
  decide

/-- C2, amended: when the combine map (one entry per key) holds a stored
buffer for the arriving buffer's vertex id and the two buffers lie on
opposite sides of the in-part boundary, `directed_vertex_compute::run`
succeeds; it runs the vertex program exactly once, on the merged view,
between one start and one finish call, performs exactly one
`complete_request` right after the finish call (completed counter plus
one, at most one vertex-complete signal), and only then releases the
stored buffer and erases the id from the combine map: the id is no longer
a key and every other entry is unchanged. -/
theorem run_sibling_completes (g : graph_engine) (t : worker_thread) (c : vertex_compute)
    (in_arr out_arr stored array : page_byte_array)
    (hin : in_arr.get_offset < g.in_part_size) (hout : g.in_part_size ≤ out_arr.get_offset)
    (hcase : (stored = in_arr ∧ array = out_arr) ∨ (stored = out_arr ∧ array = in_arr))
    (hfind : combine_map_find c.combine_map (page_directed_vertex.get_id array)
      = some (some stored))
    (hkeys : (c.combine_map.map Prod.fst).Nodup) :
    directed_vertex_compute.run g t c array
      = Except.ok (directed_vertex_compute.joined t c in_arr out_arr stored
          (page_directed_vertex.get_id array))
    ∧ (directed_vertex_compute.joined t c in_arr out_arr stored
          (page_directed_vertex.get_id array)).trace =
        c.trace
          ++ [event.start_run_vertex c.v,
              event.vprog_run c.v (page_vertex.directed in_arr out_arr)]
          ++ ((t.get_vertex_program c.v.is_part).run c.v
                (page_vertex.directed in_arr out_arr)).map vertex_request.directed_call
          ++ [event.finish_run_vertex c.v]
          ++ (if c.num_complete_fetched + 1 = c.num_issued
                ∧ c.num_edge_completed = c.num_edge_requests
                  + asked_num_edges ((t.get_vertex_program c.v.is_part).run c.v
                      (page_vertex.directed in_arr out_arr))
                ∧ c.requested_vertices = []
              then [event.complete_vertex c.v] else [])
          ++ [event.destroy stored]
    ∧ program_views (directed_vertex_compute.joined t c in_arr out_arr stored
          (page_directed_vertex.get_id array)).trace
        = program_views c.trace ++ [page_vertex.directed in_arr out_arr]
    ∧ notifications (directed_vertex_compute.joined t c in_arr out_arr stored
          (page_directed_vertex.get_id array)).trace
        = notifications c.trace + 2
    ∧ (directed_vertex_compute.joined t c in_arr out_arr stored
          (page_directed_vertex.get_id array)).num_complete_fetched
        = c.num_complete_fetched + 1
    ∧ (directed_vertex_compute.joined t c in_arr out_arr stored
          (page_directed_vertex.get_id array)).num_issued = c.num_issued
    ∧ completions (directed_vertex_compute.joined t c in_arr out_arr stored
          (page_directed_vertex.get_id array)).trace
        ≤ completions c.trace + 1
    ∧ combine_map_find (directed_vertex_compute.joined t c in_arr out_arr stored
          (page_directed_vertex.get_id array)).combine_map
        (page_directed_vertex.get_id array) = none
    ∧ ∀ k, k ≠ page_directed_vertex.get_id array →
        combine_map_find (directed_vertex_compute.joined t c in_arr out_arr stored
          (page_directed_vertex.get_id array)).combine_map k
          = combine_map_find c.combine_map k := by
  refine ⟨run_sibling_eq g t c in_arr out_arr stored array hin hout hcase hfind,
    joined_trace t c in_arr out_arr stored _, joined_program_views t c in_arr out_arr stored _,
    ?_, ?_, ?_, ?_, ?_, ?_⟩
  · rw [joined_trace]
    simp only [notifications_append, notifications_directed_calls]
    split <;> simp [notifications]
  · simp [directed_vertex_compute.joined, run_on_page_vertex_eq, vertex_compute.emit]
  · simp [directed_vertex_compute.joined, run_on_page_vertex_eq, vertex_compute.emit]
  · rw [joined_trace]
    simp only [completions_append, completions_directed_calls]
    split <;> simp [completions]
  · exact find_erase_same _ _ hkeys
  · intro k hk
    exact find_erase_other _ _ _ hk

/-! ## Arrivals and the vertex-complete signal -/

theorem run_on_vertex_size_eq (g : graph_engine) (t : worker_thread) (c : vertex_compute)
    (id : vertex_id_t) (size : vsize_t) (hg : g.has_edge_data = false) :
    c.run_on_vertex_size g t id size =
      Except.ok { c with
        num_requested := c.num_requested
          + asked_vertices ((t.get_vertex_program c.v.is_part).run_on_num_edges c.v
              (vertex_header.undirected id (g.cal_num_edges size))),
        num_edge_requests := c.num_edge_requests
          + asked_num_edges ((t.get_vertex_program c.v.is_part).run_on_num_edges c.v
              (vertex_header.undirected id (g.cal_num_edges size))),
        num_edge_completed := c.num_edge_completed + 1,
        trace := c.trace
          ++ [event.start_run_vertex c.v,
              event.vprog_run_on_num_edges c.v
                (vertex_header.undirected id (g.cal_num_edges size))]
          ++ ((t.get_vertex_program c.v.is_part).run_on_num_edges c.v
                (vertex_header.undirected id (g.cal_num_edges size))).map vertex_request.call
          ++ [event.finish_run_vertex c.v]
          ++ (if c.num_complete_fetched = c.num_issued
                ∧ c.num_edge_completed + 1 = c.num_edge_requests
                  + asked_num_edges ((t.get_vertex_program c.v.is_part).run_on_num_edges c.v
                      (vertex_header.undirected id (g.cal_num_edges size)))
                ∧ c.requested_vertices = []
              then [event.complete_vertex c.v] else []) } := by
  simp only [vertex_compute.run_on_vertex_size, hg, Bool.false_eq_true, if_false, serve_eq,
    vertex_compute.emit, get_num_pending_eq_zero, vertex_compute.all_done]
  split <;> simp_all

theorem num_arrivals_eq_zero (xs : List arrival) :
    (num_buffers xs = 0 ∧ num_sizes xs = 0) ↔ xs = [] := by
  cases xs with
  | nil => simp [num_buffers, num_sizes]
  | cons x xs => cases x <;> simp [num_buffers, num_sizes]

theorem deliver_at_most_one_signal (g : graph_engine) (t : worker_thread)
    (c c1 : vertex_compute) (x : arrival) (h : c.deliver g t x = Except.ok c1) :
    completions c.trace ≤ completions c1.trace
    ∧ completions c1.trace ≤ completions c.trace + 1 := by
  cases x with
  | buffer array =>
    simp only [vertex_compute.deliver] at h
    injection h with h
    subst h
    rw [run_eq]
    simp only [completions_append, completions_calls]
    split <;> simp [completions]
  | vertex_size id size =>
    simp only [vertex_compute.deliver] at h
    cases hg : g.has_edge_data
    · rw [run_on_vertex_size_eq g t c id size hg] at h
      injection h with h
      subst h
      simp only [completions_append, completions_calls]
      split <;> simp [completions]
    · simp [vertex_compute.run_on_vertex_size, hg] at h

theorem num_buffers_cons (x : arrival) (xs : List arrival) :
    num_buffers (x :: xs) = num_buffers [x] + num_buffers xs := by
  cases x <;> simp [num_buffers]
  omega

theorem num_sizes_cons (x : arrival) (xs : List arrival) :
    num_sizes (x :: xs) = num_sizes [x] + num_sizes xs := by
  cases x <;> simp [num_sizes]
  omega

theorem arrival_views_cons (x : arrival) (xs : List arrival) :
    arrival_views (x :: xs) = arrival_views [x] ++ arrival_views xs := by
  cases x <;> simp [arrival_views]

theorem deliver_quiet (g : graph_engine) (t : worker_thread)
    (hrun : ∀ b v pg_v, (t.get_vertex_program b).run v pg_v = [])
    (hnum : ∀ b v header, (t.get_vertex_program b).run_on_num_edges v header = [])
    (hg : g.has_edge_data = false) (c : vertex_compute) (x : arrival)
    (hq : c.requested_vertices = []) :
    ∃ c1, c.deliver g t x = Except.ok c1
      ∧ c1.requested_vertices = []
      ∧ c1.num_issued = c.num_issued
      ∧ c1.num_edge_requests = c.num_edge_requests
      ∧ c1.num_complete_fetched = c.num_complete_fetched + num_buffers [x]
      ∧ c1.num_edge_completed = c.num_edge_completed + num_sizes [x]
      ∧ completions c1.trace = completions c.trace
          + (if c1.num_complete_fetched = c1.num_issued
                ∧ c1.num_edge_completed = c1.num_edge_requests then 1 else 0)
      ∧ program_views c1.trace = program_views c.trace ++ arrival_views [x] := by
  cases x with
  | buffer array =>
    refine ⟨c.run t array, rfl, ?_⟩
    rw [run_eq]
    simp only [hrun, asked_vertices, asked_num_edges, List.map_nil, hq, num_buffers, num_sizes,
      completions_append, program_views_append, arrival_views, Nat.add_zero, and_true,
      true_and, List.append_nil]
    refine ⟨?_, ?_⟩
    · split <;> simp [completions]
    · split <;> simp [program_views]
  | vertex_size id size =>
    refine ⟨_, run_on_vertex_size_eq g t c id size hg, ?_⟩
    simp only [hnum, asked_vertices, asked_num_edges, List.map_nil, hq, num_buffers, num_sizes,
      completions_append, program_views_append, arrival_views, Nat.add_zero, and_true,
      true_and, List.append_nil]
    refine ⟨?_, ?_⟩
    · split <;> simp [completions]
    · split <;> simp [program_views]

theorem deliver_prefix (g : graph_engine) (t : worker_thread)
    (hrun : ∀ b v pg_v, (t.get_vertex_program b).run v pg_v = [])
    (hnum : ∀ b v header, (t.get_vertex_program b).run_on_num_edges v header = [])
    (hg : g.has_edge_data = false) (pre post : List arrival) :
    ∀ c : vertex_compute, c.requested_vertices = [] →
      c.num_issued = c.num_complete_fetched + num_buffers (pre ++ post) →
      c.num_edge_requests = c.num_edge_completed + num_sizes (pre ++ post) →
      ∃ c1, c.deliver_all g t pre = Except.ok c1
        ∧ c1.requested_vertices = []
        ∧ c1.num_issued = c1.num_complete_fetched + num_buffers post
        ∧ c1.num_edge_requests = c1.num_edge_completed + num_sizes post
        ∧ completions c1.trace
            = completions c.trace + (if pre ≠ [] ∧ post = [] then 1 else 0)
        ∧ program_views c1.trace = program_views c.trace ++ arrival_views pre := by
  induction pre with
  | nil =>
    intro c hq hb hs
    exact ⟨c, rfl, hq, by simpa using hb, by simpa using hs, by simp, by simp [arrival_views]⟩
  | cons x pre ih =>
    intro c hq hb hs
    rw [List.cons_append, num_buffers_cons] at hb
    rw [List.cons_append, num_sizes_cons] at hs
    obtain ⟨c1, hd, hq1, hi1, he1, hf1, hc1, hs1, hv1⟩ := deliver_quiet g t hrun hnum hg c x hq
    obtain ⟨c2, hd2, hq2, hb2, he2, hc2, hv2⟩ := ih c1 hq1 (by omega) (by omega)
    refine ⟨c2, ?_, hq2, hb2, he2, ?_, ?_⟩
    · simp only [vertex_compute.deliver_all, hd]
      exact hd2
    · have hrest := num_arrivals_eq_zero (pre ++ post)
      have key : (c1.num_complete_fetched = c1.num_issued
          ∧ c1.num_edge_completed = c1.num_edge_requests) ↔ pre ++ post = [] := by
        rw [← hrest]
        constructor
        · intro h0
          omega
        · intro h0
          omega
      rw [hc2, hs1]
      simp only [key]
      cases pre with
      | nil =>
        cases post with
        | nil => simp
        | cons y ys => simp
      | cons y ys => simp
    · rw [hv2, hv1, arrival_views_cons x pre, List.append_assoc]

theorem take_ne_nil_and_drop_nil {α : Type} (xs : List α) (j : Nat) (hne : xs ≠ [])
    (hj : j ≤ xs.length) : (xs.take j ≠ [] ∧ xs.drop j = []) ↔ j = xs.length := by
  have hlen : 0 < xs.length := List.length_pos.mpr hne
  rw [List.drop_eq_nil_iff, Ne, List.take_eq_nil_iff]
  constructor
  · intro h
    omega
  · intro h
    refine ⟨?_, by omega⟩
    rintro (h0 | h0)
    · omega
    · exact hne h0

/-- C4, refuted as stated: a task asks for vertex 7, issues the fetch and
receives it, then asks for vertex 8, issues the fetch and receives it. The
vertex-complete signal is raised at each of the two arrivals. -/
theorem signal_twice_counterexample :
    Option.map (fun c => completions c.trace)
        ((vertex_compute.create vertex_sample).steps graph_sample thread_quiet
          [task_op.request_vertices [7],
           task_op.issue_io_request { id := 7, off := 40, size := 8 },
           task_op.run buffer_sample,
           task_op.request_vertices [8],
           task_op.issue_io_request { id := 8, off := 48, size := 8 },
           task_op.run { offset := 48, vertex_id := 8, data := [] }])
      = some 2
    ∧ Option.map (fun c => completions c.trace)
        ((vertex_compute.create vertex_sample).steps graph_sample thread_quiet
          [task_op.request_vertices [7],
           task_op.issue_io_request { id := 7, off := 40, size := 8 },
           task_op.run buffer_sample])
      = some 1 := by
  constructor <;> rfl

/-- C4, amended: an arrival (`run` or `run_on_vertex_size`) never removes a
vertex-complete signal and raises at most one, whatever the program does;
the task keeps no record of having signalled. When the local queue is
empty, the arrivals still to come are exactly the issued fetches and
requested edge counts not yet completed, and the program requests nothing
further, every arrival succeeds, none but the last raises the signal and
the last raises it exactly once. -/
theorem signal_once_when_drained (g : graph_engine) (t : worker_thread) (c : vertex_compute)
    (arrivals : List arrival)
    (hrun : ∀ b v pg_v, (t.get_vertex_program b).run v pg_v = [])
    (hnum : ∀ b v header, (t.get_vertex_program b).run_on_num_edges v header = [])
    (hg : g.has_edge_data = false) (hne : arrivals ≠ [])
    (hq : c.requested_vertices = [])
    (hb : c.num_issued = c.num_complete_fetched + num_buffers arrivals)
    (hs : c.num_edge_requests = c.num_edge_completed + num_sizes arrivals) :
    (∀ (g0 : graph_engine) (t0 : worker_thread) (c0 c1 : vertex_compute) (x : arrival),
        c0.deliver g0 t0 x = Except.ok c1 →
        completions c0.trace ≤ completions c1.trace
        ∧ completions c1.trace ≤ completions c0.trace + 1)
    ∧ ∀ j, j ≤ arrivals.length →
        ∃ cj, c.deliver_all g t (arrivals.take j) = Except.ok cj
          ∧ completions cj.trace
              = completions c.trace + (if j = arrivals.length then 1 else 0) := by
  refine ⟨fun g0 t0 c0 c1 x h => deliver_at_most_one_signal g0 t0 c0 c1 x h, fun j hj => ?_⟩
  obtain ⟨cj, h1, _, _, _, h5, _⟩ := deliver_prefix g t hrun hnum hg (arrivals.take j)
    (arrivals.drop j) c hq (by rw [List.take_append_drop]; exact hb)
    (by rw [List.take_append_drop]; exact hs)
  refine ⟨cj, h1, ?_⟩
  rw [h5]
  simp only [take_ne_nil_and_drop_nil arrivals j hne hj]

/-- C4 amended, at a concrete task: one edge count and one buffer are
outstanding; the edge count arrives first and raises no signal, the buffer
arrives last and raises the only one. -/
theorem signal_once_when_drained_witness :
    (completions task_edge_outstanding.trace
        ≤ completions (task_edge_outstanding.run thread_asking buffer_sample).trace
      ∧ completions (task_edge_outstanding.run thread_asking buffer_sample).trace
        ≤ completions task_edge_outstanding.trace + 1)
    ∧ (∃ cj, task_edge_outstanding.deliver_all graph_sample thread_quiet
              ([arrival.vertex_size 9 16, arrival.buffer buffer_sample].take 1) = Except.ok cj
          ∧ completions cj.trace = completions task_edge_outstanding.trace + 0)
    ∧ (∃ cj, task_edge_outstanding.deliver_all graph_sample thread_quiet
              ([arrival.vertex_size 9 16, arrival.buffer buffer_sample].take 2) = Except.ok cj
          ∧ completions cj.trace = completions task_edge_outstanding.trace + 1) :=
  ⟨(signal_once_when_drained graph_sample thread_quiet task_edge_outstanding
      [arrival.vertex_size 9 16, arrival.buffer buffer_sample]
      (fun _ _ _ => rfl) (fun _ _ _ => rfl) rfl (by decide) (by decide) (by decide)
      (by decide)).1 graph_sample thread_asking task_edge_outstanding
      (task_edge_outstanding.run thread_asking buffer_sample) (arrival.buffer buffer_sample) rfl,
   (signal_once_when_drained graph_sample thread_quiet task_edge_outstanding
      [arrival.vertex_size 9 16, arrival.buffer buffer_sample]
      (fun _ _ _ => rfl) (fun _ _ _ => rfl) rfl (by decide) (by decide) (by decide)
      (by decide)).2 1 (by decide),
   (signal_once_when_drained graph_sample thread_quiet task_edge_outstanding
      [arrival.vertex_size 9 16, arrival.buffer buffer_sample]
      (fun _ _ _ => rfl) (fun _ _ _ => rfl) rfl (by decide) (by decide) (by decide)
      (by decide)).2 2 (by decide)⟩

/-- C2 amended, at a concrete task (Scenario B): the out-edge half of vertex
42 is stored, vertex 43 is paired too, and the in-edge half of 42 arrives. -/
theorem run_sibling_completes_witness :
    directed_vertex_compute.run graph_sample thread_asking task_half_42 in_half_42
      = Except.ok (directed_vertex_compute.joined thread_asking task_half_42
          in_half_42 out_half_42 out_half_42
          (page_directed_vertex.get_id in_half_42))
    ∧ (directed_vertex_compute.joined thread_asking task_half_42
          in_half_42 out_half_42 out_half_42
          (page_directed_vertex.get_id in_half_42)).trace
        = [event.start_run_vertex vertex_sample,
           event.vprog_run vertex_sample (page_vertex.directed in_half_42 out_half_42),
           event.index_request_num_directed_edges [9],
           event.finish_run_vertex vertex_sample,
           event.destroy out_half_42]
    ∧ program_views (directed_vertex_compute.joined thread_asking task_half_42
          in_half_42 out_half_42 out_half_42
          (page_directed_vertex.get_id in_half_42)).trace
        = program_views task_half_42.trace ++ [page_vertex.directed in_half_42 out_half_42]
    ∧ notifications (directed_vertex_compute.joined thread_asking task_half_42
          in_half_42 out_half_42 out_half_42
          (page_directed_vertex.get_id in_half_42)).trace
        = notifications task_half_42.trace + 2
    ∧ (directed_vertex_compute.joined thread_asking task_half_42
          in_half_42 out_half_42 out_half_42
          (page_directed_vertex.get_id in_half_42)).num_complete_fetched
        = task_half_42.num_complete_fetched + 1
    ∧ (directed_vertex_compute.joined thread_asking task_half_42
          in_half_42 out_half_42 out_half_42
          (page_directed_vertex.get_id in_half_42)).num_issued = task_half_42.num_issued
    ∧ completions (directed_vertex_compute.joined thread_asking task_half_42
          in_half_42 out_half_42 out_half_42
          (page_directed_vertex.get_id in_half_42)).trace
        ≤ completions task_half_42.trace + 1
    ∧ combine_map_find (directed_vertex_compute.joined thread_asking task_half_42
          in_half_42 out_half_42 out_half_42
          (page_directed_vertex.get_id in_half_42)).combine_map
        (page_directed_vertex.get_id in_half_42) = none
    ∧ ∀ k, k ≠ page_directed_vertex.get_id in_half_42 →
        combine_map_find (directed_vertex_compute.joined thread_asking task_half_42
          in_half_42 out_half_42 out_half_42
          (page_directed_vertex.get_id in_half_42)).combine_map k
          = combine_map_find task_half_42.combine_map k :=
  run_sibling_completes graph_sample thread_asking task_half_42
    in_half_42 out_half_42 out_half_42 in_half_42 (by decide) (by decide)
    (Or.inr ⟨rfl, rfl⟩) (by decide) (by decide)

/-! ## The counters under the I/O layer's discipline -/

theorem awaited_append_absent (m : combine_map_t) (v : vertex_id_t) :
    awaited (m ++ [(v, none)]) = awaited m ++ [v, v] := by
  induction m with
  | nil => rfl
  | cons e rest ih =>
    obtain ⟨k, val⟩ := e
    cases val <;> simp [awaited, ih]

theorem num_absent_append_absent (m : combine_map_t) (v : vertex_id_t) :
    num_absent (m ++ [(v, none)]) = num_absent m + 1 := by
  induction m with
  | nil => rfl
  | cons e rest ih =>
    obtain ⟨k, val⟩ := e
    cases val <;> simp [num_absent, ih]

theorem not_mem_awaited (m : combine_map_t) (v : vertex_id_t)
    (h : combine_map_find m v = none) : v ∉ awaited m := by
  induction m with
  | nil => simp [awaited]
  | cons e rest ih =>
    obtain ⟨k, val⟩ := e
    by_cases hk : k = v
    · simp [combine_map_find, hk] at h
    · simp only [combine_map_find, hk, if_false] at h
      have hk1 : ¬ v = k := fun e => hk e.symm
      cases val <;> simp [awaited, hk1, ih h]

theorem awaited_assign (m : combine_map_t) (v : vertex_id_t) (arr : page_byte_array)
    (h : combine_map_find m v = some none) :
    awaited (combine_map_assign m v arr) = (awaited m).erase v
    ∧ num_absent (combine_map_assign m v arr) + 1 = num_absent m := by
  induction m with
  | nil => simp [combine_map_find] at h
  | cons e rest ih =>
    obtain ⟨k, val⟩ := e
    by_cases hk : k = v
    · subst hk
      simp only [combine_map_find, if_true, Option.some.injEq] at h
      subst h
      simp [combine_map_assign, awaited, num_absent]
    · simp only [combine_map_find, hk, if_false] at h
      obtain ⟨ih1, ih2⟩ := ih h
      have hk1 : (k == v) = false := by simpa using hk
      cases val with
      | none =>
        simp only [combine_map_assign, hk, if_false, awaited, num_absent, ih1,
          List.erase_cons, hk1]
        exact ⟨rfl, by omega⟩
      | some st =>
        simp only [combine_map_assign, hk, if_false, awaited, num_absent, ih1,
          List.erase_cons, hk1]
        exact ⟨rfl, ih2⟩

theorem awaited_erase (m : combine_map_t) (v : vertex_id_t) (stored : page_byte_array)
    (h : combine_map_find m v = some (some stored)) :
    awaited (combine_map_erase m v) = (awaited m).erase v
    ∧ num_absent (combine_map_erase m v) = num_absent m := by
  induction m with
  | nil => simp [combine_map_find] at h
  | cons e rest ih =>
    obtain ⟨k, val⟩ := e
    by_cases hk : k = v
    · subst hk
      simp only [combine_map_find, if_true, Option.some.injEq] at h
      subst h
      simp [combine_map_erase, awaited, num_absent]
    · simp only [combine_map_find, hk, if_false] at h
      obtain ⟨ih1, ih2⟩ := ih h
      have hk1 : (k == v) = false := by simpa using hk
      cases val with
      | none =>
        simp only [combine_map_erase, hk, if_false, awaited, num_absent, ih1,
          List.erase_cons, hk1]
        exact ⟨rfl, by omega⟩
      | some st =>
        simp only [combine_map_erase, hk, if_false, awaited, num_absent, ih1,
          List.erase_cons, hk1]
        exact ⟨rfl, ih2⟩

theorem num_absent_le_awaited (m : combine_map_t) : num_absent m ≤ (awaited m).length := by
  induction m with
  | nil => simp [num_absent, awaited]
  | cons e rest ih =>
    obtain ⟨k, val⟩ := e
    cases val <;> simp [num_absent, awaited] <;> omega

theorem find_nil_of_isEmpty (m : combine_map_t) (id : vertex_id_t) (h : m.isEmpty = true) :
    combine_map_find m id = none := by
  cases m with
  | nil => rfl
  | cons e rest => simp at h

theorem directed_run_cases (g : graph_engine) (t : worker_thread) (c c1 : vertex_compute)
    (array : page_byte_array) (h : directed_vertex_compute.run g t c array = Except.ok c1) :
    (combine_map_find c.combine_map (page_directed_vertex.get_id array) = none
      ∧ ∃ pg_v, c1 = directed_vertex_compute.run_on_page_vertex t c pg_v)
    ∨ (combine_map_find c.combine_map (page_directed_vertex.get_id array) = some none
      ∧ c1 =
          { c with
            combine_map :=
              combine_map_assign c.combine_map (page_directed_vertex.get_id array)
                array.clone })
    ∨ (∃ stored pg_v,
        combine_map_find c.combine_map (page_directed_vertex.get_id array) = some (some stored)
        ∧ c1 =
          { (directed_vertex_compute.run_on_page_vertex t c pg_v).emit (event.destroy stored) with
            combine_map :=
              combine_map_erase c.combine_map (page_directed_vertex.get_id array) }) := by
  unfold directed_vertex_compute.run at h
  by_cases he : c.combine_map.isEmpty = true
  · rw [if_pos he] at h
    injection h with h
    exact Or.inl ⟨find_nil_of_isEmpty _ _ he, _, h.symm⟩
  · rw [if_neg he] at h
    simp only at h
    split at h
    · rename_i hf
      injection h with h
      exact Or.inl ⟨hf, _, h.symm⟩
    · rename_i hf
      injection h with h
      exact Or.inr (Or.inl ⟨hf, h.symm⟩)
    · rename_i stored hf
      refine Or.inr (Or.inr ⟨stored, ?_⟩)
      split at h
      · split at h
        · injection h with h
          refine ⟨page_vertex.directed stored array, hf, ?_⟩
          rw [← h]
          simp [run_on_page_vertex_eq, vertex_compute.emit]
        · cases h
      · split at h
        · injection h with h
          refine ⟨page_vertex.directed array stored, hf, ?_⟩
          rw [← h]
          simp [run_on_page_vertex_eq, vertex_compute.emit]
        · cases h

theorem run_on_page_vertex_fields (t : worker_thread) (c : vertex_compute)
    (pg_v : page_vertex) :
    (directed_vertex_compute.run_on_page_vertex t c pg_v).num_issued = c.num_issued
    ∧ (directed_vertex_compute.run_on_page_vertex t c pg_v).num_complete_fetched
        = c.num_complete_fetched + 1
    ∧ (directed_vertex_compute.run_on_page_vertex t c pg_v).combine_map = c.combine_map := by
  rw [run_on_page_vertex_eq]
  exact ⟨rfl, rfl, rfl⟩

theorem issue_pair_eq (g : graph_engine) (c c1 : vertex_compute)
    (in_info out_info : ext_mem_vertex_info)
    (h : directed_vertex_compute.issue_io_request g c in_info out_info = Except.ok c1) :
    in_info.id = out_info.id
    ∧ c1.num_issued = c.num_issued + 1
    ∧ c1.num_complete_fetched = c.num_complete_fetched
    ∧ c1.combine_map = combine_map_insert c.combine_map in_info.id := by
  unfold directed_vertex_compute.issue_io_request at h
  split at h
  · rename_i hid
    injection h with h
    subst h
    exact ⟨hid, rfl, rfl, rfl⟩
  · cases h

theorem balanced_create (directed : Bool) (v : compute_vertex_pointer) :
    (io_task.create v).balanced directed := by
  refine ⟨rfl, ?_, fun _ => rfl⟩
  exact List.Subperm.refl _

theorem balanced_step (g : graph_engine) (t : worker_thread) (directed : Bool)
    (s s1 : io_task) (op : io_op) (hb : s.balanced directed)
    (h : s.step g t directed op = some s1) : s1.balanced directed := by
  obtain ⟨hcount, hsub, hund⟩ := hb
  cases op with
  | issue info =>
    simp only [io_task.step, Option.some.injEq] at h
    subst h
    cases hio : s.compute.issued_to_io
    · simp only [vertex_compute.issue_io_request, hio, vertex_compute.emit, io_task.balanced,
        Bool.false_eq_true, if_false, List.length_cons]
      exact ⟨by omega, List.Subperm.cons_right _ hsub, hund⟩
    · simp only [vertex_compute.issue_io_request, hio, io_task.balanced, if_true]
      exact ⟨hcount, hsub, hund⟩
  | next =>
    simp only [io_task.step] at h
    split at h
    · cases h
    · rename_i info rest hq
      simp only [vertex_compute.get_next_request, hq, Option.map_some', Option.some.injEq] at h
      subst h
      simp only [io_task.balanced, List.length_cons]
      exact ⟨by omega, List.Subperm.cons_right _ hsub, hund⟩
  | issue_pair in_info out_info =>
    simp only [io_task.step] at h
    split at h
    · rename_i hcond
      obtain ⟨hd, hfind⟩ := hcond
      cases hr : directed_vertex_compute.issue_io_request g s.compute in_info out_info with
      | error e => simp [hr, Except.toOption] at h
      | ok c1 =>
        simp only [hr, Except.toOption, Option.map_some', Option.some.injEq] at h
        subst h
        obtain ⟨hid, hi, hc, hm⟩ := issue_pair_eq g s.compute c1 in_info out_info hr
        have hm1 : c1.combine_map = s.compute.combine_map ++ [(in_info.id, none)] := by
          rw [hm]
          simp [combine_map_insert, hfind]
        simp only [io_task.balanced, List.length_cons, hm1, awaited_append_absent,
          num_absent_append_absent, hi, hc, ← hid]
        refine ⟨by omega, ?_, fun h0 => by rw [hd] at h0; cases h0⟩
        have hp : (awaited s.compute.combine_map ++ [in_info.id, in_info.id]).Perm
            (in_info.id :: in_info.id :: awaited s.compute.combine_map) := by
          simpa using (List.perm_append_comm :
            (awaited s.compute.combine_map ++ [in_info.id, in_info.id]).Perm
              ([in_info.id, in_info.id] ++ awaited s.compute.combine_map))
        exact hp.subperm.trans
          ((List.subperm_cons _).2 ((List.subperm_cons _).2 hsub))
    · cases h
  | arrive array =>
    simp only [io_task.step] at h
    split at h
    · rename_i hmem
      have hlen : (s.in_flight.erase (page_directed_vertex.get_id array)).length + 1
          = s.in_flight.length := by
        rw [List.length_erase_of_mem hmem]
        have := List.length_pos_of_mem hmem
        omega
      cases hd : directed
      · have hm := hund hd
        simp only [hd, Bool.false_eq_true, if_false, Option.map_some', Option.some.injEq] at h
        subst h
        simp only [io_task.balanced, run_eq, hm, awaited, num_absent] at hcount ⊢
        exact ⟨by omega, List.nil_subperm, fun _ => trivial⟩
      · simp only [hd, if_true] at h
        cases hr : directed_vertex_compute.run g t s.compute array with
        | error e => simp [hr, Except.toOption] at h
        | ok c1 =>
          simp only [hr, Except.toOption, Option.map_some', Option.some.injEq] at h
          subst h
          rcases directed_run_cases g t s.compute c1 array hr with
            ⟨hf, pg, hc1⟩ | ⟨hf, hc1⟩ | ⟨stored, pg, hf, hc1⟩
          · obtain ⟨f1, f2, f3⟩ := run_on_page_vertex_fields t s.compute pg
            subst hc1
            simp only [io_task.balanced, f1, f2, f3]
            refine ⟨by omega, ?_, fun h0 => by cases h0⟩
            have h1 := List.Subperm.erase (page_directed_vertex.get_id array) hsub
            rwa [List.erase_of_not_mem (not_mem_awaited _ _ hf)] at h1
          · obtain ⟨a1, a2⟩ := awaited_assign s.compute.combine_map
              (page_directed_vertex.get_id array) array.clone hf
            subst hc1
            simp only [io_task.balanced, a1]
            exact ⟨by omega, List.Subperm.erase _ hsub, fun h0 => by cases h0⟩
          · obtain ⟨a1, a2⟩ := awaited_erase s.compute.combine_map
              (page_directed_vertex.get_id array) stored hf
            obtain ⟨f1, f2, f3⟩ := run_on_page_vertex_fields t s.compute pg
            subst hc1
            simp only [io_task.balanced, vertex_compute.emit, a1, a2, f1, f2]
            exact ⟨by omega, List.Subperm.erase _ hsub, fun h0 => by cases h0⟩
    · cases h
  | set_issued_to_io value =>
    simp only [io_task.step, Option.some.injEq] at h
    subst h
    exact ⟨hcount, hsub, hund⟩

theorem balanced_steps (g : graph_engine) (t : worker_thread) (directed : Bool)
    (ops : List io_op) (s s1 : io_task) (hb : s.balanced directed)
    (h : s.steps g t directed ops = some s1) : s1.balanced directed := by
  induction ops generalizing s with
  | nil =>
    simp only [io_task.steps, Option.some.injEq] at h
    subst h
    exact hb
  | cons op ops ih =>
    simp only [io_task.steps] at h
    split at h
    · rename_i s2 hs
      exact ih s2 (balanced_step g t directed s s2 op hb hs) h
    · cases h

theorem balanced_le (directed : Bool) (s : io_task) (hb : s.balanced directed) :
    s.compute.num_complete_fetched ≤ s.compute.num_issued := by
  obtain ⟨hcount, hsub, _⟩ := hb
  have h1 := num_absent_le_awaited s.compute.combine_map
  have h2 := hsub.length_le
  omega

theorem step_completed_mono (g : graph_engine) (t : worker_thread) (c c1 : vertex_compute)
    (op : task_op) (h : c.step g t op = some c1) :
    c.num_complete_fetched ≤ c1.num_complete_fetched := by
  cases op with
  | request_vertices ids =>
    simp only [vertex_compute.step, Option.some.injEq] at h
    subst h
    exact Nat.le_refl _
  | request_num_edges ids =>
    simp only [vertex_compute.step, Option.some.injEq] at h
    subst h
    exact Nat.le_refl _
  | issue_io_request info =>
    simp only [vertex_compute.step, Option.some.injEq] at h
    subst h
    unfold vertex_compute.issue_io_request
    split
    · exact Nat.le_refl _
    · exact Nat.le_refl _
  | get_next_request =>
    simp only [vertex_compute.step, vertex_compute.get_next_request] at h
    split at h
    · cases h
    · simp only [Option.map_some', Option.some.injEq] at h
      subst h
      exact Nat.le_refl _
  | run array =>
    simp only [vertex_compute.step, Option.some.injEq] at h
    subst h
    rw [run_eq]
    exact Nat.le_succ _
  | run_on_vertex_size id size =>
    simp only [vertex_compute.step] at h
    cases hg : g.has_edge_data
    · rw [run_on_vertex_size_eq g t c id size hg] at h
      simp only [Except.toOption, Option.some.injEq] at h
      subst h
      exact Nat.le_refl _
    · simp [vertex_compute.run_on_vertex_size, hg, Except.toOption] at h
  | complete_request =>
    simp only [vertex_compute.step, Option.some.injEq] at h
    subst h
    rw [complete_request_eq]
    exact Nat.le_succ _
  | directed_request_vertices ids =>
    simp only [vertex_compute.step, Option.some.injEq] at h
    subst h
    exact Nat.le_refl _
  | directed_request_partial_vertices reqs =>
    simp only [vertex_compute.step, Option.some.injEq] at h
    subst h
    exact Nat.le_refl _
  | directed_request_num_edges ids =>
    simp only [vertex_compute.step, Option.some.injEq] at h
    subst h
    exact Nat.le_refl _
  | directed_issue_io_request in_info out_info =>
    simp only [vertex_compute.step] at h
    cases hr : directed_vertex_compute.issue_io_request g c in_info out_info with
    | error e => simp [hr, Except.toOption] at h
    | ok c2 =>
      simp only [hr, Except.toOption, Option.some.injEq] at h
      subst h
      exact Nat.le_of_eq (issue_pair_eq g c c2 in_info out_info hr).2.2.1.symm
  | directed_run array =>
    simp only [vertex_compute.step] at h
    cases hr : directed_vertex_compute.run g t c array with
    | error e => simp [hr, Except.toOption] at h
    | ok c2 =>
      simp only [hr, Except.toOption, Option.some.injEq] at h
      subst h
      rcases directed_run_cases g t c c2 array hr with
        ⟨_, pg, hc1⟩ | ⟨_, hc1⟩ | ⟨stored, pg, _, hc1⟩
      · subst hc1
        rw [(run_on_page_vertex_fields t c pg).2.1]
        exact Nat.le_succ _
      · subst hc1
        exact Nat.le_refl _
      · subst hc1
        simp only [vertex_compute.emit, (run_on_page_vertex_fields t c pg).2.1]
        exact Nat.le_succ _
  | directed_run_on_vertex_size id in_size out_size =>
    simp only [vertex_compute.step, directed_vertex_compute.run_on_vertex_size] at h
    split at h
    · simp [Except.toOption] at h
    · simp only [Except.toOption, Option.some.injEq] at h
      subst h
      simp only [directed_serve_eq, vertex_compute.emit]
      split <;> exact Nat.le_refl _
  | set_issued_to_io value =>
    simp only [vertex_compute.step, Option.some.injEq] at h
    subst h
    exact Nat.le_refl _

/-- C5, refuted as stated: `complete_request` on a fresh task leaves the
completed counter at 1 with nothing issued; and on a directed task that
issues the pair of fetches of vertex 42 twice (two issued requests, four
fetches in flight, one map entry) the four buffers end in three completed
requests against two issued ones. -/
theorem completed_exceeds_issued_counterexample :
    Option.map (fun c => (c.num_issued, c.num_complete_fetched))
        ((vertex_compute.create vertex_sample).steps graph_sample thread_quiet
          [task_op.complete_request])
      = some (0, 1)
    ∧ Option.map (fun c => (c.num_issued, c.num_complete_fetched))
        ((vertex_compute.create vertex_sample).steps graph_sample thread_quiet
          [task_op.directed_issue_io_request in_info_42 out_info_42,
           task_op.directed_issue_io_request in_info_42 out_info_42,
           task_op.directed_run in_half_42, task_op.directed_run out_half_42,
           task_op.directed_run in_half_42, task_op.directed_run out_half_42])
      = some (2, 3) := by
  constructor <;> rfl

/-- C5, amended: no call on a task ever decreases `num_complete_fetched`. In
every state reached from a fresh task (undirected or directed) by
`issue_io_request`, `get_next_request`, the directed paired
`issue_io_request` and `run`, where `run` is only handed a buffer of a
vertex that has a submitted fetch not yet delivered and the paired
`issue_io_request` is only called for a vertex id that is not in the
combine map, `num_complete_fetched` does not exceed `num_issued`. -/
theorem completed_le_issued (g : graph_engine) (t : worker_thread) (directed : Bool)
    (v : compute_vertex_pointer) (ops : List io_op) (s : io_task)
    (h : (io_task.create v).steps g t directed ops = some s) :
    s.compute.num_complete_fetched ≤ s.compute.num_issued
    ∧ ∀ (c c1 : vertex_compute) (op : task_op), c.step g t op = some c1 →
        c.num_complete_fetched ≤ c1.num_complete_fetched :=
  ⟨balanced_le directed s (balanced_steps g t directed ops _ s (balanced_create directed v) h),
   fun c c1 op h1 => step_completed_mono g t c c1 op h1⟩

/-- C5 amended, at a concrete directed run: a pair and a single fetch, with
the arrivals interleaved; two requests are issued and two completed. -/
theorem completed_le_issued_witness :
    (io_task.create vertex_sample).steps graph_sample thread_quiet true ops_sample
      = some (io_task.after ops_sample)
    ∧ (io_task.after ops_sample).compute.num_issued = 2
    ∧ (io_task.after ops_sample).compute.num_complete_fetched = 2
    ∧ (io_task.after ops_sample).compute.num_complete_fetched
        ≤ (io_task.after ops_sample).compute.num_issued
    ∧ (vertex_compute.create vertex_sample).num_complete_fetched
        ≤ (vertex_compute.create vertex_sample).complete_request.num_complete_fetched :=
  ⟨rfl, rfl, rfl,
   (completed_le_issued graph_sample thread_quiet true vertex_sample ops_sample
      (io_task.after ops_sample) rfl).1,
   (completed_le_issued graph_sample thread_quiet true vertex_sample ops_sample
      (io_task.after ops_sample) rfl).2 (vertex_compute.create vertex_sample)
      (vertex_compute.create vertex_sample).complete_request task_op.complete_request rfl⟩

/-! ## Deleting a task from the scheduler -/

theorem delete_compute_not_member (s : comp_io_scheduler) (p : compute_ptr)
    (h : (s.mem p).test_flag = false) :
    s.delete_compute p = Except.error failure.NotMember
    ∧ s.delete_compute_stop p = s := by
  simp [comp_io_scheduler.delete_compute, comp_io_scheduler.delete_compute_stop, h]

theorem delete_compute_member (s : comp_io_scheduler) (p : compute_ptr)
    (h : (s.mem p).test_flag = true) :
    s.delete_compute p =
      (if (s.mem p).get_ref = 1 then Except.ok (s.delete_compute_stop p)
       else Except.error failure.InvariantViolation)
    ∧ (s.delete_compute_stop p).incomplete_computes = s.incomplete_computes
    ∧ ((s.delete_compute_stop p).mem p).test_flag = false
    ∧ ((s.delete_compute_stop p).mem p).get_ref = (s.mem p).get_ref - 1
    ∧ (∀ q, q ≠ p → (s.delete_compute_stop p).mem q = s.mem q)
    ∧ (s.delete_compute_stop p).freed
        = (if (s.mem p).get_ref = 1 then s.freed ++ [p] else s.freed) := by
  have hz : ((s.mem p).num_refs - 1 = 0) ↔ (s.mem p).num_refs = 1 := by omega
  have h1 : (s.mem p).IN_QUEUE = true := h
  by_cases hr : (s.mem p).num_refs = 1
  · simp [comp_io_scheduler.delete_compute, comp_io_scheduler.delete_compute_stop, h1,
      comp_io_scheduler.store, user_compute.set_flag, user_compute.dec_ref,
      user_compute.get_ref, user_compute.test_flag, hr]
    intro q hq
    simp [hq]
  · have hr1 : ¬ ((s.mem p).num_refs - 1 = 0) := fun h0 => hr (hz.1 h0)
    simp [comp_io_scheduler.delete_compute, comp_io_scheduler.delete_compute_stop, h1,
      comp_io_scheduler.store, user_compute.set_flag, user_compute.dec_ref,
      user_compute.get_ref, user_compute.test_flag, hr, hr1]
    intro q hq
    simp [hq]

/-- C11: `delete_compute` on a task whose `IN_QUEUE` flag is not set fails as
`NotMember` at its first `assert`, before anything is written: the state
in which the call stops is the state it started in, so the task's flag,
its reference count, the queue and the allocator log are unchanged and the
task is not freed. The call gets past the membership check if and only if
the flag is set. -/
theorem delete_compute_requires_membership (s : comp_io_scheduler) (p : compute_ptr) :
    ((s.mem p).test_flag = false →
      s.delete_compute p = Except.error failure.NotMember
      ∧ s.delete_compute_stop p = s
      ∧ ((s.delete_compute_stop p).mem p).test_flag = (s.mem p).test_flag
      ∧ ((s.delete_compute_stop p).mem p).get_ref = (s.mem p).get_ref
      ∧ (s.delete_compute_stop p).incomplete_computes = s.incomplete_computes
      ∧ (s.delete_compute_stop p).freed = s.freed)
    ∧ (s.delete_compute p ≠ Except.error failure.NotMember ↔ (s.mem p).test_flag = true) := by
  constructor
  · intro h
    obtain ⟨h1, h2⟩ := delete_compute_not_member s p h
    rw [h2]
    exact ⟨h1, rfl, rfl, rfl, rfl, rfl⟩
  · cases h : (s.mem p).test_flag
    · rw [(delete_compute_not_member s p h).1]
      simp
    · rw [(delete_compute_member s p h).1]
      split <;> simp

/-- C11 at a concrete scheduler: task 1 is not registered, task 2 is. -/
theorem delete_compute_requires_membership_witness :
    (sched_sample.delete_compute 1 = Except.error failure.NotMember
      ∧ sched_sample.delete_compute_stop 1 = sched_sample
      ∧ ((sched_sample.delete_compute_stop 1).mem 1).test_flag = (sched_sample.mem 1).test_flag
      ∧ ((sched_sample.delete_compute_stop 1).mem 1).get_ref = (sched_sample.mem 1).get_ref
      ∧ (sched_sample.delete_compute_stop 1).incomplete_computes
          = sched_sample.incomplete_computes
      ∧ (sched_sample.delete_compute_stop 1).freed = sched_sample.freed)
    ∧ sched_sample.delete_compute 2 ≠ Except.error failure.NotMember :=
  ⟨(delete_compute_requires_membership sched_sample 1).1 (by decide),
   (delete_compute_requires_membership sched_sample 2).2.2 (by decide)⟩

/-- C12: for a registered task with reference count `r`, `delete_compute`
clears `IN_QUEUE`, drops the count to `r - 1` and hands the task to its
allocator if and only if that count is zero, that is if and only if
`r = 1`; then the call succeeds and the freed task has its flag clear and
count zero. For every other `r` (in particular `r > 1`) the call fails as
`InvariantViolation` and the allocator log is as before. -/
theorem delete_compute_frees_at_zero (s : comp_io_scheduler) (p : compute_ptr)
    (h : (s.mem p).test_flag = true) :
    ((s.delete_compute_stop p).freed = s.freed ++ [p] ↔ (s.mem p).get_ref = 1)
    ∧ ((∃ s1, s.delete_compute p = Except.ok s1) ↔ (s.mem p).get_ref = 1)
    ∧ ((s.mem p).get_ref = 1 →
        s.delete_compute p = Except.ok (s.delete_compute_stop p)
        ∧ ((s.delete_compute_stop p).mem p).test_flag = false
        ∧ ((s.delete_compute_stop p).mem p).get_ref = 0)
    ∧ ((s.mem p).get_ref ≠ 1 →
        s.delete_compute p = Except.error failure.InvariantViolation
        ∧ (s.delete_compute_stop p).freed = s.freed
        ∧ ((s.delete_compute_stop p).mem p).test_flag = false
        ∧ ((s.delete_compute_stop p).mem p).get_ref = (s.mem p).get_ref - 1) := by
  obtain ⟨h1, _, h3, h4, _, h6⟩ := delete_compute_member s p h
  refine ⟨?_, ?_, ?_, ?_⟩
  · rw [h6]
    by_cases hr : (s.mem p).get_ref = 1
    · simp [hr]
    · simp [hr]
  · rw [h1]
    by_cases hr : (s.mem p).get_ref = 1
    · simp [hr]
    · simp [hr]
  · intro hr
    rw [h1, h4, hr]
    simp [h3]
  · intro hr
    rw [h1, h6]
    simp [hr, h3, h4]

/-- C12 at concrete schedulers: task 7 is registered with one reference and is
freed; task 3 is registered with two references and is not. -/
theorem delete_compute_frees_at_zero_witness :
    (sched_one.delete_compute 7 = Except.ok (sched_one.delete_compute_stop 7)
      ∧ ((sched_one.delete_compute_stop 7).mem 7).test_flag = false
      ∧ ((sched_one.delete_compute_stop 7).mem 7).get_ref = 0)
    ∧ (sched_one.delete_compute_stop 7).freed = sched_one.freed ++ [7]
    ∧ (sched_shared.delete_compute 3 = Except.error failure.InvariantViolation
      ∧ (sched_shared.delete_compute_stop 3).freed = sched_shared.freed
      ∧ ((sched_shared.delete_compute_stop 3).mem 3).test_flag = false
      ∧ ((sched_shared.delete_compute_stop 3).mem 3).get_ref = (sched_shared.mem 3).get_ref - 1) :=
  ⟨(delete_compute_frees_at_zero sched_one 7 (by decide)).2.2.1 (by decide),
   (delete_compute_frees_at_zero sched_one 7 (by decide)).1.2 (by decide),
   (delete_compute_frees_at_zero sched_shared 3 (by decide)).2.2.2 (by decide)⟩

/-- C13, refuted as stated: the scheduler holds the one registered task 7 and
its destructor fails; `delete_compute 7` succeeds, the count reaches zero
and the task is freed, yet task 7 is still in `incomplete_computes` and the
destructor fails again. -/
theorem destroy_after_delete_counterexample :
    sched_one.incomplete_computes = [7]
    ∧ sched_one.destroy = Except.error failure.InvariantViolation
    ∧ sched_one.delete_compute 7 = Except.ok sched_one_deleted
    ∧ (sched_one_deleted.mem 7).get_ref = 0
    ∧ sched_one_deleted.freed = [7]
    ∧ sched_one_deleted.incomplete_computes = [7]
    ∧ sched_one_deleted.destroy = Except.error failure.InvariantViolation := by
  refine ⟨rfl, rfl, rfl, rfl, rfl, rfl, rfl⟩

/-- C13, amended: destroying a scheduler whose queue holds one registered task
is an invariant violation. `delete_compute` for that task, with its count
reaching zero, succeeds and frees the task but leaves it in
`incomplete_computes`, so the destructor still fails; it succeeds once the
queue has been emptied, which `delete_compute` does not do. -/
theorem destroy_after_delete (s : comp_io_scheduler) (p : compute_ptr)
    (hq : s.incomplete_computes = [p]) (hf : (s.mem p).test_flag = true)
    (hr : (s.mem p).get_ref = 1) :
    s.destroy = Except.error failure.InvariantViolation
    ∧ s.delete_compute p = Except.ok (s.delete_compute_stop p)
    ∧ (s.delete_compute_stop p).freed = s.freed ++ [p]
    ∧ (s.delete_compute_stop p).incomplete_computes = [p]
    ∧ (s.delete_compute_stop p).destroy = Except.error failure.InvariantViolation
    ∧ comp_io_scheduler.destroy { s.delete_compute_stop p with incomplete_computes := [] }
        = Except.ok () := by
  obtain ⟨h1, h2, _, _, _, h6⟩ := delete_compute_member s p hf
  refine ⟨?_, ?_, ?_, ?_, ?_, rfl⟩
  · simp [comp_io_scheduler.destroy, comp_io_scheduler.is_empty, hq]
  · rw [h1]
    simp [hr]
  · rw [h6]
    simp [hr]
  · rw [h2, hq]
  · simp [comp_io_scheduler.destroy, comp_io_scheduler.is_empty, h2, hq]

/-- C13 amended, at the scheduler holding the one registered task 7. -/
theorem destroy_after_delete_witness :
    sched_one.destroy = Except.error failure.InvariantViolation
    ∧ sched_one.delete_compute 7 = Except.ok (sched_one.delete_compute_stop 7)
    ∧ (sched_one.delete_compute_stop 7).freed = sched_one.freed ++ [7]
    ∧ (sched_one.delete_compute_stop 7).incomplete_computes = [7]
    ∧ (sched_one.delete_compute_stop 7).destroy = Except.error failure.InvariantViolation
    ∧ comp_io_scheduler.destroy
        { sched_one.delete_compute_stop 7 with incomplete_computes := [] } = Except.ok () :=
  destroy_after_delete sched_one 7 rfl (by decide) (by decide)

/-! ## The local queue -/

theorem pq_push_length (info : ext_mem_vertex_info) (q : List ext_mem_vertex_info) :
    (pq_push info q).length = q.length + 1 := by
  induction q with
  | nil => rfl
  | cons x xs ih =>
    simp only [pq_push]
    split
    · rfl
    · simp [ih]

theorem pq_push_perm (info : ext_mem_vertex_info) (q : List ext_mem_vertex_info) :
    (pq_push info q).Perm (info :: q) := by
  induction q with
  | nil => exact List.Perm.refl _
  | cons x xs ih =>
    simp only [pq_push]
    split
    · exact List.Perm.refl _
    · exact (List.Perm.cons x ih).trans (List.Perm.swap info x xs)

theorem get_next_request_call_eq (g : graph_engine) (c : vertex_compute) :
    c.get_next_request_call g =
      match c.get_next_request g with
      | some r => call_result.returned r
      | none => call_result.undefined := by
  unfold vertex_compute.get_next_request_call vertex_compute.get_next_request
  cases h : c.requested_vertices <;> simp [pq_top, pq_pop]

theorem get_next_request_call_not_raised (g : graph_engine) (c : vertex_compute) (e : failure) :
    c.get_next_request_call g ≠ call_result.raised e := by
  rw [get_next_request_call_eq]
  cases c.get_next_request g <;> simp

/-- C14, refuted as stated: on a fresh task the local queue is empty, and the
call does not stop at an `EmptyQueue` failure: the method reads `top()`
without a test, and on the empty queue that is undefined. -/
theorem get_next_request_empty_counterexample :
    (vertex_compute.create vertex_sample).requested_vertices = []
    ∧ (vertex_compute.create vertex_sample).get_next_request_call graph_sample
        = call_result.undefined
    ∧ (vertex_compute.create vertex_sample).get_next_request_call graph_sample
        ≠ call_result.raised failure.EmptyQueue :=
  ⟨rfl, rfl, get_next_request_call_not_raised graph_sample _ failure.EmptyQueue⟩

/-- C14, amended: `get_next_request` makes no emptiness check and never stops
at `EmptyQueue` or any other failure. On a non-empty local queue it removes
the top entry, returns the READ request at (graph file id, entry offset) of
the entry's size bound to this task, raises `num_issued` by one and leaves
everything else as it was; on an empty queue the call is undefined, and it
returns exactly when the queue is not empty. -/
theorem get_next_request_nonempty (g : graph_engine) (c : vertex_compute)
    (info : ext_mem_vertex_info) (rest : List ext_mem_vertex_info)
    (h : c.requested_vertices = info :: rest) :
    c.get_next_request_call g =
        call_result.returned
          ({ loc := { file_id := g.file_id, off := info.off }, size := info.size,
             access := access_method.READ, compute := c.v },
           { c with requested_vertices := rest, num_issued := c.num_issued + 1 })
    ∧ c.get_next_request g =
        some ({ loc := { file_id := g.file_id, off := info.off }, size := info.size,
                access := access_method.READ, compute := c.v },
              { c with requested_vertices := rest, num_issued := c.num_issued + 1 })
    ∧ (∀ (c0 : vertex_compute) (e : failure),
        c0.get_next_request_call g ≠ call_result.raised e)
    ∧ (∀ c0 : vertex_compute,
        c0.get_next_request_call g = call_result.undefined ↔ c0.requested_vertices = [])
    ∧ (∀ (c0 : vertex_compute) (r : request_range × vertex_compute),
        c0.get_next_request_call g = call_result.returned r ↔ c0.get_next_request g = some r) := by
  refine ⟨?_, ?_, fun c0 e => get_next_request_call_not_raised g c0 e, ?_, ?_⟩
  · simp [vertex_compute.get_next_request_call, pq_top, pq_pop, h]
  · simp [vertex_compute.get_next_request, h]
  · intro c0
    unfold vertex_compute.get_next_request_call
    cases h0 : c0.requested_vertices <;> simp [pq_top, pq_pop]
  · intro c0 r
    rw [get_next_request_call_eq]
    cases c0.get_next_request g <;> simp

/-- C14 amended, at a task with two queued fetches: the one at the lower
offset is handed out first. -/
theorem get_next_request_nonempty_witness :
    task_two_queued.get_next_request_call graph_sample =
        call_result.returned
          ({ loc := { file_id := graph_sample.file_id, off := 8 }, size := 16,
             access := access_method.READ, compute := task_two_queued.v },
           { task_two_queued with
             requested_vertices := [{ id := 7, off := 40, size := 8 }],
             num_issued := task_two_queued.num_issued + 1 })
    ∧ task_two_queued.get_next_request graph_sample =
        some ({ loc := { file_id := graph_sample.file_id, off := 8 }, size := 16,
                access := access_method.READ, compute := task_two_queued.v },
              { task_two_queued with
                requested_vertices := [{ id := 7, off := 40, size := 8 }],
                num_issued := task_two_queued.num_issued + 1 }) :=
  ⟨(get_next_request_nonempty graph_sample task_two_queued { id := 2, off := 8, size := 16 }
      [{ id := 7, off := 40, size := 8 }] rfl).1,
   (get_next_request_nonempty graph_sample task_two_queued { id := 2, off := 8, size := 16 }
      [{ id := 7, off := 40, size := 8 }] rfl).2.1⟩

/-- C15: round trip of the queued path. For a task in flight with an empty
local queue and any vertex info `i`, `issue_io_request i` followed by
`get_next_request` succeeds: it returns the READ request at (graph file id,
`i.off`) of size `i.size` bound to this task, the local queue is empty
again, `num_issued` has risen by one and nothing was submitted by the task
itself. -/
theorem queued_round_trip (g : graph_engine) (c : vertex_compute) (i : ext_mem_vertex_info)
    (hio : c.issued_to_io = true) (hq : c.requested_vertices = []) :
    (c.issue_io_request g i).get_next_request g =
        some ({ loc := { file_id := g.file_id, off := i.off }, size := i.size,
                access := access_method.READ, compute := c.v },
              { c with num_issued := c.num_issued + 1 })
    ∧ ({ c with num_issued := c.num_issued + 1 } : vertex_compute).requested_vertices = []
    ∧ ({ c with num_issued := c.num_issued + 1 } : vertex_compute).trace = c.trace := by
  refine ⟨?_, hq, rfl⟩
  simp [vertex_compute.issue_io_request, hio, hq, pq_push, vertex_compute.get_next_request]

/-- C15 at a concrete task in flight (Scenario C). -/
theorem queued_round_trip_witness :
    (task_in_flight.issue_io_request graph_sample
        { id := 7, off := 40, size := 8 }).get_next_request graph_sample =
        some ({ loc := { file_id := graph_sample.file_id, off := 40 }, size := 8,
                access := access_method.READ, compute := task_in_flight.v },
              { task_in_flight with num_issued := task_in_flight.num_issued + 1 })
    ∧ ({ task_in_flight with num_issued := task_in_flight.num_issued + 1 }
          : vertex_compute).requested_vertices = []
    ∧ ({ task_in_flight with num_issued := task_in_flight.num_issued + 1 }
          : vertex_compute).trace = task_in_flight.trace :=
  queued_round_trip graph_sample task_in_flight { id := 7, off := 40, size := 8 } rfl rfl

/-- C16: `issue_io_request` has exactly two paths, chosen by
`issued_to_io()`. In flight: the info is pushed on the local queue (the
queue holds the old entries and the new one, its size grows by one),
nothing is submitted and no counter moves. Not in flight: exactly one READ
request at (graph file id, `info.off`) of size `info.size`, bound to this
task, is submitted to the owning thread, `num_issued` rises by one and the
local queue is left unchanged. -/
theorem issue_io_request_paths (g : graph_engine) (c : vertex_compute)
    (info : ext_mem_vertex_info) :
    (c.issued_to_io = true →
      c.issue_io_request g info
        = { c with requested_vertices := pq_push info c.requested_vertices }
      ∧ (c.issue_io_request g info).requested_vertices.Perm (info :: c.requested_vertices)
      ∧ (c.issue_io_request g info).requested_vertices.length
          = c.requested_vertices.length + 1
      ∧ (c.issue_io_request g info).trace = c.trace
      ∧ (c.issue_io_request g info).num_issued = c.num_issued)
    ∧ (c.issued_to_io = false →
      c.issue_io_request g info
        = { c with
            num_issued := c.num_issued + 1,
            trace := c.trace ++ [event.issue_io_request
              { compute := c.v, loc := { file_id := g.file_id, off := info.off },
                size := info.size, access := access_method.READ }] }
      ∧ (c.issue_io_request g info).requested_vertices = c.requested_vertices
      ∧ (c.issue_io_request g info).num_issued = c.num_issued + 1) := by
  constructor
  · intro h
    have h1 : c.issue_io_request g info
        = { c with requested_vertices := pq_push info c.requested_vertices } := by
      simp [vertex_compute.issue_io_request, h]
    rw [h1]
    exact ⟨rfl, pq_push_perm info _, pq_push_length info _, rfl, rfl⟩
  · intro h
    have h1 : c.issue_io_request g info
        = { c with
            num_issued := c.num_issued + 1,
            trace := c.trace ++ [event.issue_io_request
              { compute := c.v, loc := { file_id := g.file_id, off := info.off },
                size := info.size, access := access_method.READ }] } := by
      simp [vertex_compute.issue_io_request, h, vertex_compute.emit]
    rw [h1]
    exact ⟨rfl, rfl, rfl⟩

/-- C16 at concrete tasks: one in flight, one fresh. -/
theorem issue_io_request_paths_witness :
    (task_in_flight.issue_io_request graph_sample { id := 7, off := 40, size := 8 }
        = { task_in_flight with
            requested_vertices :=
              pq_push { id := 7, off := 40, size := 8 } task_in_flight.requested_vertices }
      ∧ (task_in_flight.issue_io_request graph_sample
            { id := 7, off := 40, size := 8 }).requested_vertices.Perm
          ({ id := 7, off := 40, size := 8 } :: task_in_flight.requested_vertices)
      ∧ (task_in_flight.issue_io_request graph_sample
            { id := 7, off := 40, size := 8 }).requested_vertices.length
          = task_in_flight.requested_vertices.length + 1
      ∧ (task_in_flight.issue_io_request graph_sample
            { id := 7, off := 40, size := 8 }).trace = task_in_flight.trace
      ∧ (task_in_flight.issue_io_request graph_sample
            { id := 7, off := 40, size := 8 }).num_issued = task_in_flight.num_issued)
    ∧ ((vertex_compute.create vertex_sample).issue_io_request graph_sample
          { id := 7, off := 40, size := 8 }
        = { vertex_compute.create vertex_sample with
            num_issued := (vertex_compute.create vertex_sample).num_issued + 1,
            trace := (vertex_compute.create vertex_sample).trace ++ [event.issue_io_request
              { compute := vertex_sample, loc := { file_id := graph_sample.file_id, off := 40 },
                size := 8, access := access_method.READ }] }
      ∧ ((vertex_compute.create vertex_sample).issue_io_request graph_sample
          { id := 7, off := 40, size := 8 }).requested_vertices
          = (vertex_compute.create vertex_sample).requested_vertices
      ∧ ((vertex_compute.create vertex_sample).issue_io_request graph_sample
          { id := 7, off := 40, size := 8 }).num_issued
          = (vertex_compute.create vertex_sample).num_issued + 1) :=
  ⟨(issue_io_request_paths graph_sample task_in_flight { id := 7, off := 40, size := 8 }).1 rfl,
   (issue_io_request_paths graph_sample (vertex_compute.create vertex_sample)
      { id := 7, off := 40, size := 8 }).2 rfl⟩

/-! ## The paired issue -/

theorem issue_pair_ok (g : graph_engine) (c : vertex_compute)
    (in_info out_info : ext_mem_vertex_info) (hid : in_info.id = out_info.id) :
    directed_vertex_compute.issue_io_request g c in_info out_info =
      Except.ok
        { c with
          combine_map := combine_map_insert c.combine_map in_info.id,
          num_issued := c.num_issued + 1,
          trace := c.trace ++ directed_vertex_compute.pair_requests g c in_info out_info } := by
  simp [directed_vertex_compute.issue_io_request, hid, vertex_compute.emit,
    directed_vertex_compute.pair_requests]

theorem find_append_absent (m : combine_map_t) (v k : vertex_id_t)
    (h : combine_map_find m v = none) :
    combine_map_find (m ++ [(v, none)]) k
      = if k = v then some none else combine_map_find m k := by
  induction m with
  | nil =>
    by_cases hk : k = v
    · simp [combine_map_find, hk]
    · have hk1 : ¬ v = k := fun e => hk e.symm
      simp [combine_map_find, hk, hk1]
  | cons e rest ih =>
    obtain ⟨k1, val⟩ := e
    by_cases h1 : k1 = v
    · simp [combine_map_find, h1] at h
    · simp only [combine_map_find, h1, if_false] at h
      by_cases h2 : k1 = k
      · subst h2
        simp [combine_map_find, h1]
      · simp [combine_map_find, h2, ih h]

theorem find_insert (m : combine_map_t) (v k : vertex_id_t) :
    combine_map_find (combine_map_insert m v) k
      = if k = v then some ((combine_map_find m v).getD none) else combine_map_find m k := by
  unfold combine_map_insert
  cases h : combine_map_find m v with
  | none =>
    simp only [Option.getD_none]
    exact find_append_absent m v k h
  | some x =>
    by_cases hk : k = v
    · subst hk
      simp [h]
    · simp [hk]

/-- C17, refuted as stated: vertex 42 is in the combine map with a stored
in-edge half when its pair of fetches is issued again. The two requests are
submitted, but the entry of 42 still holds the stored half afterwards, not
the null buffer. -/
theorem issue_pair_keeps_stored_counterexample :
    combine_map_find task_stored_42.combine_map 42 = some (some in_half_42)
    ∧ Except.map (fun c => (c.trace, combine_map_find c.combine_map 42, c.num_issued))
        (directed_vertex_compute.issue_io_request graph_sample task_stored_42
          in_info_42 out_info_42)
      = Except.ok
          ([event.issue_io_request
              { compute := vertex_sample, loc := { file_id := 0, off := 10 }, size := 16,
                access := access_method.READ },
            event.issue_io_request
              { compute := vertex_sample, loc := { file_id := 0, off := 150 }, size := 8,
                access := access_method.READ }],
           some (some in_half_42), 3) := by
  constructor <;> rfl

/-- C17, amended: for infos with equal vertex id `v`, the paired
`issue_io_request` succeeds, submits exactly two READ requests (first the
one at the in-edge offset and size, then the one at the out-edge offset and
size), raises `num_issued` by one and inserts `v` with a null buffer only
if `v` is not yet a key: afterwards the map holds `v` in the absent state
when `v` was not in the map or was in it in the absent state, an entry of
`v` that holds a stored half is kept as it is, and every other entry is
unchanged. -/
theorem issue_pair_registers (g : graph_engine) (c : vertex_compute)
    (in_info out_info : ext_mem_vertex_info) (hid : in_info.id = out_info.id) :
    ∃ c1, directed_vertex_compute.issue_io_request g c in_info out_info = Except.ok c1
      ∧ c1.trace = c.trace ++
          [event.issue_io_request
             { compute := c.v, loc := { file_id := g.file_id, off := in_info.off },
               size := in_info.size, access := access_method.READ },
           event.issue_io_request
             { compute := c.v, loc := { file_id := g.file_id, off := out_info.off },
               size := out_info.size, access := access_method.READ }]
      ∧ c1.num_issued = c.num_issued + 1
      ∧ c1.num_complete_fetched = c.num_complete_fetched
      ∧ c1.requested_vertices = c.requested_vertices
      ∧ ((combine_map_find c.combine_map in_info.id = none
            ∨ combine_map_find c.combine_map in_info.id = some none) →
          combine_map_find c1.combine_map in_info.id = some none)
      ∧ (∀ stored, combine_map_find c.combine_map in_info.id = some (some stored) →
          combine_map_find c1.combine_map in_info.id = some (some stored)
          ∧ c1.combine_map = c.combine_map)
      ∧ (∀ k, k ≠ in_info.id →
          combine_map_find c1.combine_map k = combine_map_find c.combine_map k) := by
  refine ⟨_, issue_pair_ok g c in_info out_info hid, rfl, rfl, rfl, rfl, ?_, ?_, ?_⟩
  · intro h
    simp only [find_insert, if_true]
    rcases h with h | h <;> simp [h]
  · intro stored h
    refine ⟨by simp only [find_insert, if_true]; simp [h], ?_⟩
    simp [combine_map_insert, h]
  · intro k hk
    simp only [find_insert, hk, if_false]

/-- C17 amended, at a fresh directed task: the pair of vertex 42 is issued. -/
theorem issue_pair_registers_witness :
    ∃ c1, directed_vertex_compute.issue_io_request graph_sample
          (vertex_compute.create vertex_sample) in_info_42 out_info_42 = Except.ok c1
      ∧ c1.trace = (vertex_compute.create vertex_sample).trace ++
          [event.issue_io_request
             { compute := vertex_sample, loc := { file_id := graph_sample.file_id, off := 10 },
               size := 16, access := access_method.READ },
           event.issue_io_request
             { compute := vertex_sample, loc := { file_id := graph_sample.file_id, off := 150 },
               size := 8, access := access_method.READ }]
      ∧ c1.num_issued = (vertex_compute.create vertex_sample).num_issued + 1
      ∧ c1.num_complete_fetched = (vertex_compute.create vertex_sample).num_complete_fetched
      ∧ c1.requested_vertices = (vertex_compute.create vertex_sample).requested_vertices
      ∧ ((combine_map_find (vertex_compute.create vertex_sample).combine_map 42 = none
            ∨ combine_map_find (vertex_compute.create vertex_sample).combine_map 42
                = some none) →
          combine_map_find c1.combine_map 42 = some none)
      ∧ (∀ stored,
          combine_map_find (vertex_compute.create vertex_sample).combine_map 42
              = some (some stored) →
          combine_map_find c1.combine_map 42 = some (some stored)
          ∧ c1.combine_map = (vertex_compute.create vertex_sample).combine_map)
      ∧ (∀ k, k ≠ 42 →
          combine_map_find c1.combine_map k
            = combine_map_find (vertex_compute.create vertex_sample).combine_map k) :=
  issue_pair_registers graph_sample (vertex_compute.create vertex_sample)
    in_info_42 out_info_42 rfl

/-! ## A buffer that needs no pairing -/

theorem run_unpaired_eq (g : graph_engine) (t : worker_thread) (c : vertex_compute)
    (array : page_byte_array)
    (h : combine_map_find c.combine_map (page_directed_vertex.get_id array) = none) :
    directed_vertex_compute.run g t c array =
      Except.ok (directed_vertex_compute.run_on_page_vertex t c
        (page_vertex.directed_part array (decide (array.get_offset < g.in_part_size)))) := by
  unfold directed_vertex_compute.run
  split
  · rfl
  · simp [h]

/-- C18: when the combine map is empty or has no entry for the arriving
buffer's vertex id, `directed_vertex_compute::run` succeeds with the result
of `run_on_page_vertex` on the view built from that single buffer, marked
as in-edge part if and only if the buffer's offset is below the graph's
in-part size. The program is run exactly once, on that view, between one
start and one finish call; one `complete_request` follows (completed
counter plus one, a vertex-complete signal exactly when nothing is pending
then); the combine map and the issued counter are unchanged. -/
theorem run_unpaired (g : graph_engine) (t : worker_thread) (c : vertex_compute)
    (array : page_byte_array)
    (h : c.combine_map = []
      ∨ combine_map_find c.combine_map (page_directed_vertex.get_id array) = none) :
    directed_vertex_compute.run g t c array =
        Except.ok (directed_vertex_compute.run_on_page_vertex t c
          (page_vertex.directed_part array (decide (array.get_offset < g.in_part_size))))
    ∧ (decide (array.get_offset < g.in_part_size) = true
        ↔ array.get_offset < g.in_part_size)
    ∧ (directed_vertex_compute.run_on_page_vertex t c
          (page_vertex.directed_part array (decide (array.get_offset < g.in_part_size)))).trace
        = c.trace
          ++ [event.start_run_vertex c.v,
              event.vprog_run c.v
                (page_vertex.directed_part array (decide (array.get_offset < g.in_part_size)))]
          ++ ((t.get_vertex_program c.v.is_part).run c.v
                (page_vertex.directed_part array
                  (decide (array.get_offset < g.in_part_size)))).map
              vertex_request.directed_call
          ++ [event.finish_run_vertex c.v]
          ++ (if c.num_complete_fetched + 1 = c.num_issued
                ∧ c.num_edge_completed = c.num_edge_requests
                  + asked_num_edges ((t.get_vertex_program c.v.is_part).run c.v
                      (page_vertex.directed_part array
                        (decide (array.get_offset < g.in_part_size))))
                ∧ c.requested_vertices = []
              then [event.complete_vertex c.v] else [])
    ∧ program_views (directed_vertex_compute.run_on_page_vertex t c
          (page_vertex.directed_part array (decide (array.get_offset < g.in_part_size)))).trace
        = program_views c.trace
          ++ [page_vertex.directed_part array (decide (array.get_offset < g.in_part_size))]
    ∧ (directed_vertex_compute.run_on_page_vertex t c
          (page_vertex.directed_part array
            (decide (array.get_offset < g.in_part_size)))).num_complete_fetched
        = c.num_complete_fetched + 1
    ∧ (directed_vertex_compute.run_on_page_vertex t c
          (page_vertex.directed_part array
            (decide (array.get_offset < g.in_part_size)))).num_issued = c.num_issued
    ∧ (directed_vertex_compute.run_on_page_vertex t c
          (page_vertex.directed_part array
            (decide (array.get_offset < g.in_part_size)))).combine_map = c.combine_map := by
  have h1 : combine_map_find c.combine_map (page_directed_vertex.get_id array) = none := by
    rcases h with h | h
    · rw [h]
      rfl
    · exact h
  refine ⟨run_unpaired_eq g t c array h1, decide_eq_true_iff, ?_, ?_, ?_, ?_, ?_⟩
  · rw [run_on_page_vertex_eq]
  · rw [run_on_page_vertex_eq]
    simp only [program_views_append, program_views_directed_calls]
    split <;> simp [program_views]
  · rw [run_on_page_vertex_eq]
  · rw [run_on_page_vertex_eq]
  · rw [run_on_page_vertex_eq]

/-- C18 at concrete tasks: a buffer of vertex 7 arrives at a fresh directed
task (empty map), and at a task whose map holds only vertices 42 and 43. -/
theorem run_unpaired_witness :
    directed_vertex_compute.run graph_sample thread_quiet (vertex_compute.create vertex_sample)
        buffer_sample
      = Except.ok (directed_vertex_compute.run_on_page_vertex thread_quiet
          (vertex_compute.create vertex_sample) (page_vertex.directed_part buffer_sample true))
    ∧ directed_vertex_compute.run graph_sample thread_quiet task_half_42 buffer_sample
      = Except.ok (directed_vertex_compute.run_on_page_vertex thread_quiet task_half_42
          (page_vertex.directed_part buffer_sample true))
    ∧ program_views (directed_vertex_compute.run_on_page_vertex thread_quiet task_half_42
          (page_vertex.directed_part buffer_sample true)).trace
        = program_views task_half_42.trace ++ [page_vertex.directed_part buffer_sample true]
    ∧ (directed_vertex_compute.run_on_page_vertex thread_quiet task_half_42
          (page_vertex.directed_part buffer_sample true)).combine_map
        = task_half_42.combine_map :=
  ⟨(run_unpaired graph_sample thread_quiet (vertex_compute.create vertex_sample) buffer_sample
      (Or.inl rfl)).1,
   (run_unpaired graph_sample thread_quiet task_half_42 buffer_sample (Or.inr rfl)).1,
   (run_unpaired graph_sample thread_quiet task_half_42 buffer_sample (Or.inr rfl)).2.2.2.1,
   (run_unpaired graph_sample thread_quiet task_half_42 buffer_sample
      (Or.inr rfl)).2.2.2.2.2.2⟩

/-! ## The two request streams -/

/-- C19: `request_vertices` (undirected and directed) and
`request_partial_vertices` add exactly the number of ids to
`num_requested` and leave `num_edge_requests` alone; `request_num_edges`
(undirected and directed) adds exactly the number of ids to
`num_edge_requests` and leaves `num_requested` alone. None of them changes
the issued counter, the two completed counters, the local queue or the
combine map; each makes exactly one call, to the index reader. -/
theorem request_streams (c : vertex_compute) (ids : List vertex_id_t)
    (reqs : List directed_vertex_request) :
    c.request_vertices ids
      = { c with num_requested := c.num_requested + ids.length,
                 trace := c.trace ++ [event.index_request_vertices ids] }
    ∧ c.request_num_edges ids
      = { c with num_edge_requests := c.num_edge_requests + ids.length,
                 trace := c.trace ++ [event.index_request_num_edges ids] }
    ∧ directed_vertex_compute.request_partial_vertices c reqs
      = { c with num_requested := c.num_requested + reqs.length,
                 trace := c.trace ++ [event.index_request_directed_vertices reqs] }
    ∧ directed_vertex_compute.request_vertices c ids
      = { c with
          num_requested := c.num_requested + ids.length,
          trace := c.trace ++ [event.index_request_directed_vertices
            (ids.map (fun id =>
              ({ id := id, type := edge_type.BOTH_EDGES } : directed_vertex_request)))] }
    ∧ directed_vertex_compute.request_num_edges c ids
      = { c with num_edge_requests := c.num_edge_requests + ids.length,
                 trace := c.trace ++ [event.index_request_num_directed_edges ids] }
    ∧ ((c.request_vertices ids).num_requested = c.num_requested + ids.length
        ∧ (c.request_vertices ids).num_edge_requests = c.num_edge_requests
        ∧ (c.request_vertices ids).num_issued = c.num_issued
        ∧ (c.request_vertices ids).num_complete_fetched = c.num_complete_fetched
        ∧ (c.request_vertices ids).num_edge_completed = c.num_edge_completed)
    ∧ ((c.request_num_edges ids).num_edge_requests = c.num_edge_requests + ids.length
        ∧ (c.request_num_edges ids).num_requested = c.num_requested
        ∧ (c.request_num_edges ids).num_issued = c.num_issued
        ∧ (c.request_num_edges ids).num_complete_fetched = c.num_complete_fetched
        ∧ (c.request_num_edges ids).num_edge_completed = c.num_edge_completed)
    ∧ ((directed_vertex_compute.request_partial_vertices c reqs).num_requested
          = c.num_requested + reqs.length
        ∧ (directed_vertex_compute.request_partial_vertices c reqs).num_edge_requests
          = c.num_edge_requests
        ∧ (directed_vertex_compute.request_partial_vertices c reqs).num_issued = c.num_issued
        ∧ (directed_vertex_compute.request_partial_vertices c reqs).num_complete_fetched
          = c.num_complete_fetched
        ∧ (directed_vertex_compute.request_partial_vertices c reqs).num_edge_completed
          = c.num_edge_completed)
    ∧ ((directed_vertex_compute.request_vertices c ids).num_requested
          = c.num_requested + ids.length
        ∧ (directed_vertex_compute.request_vertices c ids).num_edge_requests
          = c.num_edge_requests
        ∧ (directed_vertex_compute.request_vertices c ids).num_issued = c.num_issued
        ∧ (directed_vertex_compute.request_vertices c ids).num_complete_fetched
          = c.num_complete_fetched
        ∧ (directed_vertex_compute.request_vertices c ids).num_edge_completed
          = c.num_edge_completed)
    ∧ ((directed_vertex_compute.request_num_edges c ids).num_edge_requests
          = c.num_edge_requests + ids.length
        ∧ (directed_vertex_compute.request_num_edges c ids).num_requested = c.num_requested
        ∧ (directed_vertex_compute.request_num_edges c ids).num_issued = c.num_issued
        ∧ (directed_vertex_compute.request_num_edges c ids).num_complete_fetched
          = c.num_complete_fetched
        ∧ (directed_vertex_compute.request_num_edges c ids).num_edge_completed
          = c.num_edge_completed) := by
  refine ⟨rfl, rfl, rfl, ?_, rfl, ⟨rfl, rfl, rfl, rfl, rfl⟩, ⟨rfl, rfl, rfl, rfl, rfl⟩,
    ⟨rfl, rfl, rfl, rfl, rfl⟩, ⟨?_, rfl, rfl, rfl, rfl⟩, ⟨rfl, rfl, rfl, rfl, rfl⟩⟩
  · simp [directed_vertex_compute.request_vertices,
      directed_vertex_compute.request_partial_vertices]
  · simp [directed_vertex_compute.request_vertices,
      directed_vertex_compute.request_partial_vertices]

/-! ## Edge-count arrivals -/

theorem header_views_append (xs ys : List event) :
    header_views (xs ++ ys) = header_views xs ++ header_views ys := by
  induction xs with
  | nil => rfl
  | cons e es ih => cases e <;> simp [header_views, ih]

theorem header_views_calls (rs : List vertex_request) :
    header_views (rs.map vertex_request.call) = [] := by
  induction rs with
  | nil => rfl
  | cons r rs ih => cases r <;> simpa [header_views, vertex_request.call] using ih

theorem header_views_directed_calls (rs : List vertex_request) :
    header_views (rs.map vertex_request.directed_call) = [] := by
  induction rs with
  | nil => rfl
  | cons r rs ih => cases r <;> simpa [header_views, vertex_request.directed_call] using ih

theorem complete_edge_request_eq (c : vertex_compute) :
    c.complete_edge_request =
      { c with num_edge_completed := c.num_edge_completed + 1,
               trace := c.trace ++
                 (if c.num_complete_fetched = c.num_issued
                      ∧ c.num_edge_completed + 1 = c.num_edge_requests
                      ∧ c.requested_vertices = []
                  then [event.complete_vertex c.v] else []) } := by
  unfold vertex_compute.complete_edge_request
  simp only [get_num_pending_eq_zero, vertex_compute.all_done, vertex_compute.emit]
  split <;> simp

theorem run_on_header_eq (g : graph_engine) (t : worker_thread) (c : vertex_compute)
    (id : vertex_id_t) (size : vsize_t) :
    c.run_on_header g t id size =
      { c with
        num_requested := c.num_requested
          + asked_vertices ((t.get_vertex_program c.v.is_part).run_on_num_edges c.v
              (vertex_header.undirected id (g.cal_num_edges size))),
        num_edge_requests := c.num_edge_requests
          + asked_num_edges ((t.get_vertex_program c.v.is_part).run_on_num_edges c.v
              (vertex_header.undirected id (g.cal_num_edges size))),
        trace := c.trace
          ++ [event.start_run_vertex c.v,
              event.vprog_run_on_num_edges c.v
                (vertex_header.undirected id (g.cal_num_edges size))]
          ++ ((t.get_vertex_program c.v.is_part).run_on_num_edges c.v
                (vertex_header.undirected id (g.cal_num_edges size))).map vertex_request.call
          ++ [event.finish_run_vertex c.v] } := by
  simp [vertex_compute.run_on_header, serve_eq, vertex_compute.emit]

theorem directed_run_on_header_eq (g : graph_engine) (t : worker_thread) (c : vertex_compute)
    (id : vertex_id_t) (in_size out_size : Nat) :
    directed_vertex_compute.run_on_header g t c id in_size out_size =
      { c with
        num_requested := c.num_requested
          + asked_vertices ((t.get_vertex_program c.v.is_part).run_on_num_edges c.v
              (vertex_header.directed id (g.cal_num_edges in_size) (g.cal_num_edges out_size))),
        num_edge_requests := c.num_edge_requests
          + asked_num_edges ((t.get_vertex_program c.v.is_part).run_on_num_edges c.v
              (vertex_header.directed id (g.cal_num_edges in_size) (g.cal_num_edges out_size))),
        trace := c.trace
          ++ [event.start_run_vertex c.v,
              event.vprog_run_on_num_edges c.v
                (vertex_header.directed id (g.cal_num_edges in_size)
                  (g.cal_num_edges out_size))]
          ++ ((t.get_vertex_program c.v.is_part).run_on_num_edges c.v
                (vertex_header.directed id (g.cal_num_edges in_size)
                  (g.cal_num_edges out_size))).map vertex_request.directed_call
          ++ [event.finish_run_vertex c.v] } := by
  simp [directed_vertex_compute.run_on_header, directed_serve_eq, vertex_compute.emit]

theorem run_on_vertex_size_split (g : graph_engine) (t : worker_thread) (c : vertex_compute)
    (id : vertex_id_t) (size : vsize_t) (hg : g.has_edge_data = false) :
    c.run_on_vertex_size g t id size
      = Except.ok (c.run_on_header g t id size).complete_edge_request := by
  simp only [vertex_compute.run_on_vertex_size, hg, Bool.false_eq_true, if_false,
    vertex_compute.run_on_header, vertex_compute.complete_edge_request]

theorem directed_run_on_vertex_size_split (g : graph_engine) (t : worker_thread)
    (c : vertex_compute) (id : vertex_id_t) (in_size out_size : Nat)
    (hg : g.has_edge_data = false) :
    directed_vertex_compute.run_on_vertex_size g t c id in_size out_size
      = Except.ok
          (directed_vertex_compute.run_on_header g t c id in_size out_size).complete_edge_request := by
  simp only [directed_vertex_compute.run_on_vertex_size, hg, Bool.false_eq_true, if_false,
    directed_vertex_compute.run_on_header, vertex_compute.complete_edge_request]

/-- C20, refuted as stated: a fresh task asked for one edge count, and the
size of vertex 9 arrives. `run_on_vertex_size` leaves the completed counter
at 0, raises `num_edge_completed` to 1 and raises the vertex-complete
signal; one `complete_request` after the header run would instead raise the
completed counter to 1, leave `num_edge_completed` at 0 and raise no
signal. The directed method differs from `complete_request` in the same
way. -/
theorem edge_count_arrival_counterexample :
    Except.map (fun c => (c.num_complete_fetched, c.num_edge_completed, completions c.trace))
        (task_one_edge_count.run_on_vertex_size graph_sample thread_quiet 9 16)
      = Except.ok (0, 1, 1)
    ∧ ((task_one_edge_count.run_on_header graph_sample thread_quiet 9 16).complete_request.num_complete_fetched,
       (task_one_edge_count.run_on_header graph_sample thread_quiet 9 16).complete_request.num_edge_completed,
       completions
         (task_one_edge_count.run_on_header graph_sample thread_quiet 9 16).complete_request.trace)
      = (1, 0, 0)
    ∧ Except.map (fun c => (c.num_complete_fetched, c.num_edge_completed, completions c.trace))
        (directed_vertex_compute.run_on_vertex_size graph_sample thread_quiet
          task_one_edge_count 9 16 8)
      = Except.ok (0, 1, 1)
    ∧ ((directed_vertex_compute.run_on_header graph_sample thread_quiet
          task_one_edge_count 9 16 8).complete_request.num_complete_fetched,
       (directed_vertex_compute.run_on_header graph_sample thread_quiet
          task_one_edge_count 9 16 8).complete_request.num_edge_completed,
       completions (directed_vertex_compute.run_on_header graph_sample thread_quiet
          task_one_edge_count 9 16 8).complete_request.trace)
      = (1, 0, 0) := by
  refine ⟨rfl, rfl, rfl, rfl⟩

/-- C20, amended: on a graph without edge data (the method's `assert`), an
edge-count arrival, undirected or directed, succeeds. It runs the program's
header-only entry point exactly once, between one start and one finish
call, on a header carrying the vertex id and the edge count (for a directed
vertex the in- and out-edge counts) computed from the byte size; the fetch
counters and the local queue are untouched by that. It then raises
`num_edge_completed` (not `num_complete_fetched`) by one and raises the
vertex-complete signal under the test `complete_request` uses: exactly when
nothing is pending after the increment. -/
theorem edge_count_arrival (g : graph_engine) (t : worker_thread) (c : vertex_compute)
    (id : vertex_id_t) (size in_size out_size : Nat) (hg : g.has_edge_data = false) :
    (c.run_on_vertex_size g t id size
        = Except.ok (c.run_on_header g t id size).complete_edge_request
      ∧ header_views (c.run_on_header g t id size).trace
        = header_views c.trace ++ [vertex_header.undirected id (g.cal_num_edges size)]
      ∧ notifications (c.run_on_header g t id size).trace = notifications c.trace + 2
      ∧ completions (c.run_on_header g t id size).trace = completions c.trace
      ∧ (c.run_on_header g t id size).num_issued = c.num_issued
      ∧ (c.run_on_header g t id size).num_complete_fetched = c.num_complete_fetched
      ∧ (c.run_on_header g t id size).num_edge_completed = c.num_edge_completed
      ∧ (c.run_on_header g t id size).requested_vertices = c.requested_vertices)
    ∧ (directed_vertex_compute.run_on_vertex_size g t c id in_size out_size
        = Except.ok
            (directed_vertex_compute.run_on_header g t c id in_size
              out_size).complete_edge_request
      ∧ header_views (directed_vertex_compute.run_on_header g t c id in_size out_size).trace
        = header_views c.trace
          ++ [vertex_header.directed id (g.cal_num_edges in_size) (g.cal_num_edges out_size)]
      ∧ notifications (directed_vertex_compute.run_on_header g t c id in_size out_size).trace
        = notifications c.trace + 2
      ∧ completions (directed_vertex_compute.run_on_header g t c id in_size out_size).trace
        = completions c.trace
      ∧ (directed_vertex_compute.run_on_header g t c id in_size out_size).num_issued
        = c.num_issued
      ∧ (directed_vertex_compute.run_on_header g t c id in_size out_size).num_complete_fetched
        = c.num_complete_fetched
      ∧ (directed_vertex_compute.run_on_header g t c id in_size out_size).num_edge_completed
        = c.num_edge_completed
      ∧ (directed_vertex_compute.run_on_header g t c id in_size out_size).requested_vertices
        = c.requested_vertices)
    ∧ (∀ x : vertex_compute,
        x.complete_edge_request.num_edge_completed = x.num_edge_completed + 1
        ∧ x.complete_edge_request.num_complete_fetched = x.num_complete_fetched
        ∧ x.complete_edge_request.num_issued = x.num_issued
        ∧ x.complete_edge_request.num_edge_requests = x.num_edge_requests
        ∧ x.complete_edge_request.requested_vertices = x.requested_vertices
        ∧ x.complete_edge_request.trace = x.trace ++
            (if x.num_complete_fetched = x.num_issued
                ∧ x.num_edge_completed + 1 = x.num_edge_requests
                ∧ x.requested_vertices = []
             then [event.complete_vertex x.v] else [])
        ∧ x.complete_request.trace = x.trace ++
            (if x.num_complete_fetched + 1 = x.num_issued
                ∧ x.num_edge_completed = x.num_edge_requests
                ∧ x.requested_vertices = []
             then [event.complete_vertex x.v] else [])) := by
  refine ⟨⟨run_on_vertex_size_split g t c id size hg, ?_, ?_, ?_, ?_, ?_, ?_, ?_⟩,
    ⟨directed_run_on_vertex_size_split g t c id in_size out_size hg, ?_, ?_, ?_, ?_, ?_, ?_, ?_⟩,
    ?_⟩
  · rw [run_on_header_eq]
    simp [header_views_append, header_views_calls, header_views]
  · rw [run_on_header_eq]
    simp [notifications_append, notifications_calls, notifications]
  · rw [run_on_header_eq]
    simp [completions_append, completions_calls, completions]
  · rw [run_on_header_eq]
  · rw [run_on_header_eq]
  · rw [run_on_header_eq]
  · rw [run_on_header_eq]
  · rw [directed_run_on_header_eq]
    simp [header_views_append, header_views_directed_calls, header_views]
  · rw [directed_run_on_header_eq]
    simp [notifications_append, notifications_directed_calls, notifications]
  · rw [directed_run_on_header_eq]
    simp [completions_append, completions_directed_calls, completions]
  · rw [directed_run_on_header_eq]
  · rw [directed_run_on_header_eq]
  · rw [directed_run_on_header_eq]
  · rw [directed_run_on_header_eq]
  · intro x
    refine ⟨?_, ?_, ?_, ?_, ?_, ?_, ?_⟩
    · rw [complete_edge_request_eq]
    · rw [complete_edge_request_eq]
    · rw [complete_edge_request_eq]
    · rw [complete_edge_request_eq]
    · rw [complete_edge_request_eq]
    · rw [complete_edge_request_eq]
    · rw [complete_request_eq]

/-- C20 amended, at a task that asked for one edge count: the size of vertex 9
arrives, undirected and directed. -/
theorem edge_count_arrival_witness :
    task_one_edge_count.run_on_vertex_size graph_sample thread_quiet 9 16
        = Except.ok
            (task_one_edge_count.run_on_header graph_sample thread_quiet 9 16).complete_edge_request
    ∧ header_views (task_one_edge_count.run_on_header graph_sample thread_quiet 9 16).trace
        = header_views task_one_edge_count.trace
          ++ [vertex_header.undirected 9 (graph_sample.cal_num_edges 16)]
    ∧ directed_vertex_compute.run_on_vertex_size graph_sample thread_quiet
          task_one_edge_count 9 16 8
        = Except.ok
            (directed_vertex_compute.run_on_header graph_sample thread_quiet
              task_one_edge_count 9 16 8).complete_edge_request
    ∧ header_views (directed_vertex_compute.run_on_header graph_sample thread_quiet
          task_one_edge_count 9 16 8).trace
        = header_views task_one_edge_count.trace
          ++ [vertex_header.directed 9 (graph_sample.cal_num_edges 16)
                (graph_sample.cal_num_edges 8)] :=
  ⟨(edge_count_arrival graph_sample thread_quiet task_one_edge_count 9 16 16 8 rfl).1.1,
   (edge_count_arrival graph_sample thread_quiet task_one_edge_count 9 16 16 8 rfl).1.2.1,
   (edge_count_arrival graph_sample thread_quiet task_one_edge_count 9 16 16 8 rfl).2.1.1,
   (edge_count_arrival graph_sample thread_quiet task_one_edge_count 9 16 16 8 rfl).2.1.2.1⟩

/-! ## `eq_all` -/

theorem std_equal_iff {α : Type} [DecidableEq α] (v1 v2 : Nat → α) (n : Nat) :
    std_equal v1 0 n v2 0 = true ↔ ∀ i, i < n → v1 i = v2 i := by
  simp [std_equal]

theorem eq_all_iff {α : Type} [DecidableEq α] (v1 v2 : Nat → α) (len : Nat)
    (h1 : 1 ≤ len) (h2 : len < 4294967296) :
    eq_all v1 v2 len = true ↔ ∀ i, i < len - 1 → v1 i = v2 i := by
  have h : (len + 4294967295) % 4294967296 = len - 1 := by omega
  rw [eq_all, h, std_equal_iff]

/-- C23, the code at a failing input: for `v1 = {1, 2}`, `v2 = {1, 3}` and
`len = 2` the arrays differ at index 1, yet `eq_all` returns true: the range
handed to `std::equal` ends at `&v1[len-1]`, so the last element is never
compared. With `len = 1` nothing is compared at all. -/
theorem eq_all_skips_last :
    array_of [1, 2] 1 ≠ array_of [1, 3] 1
    ∧ eq_all (array_of [1, 2]) (array_of [1, 3]) 2 = true
    ∧ array_of [5] 0 ≠ array_of [6] 0
    ∧ eq_all (array_of [5]) (array_of [6]) 1 = true := by
  decide

/-! ## `matrix_config::init` -/

theorem init_eq (power2 : Int → Bool) (map : config_map) (c : matrix_config) :
    c.init power2 map =
      if power2 (map.read_option_int "threads" c.num_threads) = true then
        Except.ok
          { num_threads := map.read_option_int "threads" c.num_threads,
            prof_file := map.read_option "prof_file" c.prof_file,
            _in_mem_matrix := map.read_option_bool "in_mem_matrix" c._in_mem_matrix,
            row_block_size := map.read_option_int "row_block_size" c.row_block_size,
            rb_io_size := map.read_option_int "rb_io_size" c.rb_io_size,
            rb_steal_io_size := map.read_option_int "rb_steal_io_size" c.rb_steal_io_size,
            cpu_cache_size := map.read_option_int "cpu_cache_size" c.cpu_cache_size,
            hilbert_order := map.read_option_bool "hilbert_order" c.hilbert_order,
            num_nodes := map.read_option_int "num_nodes" c.num_nodes }
      else Except.error { msg := "The number of worker threads has to be 2^n" } := by
  unfold matrix_config.init
  by_cases h : power2 (map.read_option_int "threads" c.num_threads) = true
  · simp [h]
  · simp [h]

/-! ## Counting issued fetches -/

theorem step_issued_plus_queued (g : graph_engine) (t : worker_thread) (c c1 : vertex_compute)
    (op : task_op) (h : c.step g t op = some c1) :
    c1.num_issued + c1.requested_vertices.length
      = c.num_issued + c.requested_vertices.length + num_issue_calls [op]
        + num_pair_calls [op] := by
  cases op with
  | request_vertices ids =>
    simp only [vertex_compute.step, Option.some.injEq] at h
    subst h
    rfl
  | request_num_edges ids =>
    simp only [vertex_compute.step, Option.some.injEq] at h
    subst h
    rfl
  | issue_io_request info =>
    simp only [vertex_compute.step, Option.some.injEq] at h
    subst h
    cases hio : c.issued_to_io
    · simp [vertex_compute.issue_io_request, hio, vertex_compute.emit, num_issue_calls,
        num_pair_calls]
      omega
    · simp [vertex_compute.issue_io_request, hio, pq_push_length, num_issue_calls,
        num_pair_calls]
      omega
  | get_next_request =>
    simp only [vertex_compute.step, vertex_compute.get_next_request] at h
    split at h
    · cases h
    · rename_i info rest hq
      simp only [Option.map_some', Option.some.injEq] at h
      subst h
      simp [hq, num_issue_calls, num_pair_calls]
      omega
  | run array =>
    simp only [vertex_compute.step, Option.some.injEq] at h
    subst h
    rw [run_eq]
    rfl
  | run_on_vertex_size id size =>
    simp only [vertex_compute.step] at h
    cases hg : g.has_edge_data
    · rw [run_on_vertex_size_eq g t c id size hg] at h
      simp only [Except.toOption, Option.some.injEq] at h
      subst h
      rfl
    · simp [vertex_compute.run_on_vertex_size, hg, Except.toOption] at h
  | complete_request =>
    simp only [vertex_compute.step, Option.some.injEq] at h
    subst h
    rw [complete_request_eq]
    rfl
  | directed_request_vertices ids =>
    simp only [vertex_compute.step, Option.some.injEq] at h
    subst h
    rfl
  | directed_request_partial_vertices reqs =>
    simp only [vertex_compute.step, Option.some.injEq] at h
    subst h
    rfl
  | directed_request_num_edges ids =>
    simp only [vertex_compute.step, Option.some.injEq] at h
    subst h
    rfl
  | directed_issue_io_request in_info out_info =>
    simp only [vertex_compute.step] at h
    cases hr : directed_vertex_compute.issue_io_request g c in_info out_info with
    | error e => simp [hr, Except.toOption] at h
    | ok c2 =>
      simp only [hr, Except.toOption, Option.some.injEq] at h
      subst h
      obtain ⟨hid, h2, _, _⟩ := issue_pair_eq g c c2 in_info out_info hr
      have h3 : c2.requested_vertices = c.requested_vertices := by
        rw [issue_pair_ok g c in_info out_info hid] at hr
        injection hr with hr
        subst hr
        rfl
      rw [h2, h3]
      simp [num_issue_calls, num_pair_calls]
      omega
  | directed_run array =>
    simp only [vertex_compute.step] at h
    cases hr : directed_vertex_compute.run g t c array with
    | error e => simp [hr, Except.toOption] at h
    | ok c2 =>
      simp only [hr, Except.toOption, Option.some.injEq] at h
      subst h
      rcases directed_run_cases g t c c2 array hr with
        ⟨_, pg, hc1⟩ | ⟨_, hc1⟩ | ⟨stored, pg, _, hc1⟩
      · subst hc1
        rw [run_on_page_vertex_eq]
        rfl
      · subst hc1
        rfl
      · subst hc1
        rw [run_on_page_vertex_eq]
        rfl
  | directed_run_on_vertex_size id in_size out_size =>
    simp only [vertex_compute.step] at h
    cases hg : g.has_edge_data
    · rw [directed_run_on_vertex_size_split g t c id in_size out_size hg] at h
      simp only [Except.toOption, Option.some.injEq] at h
      subst h
      rw [complete_edge_request_eq, directed_run_on_header_eq]
      rfl
    · simp [directed_vertex_compute.run_on_vertex_size, hg, Except.toOption] at h
  | set_issued_to_io value =>
    simp only [vertex_compute.step, Option.some.injEq] at h
    subst h
    rfl

theorem num_issue_calls_cons (op : task_op) (ops : List task_op) :
    num_issue_calls (op :: ops) = num_issue_calls [op] + num_issue_calls ops := by
  cases op <;> simp [num_issue_calls]
  omega

theorem num_pair_calls_cons (op : task_op) (ops : List task_op) :
    num_pair_calls (op :: ops) = num_pair_calls [op] + num_pair_calls ops := by
  cases op <;> simp [num_pair_calls]
  omega

theorem steps_issued_plus_queued (g : graph_engine) (t : worker_thread) (ops : List task_op)
    (c c1 : vertex_compute) (h : c.steps g t ops = some c1) :
    c1.num_issued + c1.requested_vertices.length
      = c.num_issued + c.requested_vertices.length + num_issue_calls ops
        + num_pair_calls ops := by
  induction ops generalizing c with
  | nil =>
    simp only [vertex_compute.steps, Option.some.injEq] at h
    subst h
    rfl
  | cons op ops ih =>
    simp only [vertex_compute.steps] at h
    split at h
    · rename_i c2 hs
      have h1 := step_issued_plus_queued g t c c2 op hs
      have h2 := ih c2 h
      rw [num_issue_calls_cons op ops, num_pair_calls_cons op ops]
      omega
    · cases h

/-- C22: every vertex info handed to the undirected `issue_io_request` is
counted in `num_issued` exactly once. On the direct path `num_issued` rises
by one at submission and the queue is untouched; on the queued path
`num_issued` is unchanged at enqueue time and the info joins the local
queue; each successful `get_next_request` removes one queued entry, returns
its request and raises `num_issued` by one. So along any sequence of calls
on a task, `num_issued` plus the number of entries still queued grows by
exactly one per info handed to `issue_io_request` (and by one per directed
pair, which the paired method counts once). -/
theorem issue_counted_once (g : graph_engine) (t : worker_thread) (c c1 : vertex_compute)
    (ops : List task_op) (h : c.steps g t ops = some c1) :
    c1.num_issued + c1.requested_vertices.length
        = c.num_issued + c.requested_vertices.length + num_issue_calls ops
          + num_pair_calls ops
    ∧ (∀ (x : vertex_compute) (info : ext_mem_vertex_info), x.issued_to_io = false →
        (x.issue_io_request g info).num_issued = x.num_issued + 1
        ∧ (x.issue_io_request g info).requested_vertices = x.requested_vertices)
    ∧ (∀ (x : vertex_compute) (info : ext_mem_vertex_info), x.issued_to_io = true →
        (x.issue_io_request g info).num_issued = x.num_issued
        ∧ (x.issue_io_request g info).requested_vertices.Perm (info :: x.requested_vertices))
    ∧ (∀ (x x1 : vertex_compute) (r : request_range), x.get_next_request g = some (r, x1) →
        x1.num_issued = x.num_issued + 1
        ∧ ∃ info, x.requested_vertices = info :: x1.requested_vertices
          ∧ r = { loc := { file_id := g.file_id, off := info.off }, size := info.size,
                  access := access_method.READ, compute := x.v }) := by
  refine ⟨steps_issued_plus_queued g t ops c c1 h, ?_, ?_, ?_⟩
  · intro x info hio
    simp [vertex_compute.issue_io_request, hio, vertex_compute.emit]
  · intro x info hio
    have h1 : x.issue_io_request g info
        = { x with requested_vertices := pq_push info x.requested_vertices } := by
      simp [vertex_compute.issue_io_request, hio]
    rw [h1]
    exact ⟨rfl, pq_push_perm info _⟩
  · intro x x1 r hx
    unfold vertex_compute.get_next_request at hx
    split at hx
    · cases hx
    · rename_i info rest hq
      simp only [Option.some.injEq, Prod.mk.injEq] at hx
      obtain ⟨hr, hx1⟩ := hx
      subst hx1
      exact ⟨rfl, info, hq, hr.symm⟩

/-- C22 at a concrete run: four infos are handed to `issue_io_request`, two on
each path, and one queued entry is popped; three are counted in
`num_issued`, the fourth is still queued. -/
theorem issue_counted_once_witness :
    (vertex_compute.create vertex_sample).steps graph_sample thread_quiet ops_issue_sample
      = some task_issue_sample
    ∧ task_issue_sample.num_issued = 3
    ∧ task_issue_sample.requested_vertices = [{ id := 7, off := 40, size := 8 }]
    ∧ task_issue_sample.num_issued + task_issue_sample.requested_vertices.length
        = (vertex_compute.create vertex_sample).num_issued
          + (vertex_compute.create vertex_sample).requested_vertices.length
          + num_issue_calls ops_issue_sample + num_pair_calls ops_issue_sample :=
  ⟨rfl, rfl, rfl,
   (issue_counted_once graph_sample thread_quiet (vertex_compute.create vertex_sample)
      task_issue_sample ops_issue_sample rfl).1⟩

/-! ## The start and finish brackets -/

theorem scan_append (v : compute_vertex_pointer) (st : bracket) (xs ys : List event) :
    bracket.scan v st (xs ++ ys)
      = (bracket.scan v st xs).bind (fun st1 => bracket.scan v st1 ys) := by
  induction xs generalizing st with
  | nil => rfl
  | cons e es ih =>
    simp only [List.cons_append, bracket.scan]
    cases bracket.next v st e with
    | none => rfl
    | some st1 => exact ih st1

theorem scan_calls (v : compute_vertex_pointer) (rs : List vertex_request) :
    bracket.scan v bracket.running (rs.map vertex_request.call) = some bracket.running := by
  induction rs with
  | nil => rfl
  | cons r rs ih => cases r <;> simpa [bracket.scan, bracket.next, vertex_request.call] using ih

theorem scan_directed_calls (v : compute_vertex_pointer) (rs : List vertex_request) :
    bracket.scan v bracket.running (rs.map vertex_request.directed_call)
      = some bracket.running := by
  induction rs with
  | nil => rfl
  | cons r rs ih =>
    cases r <;> simpa [bracket.scan, bracket.next, vertex_request.directed_call] using ih

/-- The states in which an arrival leaves the brackets. -/
theorem scan_block (v : compute_vertex_pointer) (st : bracket)
    (hst : st = bracket.outside ∨ st = bracket.finished) (inv : event)
    (hinv : bracket.next v bracket.started inv = some bracket.running) (calls : List event)
    (hcalls : bracket.scan v bracket.running calls = some bracket.running) (p : Prop)
    [Decidable p] :
    bracket.scan v st
        ([event.start_run_vertex v, inv] ++ calls ++ [event.finish_run_vertex v]
          ++ (if p then [event.complete_vertex v] else []))
      = some (if p then bracket.outside else bracket.finished) := by
  have h0 : bracket.next v st (event.start_run_vertex v) = some bracket.started := by
    rcases hst with h | h <;> subst h <;> simp [bracket.next]
  have h1 : bracket.scan v st [event.start_run_vertex v, inv] = some bracket.running := by
    simp only [bracket.scan, h0, hinv]
  rw [scan_append, scan_append, scan_append, h1]
  simp only [Option.some_bind, hcalls]
  by_cases hp : p
  · simp [hp, bracket.scan, bracket.next]
  · simp [hp, bracket.scan, bracket.next]

theorem append_block4 (a b1 b2 b3 b4 : List event) :
    a ++ b1 ++ b2 ++ b3 ++ b4 = a ++ (b1 ++ b2 ++ b3 ++ b4) := by
  simp only [List.append_assoc]

theorem append_block5 (a b1 b2 b3 b4 b5 : List event) :
    a ++ b1 ++ b2 ++ b3 ++ b4 ++ b5 = a ++ (b1 ++ b2 ++ b3 ++ b4 ++ b5) := by
  simp only [List.append_assoc]

theorem rests_ite (p : Prop) [Decidable p] :
    (if p then bracket.outside else bracket.finished) = bracket.outside
      ∨ (if p then bracket.outside else bracket.finished) = bracket.finished := by
  by_cases hp : p
  · exact Or.inl (if_pos hp)
  · exact Or.inr (if_neg hp)

theorem scan_block_rests (v : compute_vertex_pointer) (st : bracket)
    (hst : st = bracket.outside ∨ st = bracket.finished) (inv : event)
    (hinv : bracket.next v bracket.started inv = some bracket.running) (calls : List event)
    (hcalls : bracket.scan v bracket.running calls = some bracket.running) (p : Prop)
    [Decidable p] :
    ∃ st1, bracket.scan v st
        ([event.start_run_vertex v, inv] ++ calls ++ [event.finish_run_vertex v]
          ++ (if p then [event.complete_vertex v] else [])) = some st1
      ∧ (st1 = bracket.outside ∨ st1 = bracket.finished) :=
  ⟨_, scan_block v st hst inv hinv calls hcalls p, rests_ite p⟩

theorem arrive_bracketed (g : graph_engine) (t : worker_thread) (c c1 : vertex_compute)
    (op : arrival_op) (h : c.arrive g t op = some c1) :
    c1.v = c.v
    ∧ ∃ blk, c1.trace = c.trace ++ blk
      ∧ ∀ st, (st = bracket.outside ∨ st = bracket.finished) →
          ∃ st1, bracket.scan c.v st blk = some st1
            ∧ (st1 = bracket.outside ∨ st1 = bracket.finished) := by
  cases op with
  | run array =>
    simp only [vertex_compute.arrive, Option.some.injEq] at h
    subst h
    rw [run_eq]
    refine ⟨rfl, _, append_block4 _ _ _ _ _, fun st hst =>
      scan_block_rests c.v st hst _ (by simp [bracket.next]) _ (scan_calls c.v _) _⟩
  | run_on_vertex_size id size =>
    simp only [vertex_compute.arrive] at h
    cases hg : g.has_edge_data
    · rw [run_on_vertex_size_eq g t c id size hg] at h
      simp only [Except.toOption, Option.some.injEq] at h
      subst h
      refine ⟨rfl, _, append_block4 _ _ _ _ _, fun st hst =>
      scan_block_rests c.v st hst _ (by simp [bracket.next]) _ (scan_calls c.v _) _⟩
    · simp [vertex_compute.run_on_vertex_size, hg, Except.toOption] at h
  | run_on_page_vertex pg_v =>
    simp only [vertex_compute.arrive, Option.some.injEq] at h
    subst h
    rw [run_on_page_vertex_eq]
    refine ⟨rfl, _, append_block4 _ _ _ _ _, fun st hst =>
      scan_block_rests c.v st hst _ (by simp [bracket.next]) _ (scan_directed_calls c.v _) _⟩
  | directed_run_on_vertex_size id in_size out_size =>
    simp only [vertex_compute.arrive] at h
    cases hg : g.has_edge_data
    · rw [directed_run_on_vertex_size_split g t c id in_size out_size hg] at h
      simp only [Except.toOption, Option.some.injEq] at h
      subst h
      rw [complete_edge_request_eq, directed_run_on_header_eq]
      refine ⟨rfl, _, append_block4 _ _ _ _ _, fun st hst =>
      scan_block_rests c.v st hst _ (by simp [bracket.next]) _ (scan_directed_calls c.v _) _⟩
    · simp [directed_vertex_compute.run_on_vertex_size, hg, Except.toOption] at h
  | directed_run array =>
    simp only [vertex_compute.arrive] at h
    cases hr : directed_vertex_compute.run g t c array with
    | error e => simp [hr, Except.toOption] at h
    | ok c2 =>
      simp only [hr, Except.toOption, Option.some.injEq] at h
      subst h
      rcases directed_run_cases g t c c2 array hr with
        ⟨_, pg, hc1⟩ | ⟨_, hc1⟩ | ⟨stored, pg, _, hc1⟩
      · subst hc1
        rw [run_on_page_vertex_eq]
        refine ⟨rfl, _, append_block4 _ _ _ _ _, fun st hst =>
      scan_block_rests c.v st hst _ (by simp [bracket.next]) _ (scan_directed_calls c.v _) _⟩
      · subst hc1
        exact ⟨rfl, [], by simp, fun st hst => ⟨st, rfl, hst⟩⟩
      · subst hc1
        simp only [vertex_compute.emit, run_on_page_vertex_eq]
        refine ⟨trivial, _, append_block5 _ _ _ _ _ _, fun st hst =>
          ⟨bracket.outside, ?_, Or.inl rfl⟩⟩
        rw [scan_append, scan_block c.v st hst _ (by simp [bracket.next]) _
          (scan_directed_calls c.v _) _]
        simp only [Option.some_bind]
        split <;> simp [bracket.scan, bracket.next]

theorem arrive_all_bracketed (g : graph_engine) (t : worker_thread) (ops : List arrival_op)
    (c c1 : vertex_compute) (h : c.arrive_all g t ops = some c1) :
    c1.v = c.v
    ∧ ∃ added, c1.trace = c.trace ++ added
      ∧ ∀ st, (st = bracket.outside ∨ st = bracket.finished) →
          ∃ st1, bracket.scan c.v st added = some st1
            ∧ (st1 = bracket.outside ∨ st1 = bracket.finished) := by
  induction ops generalizing c with
  | nil =>
    simp only [vertex_compute.arrive_all, Option.some.injEq] at h
    subst h
    exact ⟨rfl, [], by simp, fun st hst => ⟨st, rfl, hst⟩⟩
  | cons op ops ih =>
    simp only [vertex_compute.arrive_all] at h
    split at h
    · rename_i c2 hs
      obtain ⟨hv, blk, htr, hscan⟩ := arrive_bracketed g t c c2 op hs
      obtain ⟨hv2, added, htr2, hscan2⟩ := ih c2 h
      refine ⟨hv2.trans hv, blk ++ added, by rw [htr2, htr, List.append_assoc], ?_⟩
      intro st hst
      obtain ⟨st1, h1, hr1⟩ := hscan st hst
      obtain ⟨st2, h2, hr2⟩ := hscan2 st1 hr1
      rw [hv] at h2
      exact ⟨st2, by rw [scan_append, h1]; exact h2, hr2⟩
    · cases h

theorem scan_alternates (v : compute_vertex_pointer) (es : List event) (st st1 : bracket)
    (h : bracket.scan v st es = some st1) :
    alternates st.start_due (bracket_marks es) = true := by
  induction es generalizing st with
  | nil => rfl
  | cons e es ih =>
    simp only [bracket.scan] at h
    cases hn : bracket.next v st e with
    | none => simp [hn] at h
    | some st2 =>
      simp only [hn] at h
      have h2 := ih st2 h
      cases st <;> cases e <;> simp [bracket.next] at hn <;>
        obtain ⟨_, rfl⟩ := hn <;>
        simpa [bracket_marks, alternates, bracket.start_due] using h2

theorem scan_single (v : compute_vertex_pointer) (st : bracket) (x : event) :
    bracket.scan v st [x] = bracket.next v st x := by
  simp only [bracket.scan]
  cases bracket.next v st x <;> rfl

theorem scan_before_invocation (v : compute_vertex_pointer) (pre : List event)
    (st st1 : bracket) (hst : st = bracket.outside ∨ st = bracket.finished)
    (h : bracket.scan v st pre = some st1) (hs : st1 = bracket.started) :
    ∃ pre1, pre = pre1 ++ [event.start_run_vertex v] := by
  rcases List.eq_nil_or_concat pre with hp | ⟨pre1, x, hp⟩
  · subst hp
    simp only [bracket.scan, Option.some.injEq] at h
    subst hs
    rcases hst with h1 | h1 <;> rw [h1] at h <;> cases h
  · subst hp
    simp only [List.concat_eq_append] at h ⊢
    rw [scan_append] at h
    cases h0 : bracket.scan v st pre1 with
    | none => simp [h0] at h
    | some s =>
      simp only [h0, Option.some_bind, scan_single] at h
      subst hs
      refine ⟨pre1, ?_⟩
      cases s <;> cases x <;> simp [bracket.next] at h <;> simp [h]

theorem scan_before_signal (v : compute_vertex_pointer) (pre : List event)
    (st1 : bracket) (h : bracket.scan v bracket.outside pre = some st1)
    (hs : st1 = bracket.finished) :
    ∃ pre1, pre = pre1 ++ [event.finish_run_vertex v] := by
  rcases List.eq_nil_or_concat pre with hp | ⟨pre1, x, hp⟩
  · subst hp
    simp only [bracket.scan, Option.some.injEq] at h
    subst hs
    cases h
  · subst hp
    simp only [List.concat_eq_append] at h ⊢
    rw [scan_append] at h
    cases h0 : bracket.scan v bracket.outside pre1 with
    | none => simp [h0] at h
    | some s =>
      simp only [h0, Option.some_bind, scan_single] at h
      subst hs
      refine ⟨pre1, ?_⟩
      cases s <;> cases x <;> simp [bracket.next] at h
      simp [h]

theorem scan_after_invocation (v : compute_vertex_pointer) (post : List event)
    (st1 : bracket) (h : bracket.scan v bracket.running post = some st1)
    (hs : st1 = bracket.outside ∨ st1 = bracket.finished) :
    ∃ calls rest, post = calls ++ event.finish_run_vertex v :: rest
      ∧ ∀ x ∈ calls, x.is_program_call = true := by
  induction post with
  | nil =>
    simp only [bracket.scan, Option.some.injEq] at h
    rcases hs with h1 | h1 <;> simp [← h] at h1
  | cons x xs ih =>
    simp only [bracket.scan] at h
    cases hn : bracket.next v bracket.running x with
    | none => simp [hn] at h
    | some s =>
      simp only [hn] at h
      by_cases hx : x = event.finish_run_vertex v
      · exact ⟨[], xs, by simp [hx], by simp⟩
      · have hrun : s = bracket.running ∧ x.is_program_call = true := by
          cases x <;> simp [bracket.next] at hn <;>
            simp_all [event.is_program_call]
        rw [hrun.1] at h
        obtain ⟨calls, rest, hp, hc⟩ := ih h
        refine ⟨x :: calls, rest, by simp [hp], ?_⟩
        intro y hy
        rcases List.mem_cons.mp hy with h1 | h1
        · rw [h1]; exact hrun.2
        · exact hc y h1

theorem scan_split (v : compute_vertex_pointer) (pre : List event) (e : event)
    (post : List event) (st st1 : bracket)
    (h : bracket.scan v st (pre ++ e :: post) = some st1) :
    ∃ s1 s2, bracket.scan v st pre = some s1 ∧ bracket.next v s1 e = some s2
      ∧ bracket.scan v s2 post = some st1 := by
  rw [scan_append] at h
  cases h0 : bracket.scan v st pre with
  | none => simp [h0] at h
  | some s1 =>
    simp only [h0, Option.some_bind, bracket.scan] at h
    cases hn : bracket.next v s1 e with
    | none => simp [hn] at h
    | some s2 =>
      simp only [hn] at h
      exact ⟨s1, s2, rfl, hn, h⟩

theorem scan_marks_task (v : compute_vertex_pointer) (es : List event) (st st1 : bracket)
    (h : bracket.scan v st es = some st1) (w : compute_vertex_pointer)
    (hw : event.start_run_vertex w ∈ es ∨ event.finish_run_vertex w ∈ es
      ∨ event.complete_vertex w ∈ es) : w = v := by
  have key : ∀ e ∈ es, (e = event.start_run_vertex w ∨ e = event.finish_run_vertex w
      ∨ e = event.complete_vertex w) → w = v := by
    intro e he hew
    obtain ⟨pre, post, hsplit⟩ := List.append_of_mem he
    rw [hsplit] at h
    obtain ⟨s1, s2, _, hn, _⟩ := scan_split v pre e post st st1 h
    rcases hew with h1 | h1 | h1 <;> subst h1 <;> cases s1 <;> simp [bracket.next] at hn <;>
      exact hn.1
  rcases hw with h1 | h1 | h1
  · exact key _ h1 (Or.inl rfl)
  · exact key _ h1 (Or.inr (Or.inl rfl))
  · exact key _ h1 (Or.inr (Or.inr rfl))

/-- C21: in the calls that any sequence of arrivals (`run`,
`run_on_vertex_size`, `run_on_page_vertex` and their directed forms) adds
to the trace of one task, every vertex-program invocation comes right after
a start notification for the task and is followed, after nothing but the
requests the running program itself makes, by a finish notification for the
task; start and finish notifications strictly alternate, a start first, and
all name this task; and a vertex-complete signal comes right after a
finish. -/
theorem arrivals_bracketed (g : graph_engine) (t : worker_thread) (c c1 : vertex_compute)
    (ops : List arrival_op) (h : c.arrive_all g t ops = some c1) :
    ∃ added, c1.trace = c.trace ++ added
      ∧ (∀ pre e post, added = pre ++ e :: post → e.is_invocation = true →
          (∃ pre1, pre = pre1 ++ [event.start_run_vertex c.v])
          ∧ ∃ calls rest, post = calls ++ event.finish_run_vertex c.v :: rest
              ∧ ∀ x ∈ calls, x.is_program_call = true)
      ∧ alternates true (bracket_marks added) = true
      ∧ (∀ w, (event.start_run_vertex w ∈ added ∨ event.finish_run_vertex w ∈ added
            ∨ event.complete_vertex w ∈ added) → w = c.v)
      ∧ (∀ pre w post, added = pre ++ event.complete_vertex w :: post →
          ∃ pre1, pre = pre1 ++ [event.finish_run_vertex c.v]) := by
  obtain ⟨_, added, htr, hscan⟩ := arrive_all_bracketed g t ops c c1 h
  obtain ⟨st1, hsc, hr⟩ := hscan bracket.outside (Or.inl rfl)
  refine ⟨added, htr, ?_, scan_alternates c.v added bracket.outside st1 hsc,
    scan_marks_task c.v added bracket.outside st1 hsc, ?_⟩
  · intro pre e post hsplit he
    rw [hsplit] at hsc
    obtain ⟨s1, s2, h1, hn, h2⟩ := scan_split c.v pre e post bracket.outside st1 hsc
    have hst : s1 = bracket.started ∧ s2 = bracket.running := by
      cases s1 <;> cases e <;> simp [event.is_invocation] at he <;>
        simp [bracket.next] at hn <;> simp [hn]
    rw [hst.2] at h2
    exact ⟨scan_before_invocation c.v pre bracket.outside s1 (Or.inl rfl) h1 hst.1,
      scan_after_invocation c.v post st1 h2 hr⟩
  · intro pre w post hsplit
    rw [hsplit] at hsc
    obtain ⟨s1, s2, h1, hn, _⟩ := scan_split c.v pre _ post bracket.outside st1 hsc
    have hst : s1 = bracket.finished := by
      cases s1 <;> simp [bracket.next] at hn
      rfl
    exact scan_before_signal c.v pre s1 h1 hst

theorem arrivals_bracketed_witness :
    task_paired_42.arrive_all graph_sample thread_asking arrivals_sample
        = some task_after_arrivals
    ∧ ∃ added, task_after_arrivals.trace = task_paired_42.trace ++ added
      ∧ (∀ pre e post, added = pre ++ e :: post → e.is_invocation = true →
          (∃ pre1, pre = pre1 ++ [event.start_run_vertex task_paired_42.v])
          ∧ ∃ calls rest, post = calls ++ event.finish_run_vertex task_paired_42.v :: rest
              ∧ ∀ x ∈ calls, x.is_program_call = true)
      ∧ alternates true (bracket_marks added) = true
      ∧ (∀ w, (event.start_run_vertex w ∈ added ∨ event.finish_run_vertex w ∈ added
            ∨ event.complete_vertex w ∈ added) → w = task_paired_42.v)
      ∧ (∀ pre w post, added = pre ++ event.complete_vertex w :: post →
          ∃ pre1, pre = pre1 ++ [event.finish_run_vertex task_paired_42.v]) :=
  ⟨rfl, arrivals_bracketed graph_sample thread_asking task_paired_42 task_after_arrivals
    arrivals_sample rfl⟩

/-! ## `prune_stats::finalize` -/

theorem finalize_eq (s : prune_stats)
    (hc : (s.lemma1 + s._3a + s._3b + s._3c + s._4) % UNSIGNED_RANGE
      ≤ (s.nrow * s.nclust) % UNSIGNED_RANGE) :
    s.finalize = Except.ok
      { s with
        iter := (s.iter + 1) % UNSIGNED_LONG_RANGE
        tot_lemma1 := (s.tot_lemma1 + s.lemma1) % UNSIGNED_LONG_RANGE
        tot_3a := (s.tot_3a + s._3a) % UNSIGNED_LONG_RANGE
        tot_3b := (s.tot_3b + s._3b) % UNSIGNED_LONG_RANGE
        tot_3c := (s.tot_3c + s._3c) % UNSIGNED_LONG_RANGE
        tot_4 := (s.tot_4 + s._4) % UNSIGNED_LONG_RANGE
        lemma1 := 0
        _3a := 0
        _3b := 0
        _3c := 0
        _4 := 0 } := by
  simp only [prune_stats.finalize]
  rw [if_pos hc]

theorem finalize_check (s s1 : prune_stats) (h : s.finalize = Except.ok s1) :
    (s.lemma1 + s._3a + s._3b + s._3c + s._4) % UNSIGNED_RANGE
      ≤ (s.nrow * s.nclust) % UNSIGNED_RANGE := by
  by_contra hc
  simp only [prune_stats.finalize] at h
  rw [if_neg hc] at h
  cases h

theorem step_pp (s s1 : prune_stats) (op : prune_op) (hop : op ≠ prune_op.finalize)
    (h : s.step op = Except.ok s1) (hr : s.in_range op = true) (k : prune_counter) :
    s1.total k = s.total k ∧ s1.count k = s.count k + op.increment k := by
  cases op <;> simp only [prune_stats.step, Except.ok.injEq, ne_eq, not_true_eq_false] at h hop <;>
    subst h <;> simp only [prune_stats.in_range, decide_eq_true_eq] at hr <;> cases k <;>
    simp [prune_stats.total, prune_stats.count, prune_op.increment, prune_stats.pp_lemma1,
      prune_stats.pp_3a, prune_stats.pp_3b, prune_stats.pp_3c, prune_stats.pp_4,
      Nat.mod_eq_of_lt hr]

theorem step_finalize (s s1 : prune_stats) (h : s.finalize = Except.ok s1)
    (hr : s.in_range prune_op.finalize = true) (k : prune_counter) :
    s1.total k = s.total k + s.count k ∧ s1.count k = 0 := by
  rw [finalize_eq s (finalize_check s s1 h)] at h
  simp only [Except.ok.injEq] at h
  subst h
  simp only [prune_stats.in_range, Bool.and_eq_true, decide_eq_true_eq] at hr
  obtain ⟨⟨⟨⟨⟨h1, h2⟩, h3⟩, h4⟩, h5⟩, _⟩ := hr
  cases k <;>
    simp [prune_stats.total, prune_stats.count, Nat.mod_eq_of_lt h1, Nat.mod_eq_of_lt h2,
      Nat.mod_eq_of_lt h3, Nat.mod_eq_of_lt h4, Nat.mod_eq_of_lt h5]

theorem increment_finalize (k : prune_counter) : prune_op.finalize.increment k = 0 := by
  cases k <;> rfl

theorem before_last_finalize_of_not_mem (ops : List prune_op)
    (h : prune_op.finalize ∉ ops) : before_last_finalize ops = [] := by
  cases ops with
  | nil => rfl
  | cons op ops => simp only [before_last_finalize, if_neg h]

theorem run_totals (ops : List prune_op) (s s1 : prune_stats)
    (h : s.run ops = Except.ok s1) (hr : s.all_in_range ops = true) (k : prune_counter) :
    s1.total k
      = if prune_op.finalize ∈ ops then
          s.total k + s.count k + increments k (before_last_finalize ops)
        else s.total k := by
  induction ops generalizing s with
  | nil =>
    simp only [prune_stats.run, Except.ok.injEq] at h
    subst h
    simp
  | cons op ops ih =>
    simp only [prune_stats.run] at h
    simp only [prune_stats.all_in_range, Bool.and_eq_true] at hr
    cases hs : s.step op with
    | error e => simp [hs] at h
    | ok s2 =>
      simp only [hs] at h hr
      have h2 := ih s2 h hr.2
      by_cases hop : op = prune_op.finalize
      · subst hop
        obtain ⟨ht, hc⟩ := step_finalize s s2 hs hr.1 k
        rw [h2, ht, hc]
        by_cases hm : prune_op.finalize ∈ ops
        · simp [hm, before_last_finalize, increments, increment_finalize]
        · simp [hm, before_last_finalize, increments, increment_finalize,
            before_last_finalize_of_not_mem ops hm]
      · obtain ⟨ht, hc⟩ := step_pp s s2 op hop hs hr.1 k
        rw [h2, ht, hc]
        have hne : ¬ prune_op.finalize = op := fun e => hop e.symm
        by_cases hm : prune_op.finalize ∈ ops
        · simp only [hm, if_true, List.mem_cons, or_true, before_last_finalize, increments]
          omega
        · simp [hm, hne]

/-- C24: `prune_stats::finalize`, when the sum of the five per-iteration
counts is at most `nrow*nclust`, both computed in `unsigned`, returns with
`iter` one up, each count added to its total (all modulo 2^64) and the five
counts zero, and with nothing wrapping around these are `iter + 1` and
total plus count; and after a sequence of `pp_` and `finalize` calls on a
fresh object in which every check holds and no addition wraps around, each
total is the sum of the increments asked for before the last `finalize`. -/
theorem finalize_totals (nrows nclust : Nat) (ops : List prune_op) (s1 : prune_stats)
    (h : (prune_stats.create nrows nclust).run ops = Except.ok s1)
    (hr : (prune_stats.create nrows nclust).all_in_range ops = true) :
    (∀ s : prune_stats,
        (s.lemma1 + s._3a + s._3b + s._3c + s._4) % UNSIGNED_RANGE
            ≤ (s.nrow * s.nclust) % UNSIGNED_RANGE →
        ∃ s2, s.finalize = Except.ok s2
          ∧ s2.iter = (s.iter + 1) % UNSIGNED_LONG_RANGE
          ∧ s2.nrow = s.nrow ∧ s2.nclust = s.nclust
          ∧ (∀ k, s2.total k = (s.total k + s.count k) % UNSIGNED_LONG_RANGE ∧ s2.count k = 0)
          ∧ (s.in_range prune_op.finalize = true →
              s2.iter = s.iter + 1 ∧ ∀ k, s2.total k = s.total k + s.count k))
      ∧ ∀ k, s1.total k = increments k (before_last_finalize ops) := by
  refine ⟨fun s hc => ⟨_, finalize_eq s hc, rfl, rfl, rfl, ?_, ?_⟩, ?_⟩
  · intro k
    cases k <;> exact ⟨rfl, rfl⟩
  · intro hin
    refine ⟨?_, fun k => (step_finalize s _ (finalize_eq s hc) hin k).1⟩
    simp only [prune_stats.in_range, Bool.and_eq_true, decide_eq_true_eq] at hin
    exact Nat.mod_eq_of_lt hin.2
  · intro k
    rw [run_totals ops _ s1 h hr k]
    by_cases hm : prune_op.finalize ∈ ops
    · rw [if_pos hm]
      cases k <;> simp [prune_stats.create, prune_stats.total, prune_stats.count]
    · rw [if_neg hm, before_last_finalize_of_not_mem ops hm]
      cases k <;> rfl

theorem finalize_totals_witness :
    (prune_stats.create 2 3).run prune_ops_sample = Except.ok prune_stats_sample
    ∧ (prune_stats.create 2 3).all_in_range prune_ops_sample = true
    ∧ increments prune_counter.lemma1 (before_last_finalize prune_ops_sample) = 5
    ∧ ∀ k, prune_stats_sample.total k = increments k (before_last_finalize prune_ops_sample) :=
  ⟨rfl, by decide, by decide,
   (finalize_totals 2 3 prune_ops_sample prune_stats_sample rfl (by decide)).2⟩

/-- C24, where the claim as worded fails: with 2147483648 rows and 2
clusters one count is at most `nrow*nclust`, yet the product wraps to zero
and the verified condition does not hold; and `lemma1` counted up to
4294967295 and then once more wraps to zero, so that `finalize` passes and
leaves the total at zero after increments of 4294967296. -/
theorem finalize_wraps_counterexample :
    ((prune_stats.create 2147483648 2).pp_3a.lemma1
        + (prune_stats.create 2147483648 2).pp_3a._3a
        + (prune_stats.create 2147483648 2).pp_3a._3b
        + (prune_stats.create 2147483648 2).pp_3a._3c
        + (prune_stats.create 2147483648 2).pp_3a._4
      ≤ (prune_stats.create 2147483648 2).pp_3a.nrow
        * (prune_stats.create 2147483648 2).pp_3a.nclust
      ∧ (prune_stats.create 2147483648 2).pp_3a.finalize
        = Except.error failure.InvariantViolation)
    ∧ (((prune_stats.create 1 1).run prune_ops_wrapping).toOption.map prune_stats.tot_lemma1
        = some 0
      ∧ increments prune_counter.lemma1 (before_last_finalize prune_ops_wrapping)
        = 4294967296) :=
  ⟨⟨by decide, rfl⟩, by decide, by decide⟩

end FlashGraph
